import Mathlib

/-!
Verification development for the `tex_fix_headings` repository.

The tool repairs TeX heading lines that contain inline math: it finds `$...$`
spans in `\section`/`\subsection` lines, derives a plain/unicode rendering for
each formula, and wraps the span in `\texorpdfstring{math}{text}`.

This file gives a shallow embedding of `tex_fix_heading.py`: the symbol table
(`default_mappings`), the transliteration pipeline (`_apply_known_mappings`,
`_handle_fractions`, `_handle_square_roots`, `_handle_superscripts_subscripts`,
`_cleanup_latex_commands`, `create_fallback_representation`), the heading
scanner (`process_line`, `is_inside_texorpdfstring`), the interactive
collaborators (`convert_formula_to_unicode`, `confirm_change`, modelled with an
explicit stdin list and an `Except` error for `EOFError`/`NameError`), and the
file driver (`process_file`).

Modelling conventions: a Python string is its list of unicode code points,
`List Nat` (Python `len` counts code points, as does `List.length`; `strOf`
converts a Lean string literal). Python's regex `\s` and `str.strip` are
modelled on the ASCII whitespace characters (all strings the program
manipulates in the claims are in this fragment); `re.sub` replacement strings
are taken literally (the renderings involved contain no backslash, so no group
escapes arise); Python's `dict` is an insertion-ordered association list with
unique keys; `sorted(..., key=len, reverse=True)` is a stable length-descending
merge sort. Scanners take an explicit fuel argument (always instantiated with
more than the string length, which no scanner step exceeds) so that every
definition is structurally recursive and computable by the kernel.
-/

set_option maxHeartbeats 4000000
set_option maxRecDepth 100000

namespace TexFix

/-- Python strings, as lists of unicode code points. -/
abbrev Str := List Nat

/-- Code points of a Lean string literal, for writing concrete inputs. -/
def strOf (s : String) : Str := s.data.map Char.toNat

/-- Code point of `\`. -/
def bslash : Nat := 92

/-- Code point of `{`. -/
def lbrace : Nat := 123

/-- Code point of `}`. -/
def rbrace : Nat := 125

/-- Code point of `$`, the math-span delimiter. -/
def dollar : Nat := 36

/-- ASCII letter, the regex class `[a-zA-Z]`. -/
def isLetterChar (c : Nat) : Bool :=
  (97 ≤ c && c ≤ 122) || (65 ≤ c && c ≤ 90)

/-- ASCII digit, the regex class `[0-9]`. -/
def isDigitChar (c : Nat) : Bool := 48 ≤ c && c ≤ 57

/-- The regex class `[a-zA-Z0-9]`. -/
def isAlnumChar (c : Nat) : Bool := isLetterChar c || isDigitChar c

/-- Whitespace for the regex class `\s` (restricted to its ASCII part). -/
def isSpaceChar (c : Nat) : Bool :=
  c == 32 || c == 9 || c == 10 || c == 13 || c == 11 || c == 12

/-- The operator class `[+\-*/=<>]` used throughout `_cleanup_latex_commands`:
the code points of `+ - * / = < >`. -/
def isOpChar (c : Nat) : Bool :=
  c == 43 || c == 45 || c == 42 || c == 47 || c == 61 || c == 60 || c == 62

/-- Substring test, Python's `pat in s`. -/
def containsStr (pat : Str) : Str → Bool
  | [] => pat.isEmpty
  | c :: rest => pat.isPrefixOf (c :: rest) || containsStr pat rest

/-- Character membership, Python's `c in s`. -/
def containsChar (c : Nat) (s : Str) : Bool := s.any (· == c)

/-- Python's `s.strip()` (ASCII-whitespace fragment). -/
def stripEnds (s : Str) : Str :=
  ((s.dropWhile isSpaceChar).reverse.dropWhile isSpaceChar).reverse

/-- Fuel-driven scanner for `re.sub(r'\s+', ' ', s)`. -/
def collapseWsGo : Nat → Str → Str
  | 0, s => s
  | _, [] => []
  | fuel + 1, c :: rest =>
    if isSpaceChar c then 32 :: collapseWsGo fuel (rest.dropWhile isSpaceChar)
    else c :: collapseWsGo fuel rest

/-- Models `re.sub(r'\s+', ' ', s)`: each maximal whitespace run becomes one space. -/
def collapseWs (s : Str) : Str := collapseWsGo (s.length + 1) s

/-- Models `re.sub(r'\s+', '', s)`: all whitespace removed. -/
def removeAllWs (s : Str) : Str := s.filter (fun c => !isSpaceChar c)

/-- Python's `s.replace("", r)` inserts `r` at every position. -/
def interleaveRepl (rend : Str) : Str → Str
  | [] => rend
  | c :: rest => rend ++ c :: interleaveRepl rend rest

/-- Fuel-driven scanner for Python's `s.replace(key, rend)` with nonempty `key`. -/
def replacePlainGo (key rend : Str) : Nat → Str → Str
  | 0, s => s
  | _, [] => []
  | fuel + 1, c :: rest =>
    if key.isPrefixOf (c :: rest) && !key.isEmpty then
      rend ++ replacePlainGo key rend fuel (rest.drop (key.length - 1))
    else
      c :: replacePlainGo key rend fuel rest

/-- Python's `s.replace(key, rend)` — the branch of `_apply_known_mappings` for
keys that are not backslash-commands: plain non-overlapping left-to-right
substring replacement (an empty key inserts the rendering everywhere). -/
def replacePlain (key rend s : Str) : Str :=
  if key.isEmpty then interleaveRepl rend s else replacePlainGo key rend (s.length + 1) s

/-- Lookahead `(?![a-zA-Z])`: the remainder must not begin with a letter. -/
def boundaryAfter : Str → Bool
  | [] => true
  | c :: _ => !isLetterChar c

/-- Fuel-driven scanner for the command-key substitution pass. -/
def replaceCmdGo (key rend : Str) : Nat → Str → Str
  | 0, s => s
  | _, [] => []
  | fuel + 1, c :: rest =>
    if key.isPrefixOf (c :: rest) && !key.isEmpty
        && boundaryAfter ((c :: rest).drop key.length) then
      rend ++ replaceCmdGo key rend fuel (rest.drop (key.length - 1))
    else
      c :: replaceCmdGo key rend fuel rest

/-- Models `re.sub(re.escape(key) + r'(?![a-zA-Z])', rend, s)` — the branch of
`_apply_known_mappings` for backslash-command keys: replace each occurrence of
`key` that is not immediately followed by a letter; on a failed position the
scan advances one character. -/
def replaceCmd (key rend s : Str) : Str := replaceCmdGo key rend (s.length + 1) s

/-- Whether a table key is a backslash command (`latex_cmd.startswith('\\')`). -/
def isCmdKey : Str → Bool
  | c :: _ => c == bslash
  | [] => false

/-- One substitution pass of `_apply_known_mappings` for a single table entry. -/
def applyOnePass (p : Str × Str) (s : Str) : Str :=
  if isCmdKey p.1 then replaceCmd p.1 p.2 s
  else replacePlain p.1 p.2 s

/-- Stable merge of two length-descending lists (fuel-driven): the left element
is taken when its key is at least as long, so earlier entries win ties. -/
def mergeByLen : Nat → List (Str × Str) → List (Str × Str) → List (Str × Str)
  | 0, xs, ys => xs ++ ys
  | _ + 1, [], ys => ys
  | _ + 1, x :: xs, [] => x :: xs
  | fuel + 1, x :: xs, y :: ys =>
    if y.1.length ≤ x.1.length then x :: mergeByLen fuel xs (y :: ys)
    else y :: mergeByLen fuel (x :: xs) ys

/-- Stable top-down merge sort by key length, descending (fuel-driven). -/
def msortByLen : Nat → List (Str × Str) → List (Str × Str)
  | 0, l => l
  | _ + 1, [] => []
  | _ + 1, [a] => [a]
  | fuel + 1, a :: b :: l =>
    let n := (a :: b :: l).length / 2
    mergeByLen ((a :: b :: l).length)
      (msortByLen fuel ((a :: b :: l).take n))
      (msortByLen fuel ((a :: b :: l).drop n))

/-- Models `sorted(self.math_mappings.items(), key=lambda x: len(x[0]), reverse=True)`:
stable sort, longest key first (Python's `sorted` is stable; a stable
length-descending merge sort produces the same list). -/
def sortMaps (m : List (Str × Str)) : List (Str × Str) :=
  msortByLen (m.length + 1) m

/-- Models `_apply_known_mappings`: apply every table entry, longest key first. -/
def applyKnownMappings (m : List (Str × Str)) (s : Str) : Str :=
  (sortMaps m).foldl (fun t p => applyOnePass p t) s

/-- Python dict lookup `m[k]` / `k in m` for the insertion-ordered table. -/
def lookupMap : List (Str × Str) → Str → Option Str
  | [], _ => none
  | p :: rest, k => if p.1 = k then some p.2 else lookupMap rest k

/-- Python dict assignment `m[k] = v`: replace in place, or append. -/
def updateMap : List (Str × Str) → Str → Str → List (Str × Str)
  | [], k, v => [(k, v)]
  | p :: rest, k, v => if p.1 = k then (k, v) :: rest else p :: updateMap rest k v

/-- Part 0 of the built-in `default_mappings` table (split only to keep list literals small). -/
def defaultMappingsChunk0 : List (Str × Str) := [
  ([92, 97, 108, 112, 104, 97], [945]),  -- \alpha ↦ α
  ([92, 98, 101, 116, 97], [946]),  -- \beta ↦ β
  ([92, 103, 97, 109, 109, 97], [947]),  -- \gamma ↦ γ
  ([92, 100, 101, 108, 116, 97], [948]),  -- \delta ↦ δ
  ([92, 101, 112, 115, 105, 108, 111, 110], [949]),  -- \epsilon ↦ ε
  ([92, 118, 97, 114, 101, 112, 115, 105, 108, 111, 110], [949]),  -- \varepsilon ↦ ε
  ([92, 122, 101, 116, 97], [950]),  -- \zeta ↦ ζ
  ([92, 101, 116, 97], [951]),  -- \eta ↦ η
  ([92, 116, 104, 101, 116, 97], [952]),  -- \theta ↦ θ
  ([92, 118, 97, 114, 116, 104, 101, 116, 97], [977]),  -- \vartheta ↦ ϑ
  ([92, 105, 111, 116, 97], [953]),  -- \iota ↦ ι
  ([92, 107, 97, 112, 112, 97], [954]),  -- \kappa ↦ κ
  ([92, 108, 97, 109, 98, 100, 97], [955]),  -- \lambda ↦ λ
  ([92, 109, 117], [956]),  -- \mu ↦ μ
  ([92, 110, 117], [957]),  -- \nu ↦ ν
  ([92, 120, 105], [958]),  -- \xi ↦ ξ
  ([92, 112, 105], [960]),  -- \pi ↦ π
  ([92, 118, 97, 114, 112, 105], [982]),  -- \varpi ↦ ϖ
  ([92, 114, 104, 111], [961]),  -- \rho ↦ ρ
  ([92, 118, 97, 114, 114, 104, 111], [1009]),  -- \varrho ↦ ϱ
  ([92, 115, 105, 103, 109, 97], [963]),  -- \sigma ↦ σ
  ([92, 118, 97, 114, 115, 105, 103, 109, 97], [962]),  -- \varsigma ↦ ς
  ([92, 116, 97, 117], [964]),  -- \tau ↦ τ
  ([92, 117, 112, 115, 105, 108, 111, 110], [965]),  -- \upsilon ↦ υ
  ([92, 112, 104, 105], [966]),  -- \phi ↦ φ
  ([92, 118, 97, 114, 112, 104, 105], [966]),  -- \varphi ↦ φ
  ([92, 99, 104, 105], [967]),  -- \chi ↦ χ
  ([92, 112, 115, 105], [968]),  -- \psi ↦ ψ
  ([92, 111, 109, 101, 103, 97], [969]),  -- \omega ↦ ω
  ([92, 71, 97, 109, 109, 97], [915]),  -- \Gamma ↦ Γ
  ([92, 68, 101, 108, 116, 97], [916]),  -- \Delta ↦ Δ
  ([92, 84, 104, 101, 116, 97], [920])  -- \Theta ↦ Θ
]

/-- Part 1 of the built-in `default_mappings` table (split only to keep list literals small). -/
def defaultMappingsChunk1 : List (Str × Str) := [
  ([92, 76, 97, 109, 98, 100, 97], [923]),  -- \Lambda ↦ Λ
  ([92, 88, 105], [926]),  -- \Xi ↦ Ξ
  ([92, 80, 105], [928]),  -- \Pi ↦ Π
  ([92, 83, 105, 103, 109, 97], [931]),  -- \Sigma ↦ Σ
  ([92, 85, 112, 115, 105, 108, 111, 110], [933]),  -- \Upsilon ↦ Υ
  ([92, 80, 104, 105], [934]),  -- \Phi ↦ Φ
  ([92, 80, 115, 105], [936]),  -- \Psi ↦ Ψ
  ([92, 79, 109, 101, 103, 97], [937]),  -- \Omega ↦ Ω
  ([92, 112, 109], [177]),  -- \pm ↦ ±
  ([92, 109, 112], [8723]),  -- \mp ↦ ∓
  ([92, 116, 105, 109, 101, 115], [215]),  -- \times ↦ ×
  ([92, 100, 105, 118], [247]),  -- \div ↦ ÷
  ([92, 99, 100, 111, 116], [183]),  -- \cdot ↦ ·
  ([92, 97, 115, 116], [8727]),  -- \ast ↦ ∗
  ([92, 115, 116, 97, 114], [8902]),  -- \star ↦ ⋆
  ([92, 99, 105, 114, 99], [8728]),  -- \circ ↦ ∘
  ([92, 98, 117, 108, 108, 101, 116], [8226]),  -- \bullet ↦ •
  ([92, 99, 97, 112], [8745]),  -- \cap ↦ ∩
  ([92, 99, 117, 112], [8746]),  -- \cup ↦ ∪
  ([92, 115, 113, 99, 97, 112], [8851]),  -- \sqcap ↦ ⊓
  ([92, 115, 113, 99, 117, 112], [8852]),  -- \sqcup ↦ ⊔
  ([92, 118, 101, 101], [8744]),  -- \vee ↦ ∨
  ([92, 119, 101, 100, 103, 101], [8743]),  -- \wedge ↦ ∧
  ([92, 115, 101, 116, 109, 105, 110, 117, 115], [8726]),  -- \setminus ↦ ∖
  ([92, 119, 114], [8768]),  -- \wr ↦ ≀
  ([92, 100, 105, 97, 109, 111, 110, 100], [8900]),  -- \diamond ↦ ⋄
  ([92, 98, 105, 103, 116, 114, 105, 97, 110, 103, 108, 101, 117, 112], [9651]),  -- \bigtriangleup ↦ △
  ([92, 98, 105, 103, 116, 114, 105, 97, 110, 103, 108, 101, 100, 111, 119, 110], [9661]),  -- \bigtriangledown ↦ ▽
  ([92, 116, 114, 105, 97, 110, 103, 108, 101, 108, 101, 102, 116], [9665]),  -- \triangleleft ↦ ◁
  ([92, 116, 114, 105, 97, 110, 103, 108, 101, 114, 105, 103, 104, 116], [9655]),  -- \triangleright ↦ ▷
  ([92, 108, 104, 100], [8882]),  -- \lhd ↦ ⊲
  ([92, 114, 104, 100], [8883])  -- \rhd ↦ ⊳
]

/-- Part 2 of the built-in `default_mappings` table (split only to keep list literals small). -/
def defaultMappingsChunk2 : List (Str × Str) := [
  ([92, 117, 110, 108, 104, 100], [8884]),  -- \unlhd ↦ ⊴
  ([92, 117, 110, 114, 104, 100], [8885]),  -- \unrhd ↦ ⊵
  ([92, 111, 112, 108, 117, 115], [8853]),  -- \oplus ↦ ⊕
  ([92, 111, 109, 105, 110, 117, 115], [8854]),  -- \ominus ↦ ⊖
  ([92, 111, 116, 105, 109, 101, 115], [8855]),  -- \otimes ↦ ⊗
  ([92, 111, 115, 108, 97, 115, 104], [8856]),  -- \oslash ↦ ⊘
  ([92, 111, 100, 111, 116], [8857]),  -- \odot ↦ ⊙
  ([92, 98, 105, 103, 99, 105, 114, 99], [9711]),  -- \bigcirc ↦ ◯
  ([92, 100, 97, 103, 103, 101, 114], [8224]),  -- \dagger ↦ †
  ([92, 100, 100, 97, 103, 103, 101, 114], [8225]),  -- \ddagger ↦ ‡
  ([92, 97, 109, 97, 108, 103], [10815]),  -- \amalg ↦ ⨿
  ([92, 108, 101, 113], [8804]),  -- \leq ↦ ≤
  ([92, 108, 101], [8804]),  -- \le ↦ ≤
  ([92, 103, 101, 113], [8805]),  -- \geq ↦ ≥
  ([92, 103, 101], [8805]),  -- \ge ↦ ≥
  ([92, 101, 113, 117, 105, 118], [8801]),  -- \equiv ↦ ≡
  ([92, 109, 111, 100, 101, 108, 115], [8872]),  -- \models ↦ ⊨
  ([92, 112, 114, 101, 99], [8826]),  -- \prec ↦ ≺
  ([92, 115, 117, 99, 99], [8827]),  -- \succ ↦ ≻
  ([92, 115, 105, 109], [8764]),  -- \sim ↦ ∼
  ([92, 112, 101, 114, 112], [8869]),  -- \perp ↦ ⊥
  ([92, 112, 114, 101, 99, 101, 113], [10927]),  -- \preceq ↦ ⪯
  ([92, 115, 117, 99, 99, 101, 113], [10928]),  -- \succeq ↦ ⪰
  ([92, 115, 105, 109, 101, 113], [8771]),  -- \simeq ↦ ≃
  ([92, 109, 105, 100], [8739]),  -- \mid ↦ ∣
  ([92, 108, 108], [8810]),  -- \ll ↦ ≪
  ([92, 103, 103], [8811]),  -- \gg ↦ ≫
  ([92, 97, 115, 121, 109, 112], [8781]),  -- \asymp ↦ ≍
  ([92, 112, 97, 114, 97, 108, 108, 101, 108], [8741]),  -- \parallel ↦ ∥
  ([92, 115, 117, 98, 115, 101, 116], [8834]),  -- \subset ↦ ⊂
  ([92, 115, 117, 112, 115, 101, 116], [8835]),  -- \supset ↦ ⊃
  ([92, 97, 112, 112, 114, 111, 120], [8776])  -- \approx ↦ ≈
]

/-- Part 3 of the built-in `default_mappings` table (split only to keep list literals small). -/
def defaultMappingsChunk3 : List (Str × Str) := [
  ([92, 98, 111, 119, 116, 105, 101], [8904]),  -- \bowtie ↦ ⋈
  ([92, 115, 117, 98, 115, 101, 116, 101, 113], [8838]),  -- \subseteq ↦ ⊆
  ([92, 115, 117, 112, 115, 101, 116, 101, 113], [8839]),  -- \supseteq ↦ ⊇
  ([92, 99, 111, 110, 103], [8773]),  -- \cong ↦ ≅
  ([92, 115, 113, 115, 117, 98, 115, 101, 116], [8847]),  -- \sqsubset ↦ ⊏
  ([92, 115, 113, 115, 117, 112, 115, 101, 116], [8848]),  -- \sqsupset ↦ ⊐
  ([92, 110, 101, 113], [8800]),  -- \neq ↦ ≠
  ([92, 110, 101], [8800]),  -- \ne ↦ ≠
  ([92, 115, 109, 105, 108, 101], [8995]),  -- \smile ↦ ⌣
  ([92, 115, 113, 115, 117, 98, 115, 101, 116, 101, 113], [8849]),  -- \sqsubseteq ↦ ⊑
  ([92, 115, 113, 115, 117, 112, 115, 101, 116, 101, 113], [8850]),  -- \sqsupseteq ↦ ⊒
  ([92, 100, 111, 116, 101, 113], [8784]),  -- \doteq ↦ ≐
  ([92, 102, 114, 111, 119, 110], [8994]),  -- \frown ↦ ⌢
  ([92, 105, 110], [8712]),  -- \in ↦ ∈
  ([92, 110, 105], [8715]),  -- \ni ↦ ∋
  ([92, 112, 114, 111, 112, 116, 111], [8733]),  -- \propto ↦ ∝
  ([92, 118, 100, 97, 115, 104], [8866]),  -- \vdash ↦ ⊢
  ([92, 100, 97, 115, 104, 118], [8867]),  -- \dashv ↦ ⊣
  ([92, 108, 101, 102, 116, 97, 114, 114, 111, 119], [8592]),  -- \leftarrow ↦ ←
  ([92, 103, 101, 116, 115], [8592]),  -- \gets ↦ ←
  ([92, 114, 105, 103, 104, 116, 97, 114, 114, 111, 119], [8594]),  -- \rightarrow ↦ →
  ([92, 116, 111], [8594]),  -- \to ↦ →
  ([92, 108, 101, 102, 116, 114, 105, 103, 104, 116, 97, 114, 114, 111, 119], [8596]),  -- \leftrightarrow ↦ ↔
  ([92, 117, 112, 97, 114, 114, 111, 119], [8593]),  -- \uparrow ↦ ↑
  ([92, 100, 111, 119, 110, 97, 114, 114, 111, 119], [8595]),  -- \downarrow ↦ ↓
  ([92, 117, 112, 100, 111, 119, 110, 97, 114, 114, 111, 119], [8597]),  -- \updownarrow ↦ ↕
  ([92, 76, 101, 102, 116, 97, 114, 114, 111, 119], [8656]),  -- \Leftarrow ↦ ⇐
  ([92, 82, 105, 103, 104, 116, 97, 114, 114, 111, 119], [8658]),  -- \Rightarrow ↦ ⇒
  ([92, 76, 101, 102, 116, 114, 105, 103, 104, 116, 97, 114, 114, 111, 119], [8660]),  -- \Leftrightarrow ↦ ⇔
  ([92, 85, 112, 97, 114, 114, 111, 119], [8657]),  -- \Uparrow ↦ ⇑
  ([92, 68, 111, 119, 110, 97, 114, 114, 111, 119], [8659]),  -- \Downarrow ↦ ⇓
  ([92, 85, 112, 100, 111, 119, 110, 97, 114, 114, 111, 119], [8661])  -- \Updownarrow ↦ ⇕
]

/-- Part 4 of the built-in `default_mappings` table (split only to keep list literals small). -/
def defaultMappingsChunk4 : List (Str × Str) := [
  ([92, 109, 97, 112, 115, 116, 111], [8614]),  -- \mapsto ↦ ↦
  ([92, 108, 111, 110, 103, 109, 97, 112, 115, 116, 111], [10236]),  -- \longmapsto ↦ ⟼
  ([92, 104, 111, 111, 107, 108, 101, 102, 116, 97, 114, 114, 111, 119], [8617]),  -- \hookleftarrow ↦ ↩
  ([92, 104, 111, 111, 107, 114, 105, 103, 104, 116, 97, 114, 114, 111, 119], [8618]),  -- \hookrightarrow ↦ ↪
  ([92, 108, 101, 102, 116, 104, 97, 114, 112, 111, 111, 110, 117, 112], [8636]),  -- \leftharpoonup ↦ ↼
  ([92, 108, 101, 102, 116, 104, 97, 114, 112, 111, 111, 110, 100, 111, 119, 110], [8637]),  -- \leftharpoondown ↦ ↽
  ([92, 114, 105, 103, 104, 116, 104, 97, 114, 112, 111, 111, 110, 117, 112], [8640]),  -- \rightharpoonup ↦ ⇀
  ([92, 114, 105, 103, 104, 116, 104, 97, 114, 112, 111, 111, 110, 100, 111, 119, 110], [8641]),  -- \rightharpoondown ↦ ⇁
  ([92, 114, 105, 103, 104, 116, 108, 101, 102, 116, 104, 97, 114, 112, 111, 111, 110, 115], [8652]),  -- \rightleftharpoons ↦ ⇌
  ([92, 105, 102, 102], [10234]),  -- \iff ↦ ⟺
  ([92, 108, 100, 111, 116, 115], [8230]),  -- \ldots ↦ …
  ([92, 99, 100, 111, 116, 115], [8943]),  -- \cdots ↦ ⋯
  ([92, 118, 100, 111, 116, 115], [8942]),  -- \vdots ↦ ⋮
  ([92, 100, 100, 111, 116, 115], [8945]),  -- \ddots ↦ ⋱
  ([92, 97, 108, 101, 112, 104], [8501]),  -- \aleph ↦ ℵ
  ([92, 112, 114, 105, 109, 101], [8242]),  -- \prime ↦ ′
  ([92, 102, 111, 114, 97, 108, 108], [8704]),  -- \forall ↦ ∀
  ([92, 101, 120, 105, 115, 116, 115], [8707]),  -- \exists ↦ ∃
  ([92, 109, 104, 111], [8487]),  -- \mho ↦ ℧
  ([92, 112, 97, 114, 116, 105, 97, 108], [8706]),  -- \partial ↦ ∂
  ([92, 101, 109, 112, 116, 121, 115, 101, 116], [8709]),  -- \emptyset ↦ ∅
  ([92, 105, 110, 102, 116, 121], [8734]),  -- \infty ↦ ∞
  ([92, 110, 97, 98, 108, 97], [8711]),  -- \nabla ↦ ∇
  ([92, 116, 114, 105, 97, 110, 103, 108, 101], [9651]),  -- \triangle ↦ △
  ([92, 66, 111, 120], [9633]),  -- \Box ↦ □
  ([92, 68, 105, 97, 109, 111, 110, 100], [9674]),  -- \Diamond ↦ ◊
  ([92, 98, 111, 116], [8869]),  -- \bot ↦ ⊥
  ([92, 116, 111, 112], [8868]),  -- \top ↦ ⊤
  ([92, 97, 110, 103, 108, 101], [8736]),  -- \angle ↦ ∠
  ([92, 115, 117, 114, 100], [8730]),  -- \surd ↦ √
  ([92, 100, 105, 97, 109, 111, 110, 100, 115, 117, 105, 116], [9830]),  -- \diamondsuit ↦ ♦
  ([92, 104, 101, 97, 114, 116, 115, 117, 105, 116], [9829])  -- \heartsuit ↦ ♥
]

/-- Part 5 of the built-in `default_mappings` table (split only to keep list literals small). -/
def defaultMappingsChunk5 : List (Str × Str) := [
  ([92, 99, 108, 117, 98, 115, 117, 105, 116], [9827]),  -- \clubsuit ↦ ♣
  ([92, 115, 112, 97, 100, 101, 115, 117, 105, 116], [9824]),  -- \spadesuit ↦ ♠
  ([92, 110, 101, 103], [172]),  -- \neg ↦ ¬
  ([92, 108, 110, 111, 116], [172]),  -- \lnot ↦ ¬
  ([92, 102, 108, 97, 116], [9837]),  -- \flat ↦ ♭
  ([92, 110, 97, 116, 117, 114, 97, 108], [9838]),  -- \natural ↦ ♮
  ([92, 115, 104, 97, 114, 112], [9839]),  -- \sharp ↦ ♯
  ([92, 115, 117, 109], [8721]),  -- \sum ↦ ∑
  ([92, 112, 114, 111, 100], [8719]),  -- \prod ↦ ∏
  ([92, 99, 111, 112, 114, 111, 100], [8720]),  -- \coprod ↦ ∐
  ([92, 105, 110, 116], [8747]),  -- \int ↦ ∫
  ([92, 111, 105, 110, 116], [8750]),  -- \oint ↦ ∮
  ([92, 98, 105, 103, 99, 97, 112], [8898]),  -- \bigcap ↦ ⋂
  ([92, 98, 105, 103, 99, 117, 112], [8899]),  -- \bigcup ↦ ⋃
  ([92, 98, 105, 103, 115, 113, 99, 117, 112], [10758]),  -- \bigsqcup ↦ ⨆
  ([92, 98, 105, 103, 118, 101, 101], [8897]),  -- \bigvee ↦ ⋁
  ([92, 98, 105, 103, 119, 101, 100, 103, 101], [8896]),  -- \bigwedge ↦ ⋀
  ([92, 98, 105, 103, 111, 100, 111, 116], [10752]),  -- \bigodot ↦ ⨀
  ([92, 98, 105, 103, 111, 116, 105, 109, 101, 115], [10754]),  -- \bigotimes ↦ ⨂
  ([92, 98, 105, 103, 111, 112, 108, 117, 115], [10753]),  -- \bigoplus ↦ ⨁
  ([92, 98, 105, 103, 117, 112, 108, 117, 115], [10756]),  -- \biguplus ↦ ⨄
  ([120, 94, 50], [120, 178]),  -- x^2 ↦ x²
  ([120, 94, 51], [120, 179]),  -- x^3 ↦ x³
  ([120, 94, 110], [120, 8319]),  -- x^n ↦ xⁿ
  ([120, 95, 105], [120, 7522]),  -- x_i ↦ xᵢ
  ([120, 95, 48], [120, 8320]),  -- x_0 ↦ x₀
  ([120, 95, 49], [120, 8321]),  -- x_1 ↦ x₁
  ([120, 95, 50], [120, 8322]),  -- x_2 ↦ x₂
  ([120, 95, 110], [120, 8345]),  -- x_n ↦ xₙ
  ([97, 95, 105], [97, 7522]),  -- a_i ↦ aᵢ
  ([97, 95, 110], [97, 8345]),  -- a_n ↦ aₙ
  ([102, 40, 120, 41], [102, 40, 120, 41])  -- f(x) ↦ f(x)
]

/-- Part 6 of the built-in `default_mappings` table (split only to keep list literals small). -/
def defaultMappingsChunk6 : List (Str × Str) := [
  ([103, 40, 120, 41], [103, 40, 120, 41]),  -- g(x) ↦ g(x)
  ([104, 40, 120, 41], [104, 40, 120, 41]),  -- h(x) ↦ h(x)
  ([70, 40, 120, 41], [70, 40, 120, 41]),  -- F(x) ↦ F(x)
  ([71, 40, 120, 41], [71, 40, 120, 41]),  -- G(x) ↦ G(x)
  ([72, 40, 120, 41], [72, 40, 120, 41]),  -- H(x) ↦ H(x)
  ([92, 115, 117, 109, 95, 123, 105, 61, 49, 125, 94, 110], [8721, 7522, 8332, 8321, 8319]),  -- \sum_{i=1}^n ↦ ∑ᵢ₌₁ⁿ
  ([92, 115, 117, 109, 95, 123, 105, 61, 48, 125, 94, 110], [8721, 7522, 8332, 8320, 8319]),  -- \sum_{i=0}^n ↦ ∑ᵢ₌₀ⁿ
  ([92, 112, 114, 111, 100, 95, 123, 105, 61, 49, 125, 94, 110], [8719, 7522, 8332, 8321, 8319]),  -- \prod_{i=1}^n ↦ ∏ᵢ₌₁ⁿ
  ([92, 105, 110, 116, 95, 48, 94, 92, 105, 110, 102, 116, 121], [8747, 8320, 94, 8734]),  -- \int_0^\infty ↦ ∫₀^∞
  ([92, 105, 110, 116, 95, 123, 45, 92, 105, 110, 102, 116, 121, 125, 94, 92, 105, 110, 102, 116, 121], [8747, 8331, 8734, 94, 8734]),  -- \int_{-\infty}^\infty ↦ ∫₋∞^∞
  ([92, 105, 110, 116, 95, 97, 94, 98], [8747, 8336, 7495]),  -- \int_a^b ↦ ∫ₐᵇ
  ([92, 102, 114, 97, 99, 123, 49, 125, 123, 50, 125], [189]),  -- \frac{1}{2} ↦ ½
  ([92, 102, 114, 97, 99, 123, 49, 125, 123, 51, 125], [8531]),  -- \frac{1}{3} ↦ ⅓
  ([92, 102, 114, 97, 99, 123, 50, 125, 123, 51, 125], [8532]),  -- \frac{2}{3} ↦ ⅔
  ([92, 102, 114, 97, 99, 123, 49, 125, 123, 52, 125], [188]),  -- \frac{1}{4} ↦ ¼
  ([92, 102, 114, 97, 99, 123, 51, 125, 123, 52, 125], [190]),  -- \frac{3}{4} ↦ ¾
  ([92, 102, 114, 97, 99, 123, 49, 125, 123, 53, 125], [8533]),  -- \frac{1}{5} ↦ ⅕
  ([92, 102, 114, 97, 99, 123, 49, 125, 123, 54, 125], [8537]),  -- \frac{1}{6} ↦ ⅙
  ([92, 102, 114, 97, 99, 123, 49, 125, 123, 56, 125], [8539]),  -- \frac{1}{8} ↦ ⅛
  ([92, 102, 114, 97, 99, 123, 97, 125, 123, 98, 125], [97, 47, 98]),  -- \frac{a}{b} ↦ a/b
  ([92, 102, 114, 97, 99, 123, 120, 125, 123, 121, 125], [120, 47, 121]),  -- \frac{x}{y} ↦ x/y
  ([92, 115, 113, 114, 116, 123, 120, 125], [8730, 120]),  -- \sqrt{x} ↦ √x
  ([92, 115, 113, 114, 116, 123, 50, 125], [8730, 50]),  -- \sqrt{2} ↦ √2
  ([92, 115, 113, 114, 116, 123, 51, 125], [8730, 51]),  -- \sqrt{3} ↦ √3
  ([92, 115, 113, 114, 116, 123, 110, 125], [8730, 110]),  -- \sqrt{n} ↦ √n
  ([101, 94, 120], [101, 739]),  -- e^x ↦ eˣ
  ([101, 94, 123, 45, 120, 125], [101, 8315, 739]),  -- e^{-x} ↦ e⁻ˣ
  ([101, 94, 123, 105, 92, 112, 105, 125], [101, 94, 40, 105, 960, 41]),  -- e^{i\pi} ↦ e^(iπ)
  ([50, 94, 110], [50, 8319]),  -- 2^n ↦ 2ⁿ
  ([49, 48, 94, 110], [49, 48, 8319]),  -- 10^n ↦ 10ⁿ
  ([92, 115, 105, 110, 32, 120], [115, 105, 110, 32, 120]),  -- \sin x ↦ sin x
  ([92, 99, 111, 115, 32, 120], [99, 111, 115, 32, 120])  -- \cos x ↦ cos x
]

/-- Part 7 of the built-in `default_mappings` table (split only to keep list literals small). -/
def defaultMappingsChunk7 : List (Str × Str) := [
  ([92, 116, 97, 110, 32, 120], [116, 97, 110, 32, 120]),  -- \tan x ↦ tan x
  ([92, 99, 111, 116, 32, 120], [99, 111, 116, 32, 120]),  -- \cot x ↦ cot x
  ([92, 115, 101, 99, 32, 120], [115, 101, 99, 32, 120]),  -- \sec x ↦ sec x
  ([92, 99, 115, 99, 32, 120], [99, 115, 99, 32, 120]),  -- \csc x ↦ csc x
  ([92, 97, 114, 99, 115, 105, 110, 32, 120], [97, 114, 99, 115, 105, 110, 32, 120]),  -- \arcsin x ↦ arcsin x
  ([92, 97, 114, 99, 99, 111, 115, 32, 120], [97, 114, 99, 99, 111, 115, 32, 120]),  -- \arccos x ↦ arccos x
  ([92, 97, 114, 99, 116, 97, 110, 32, 120], [97, 114, 99, 116, 97, 110, 32, 120]),  -- \arctan x ↦ arctan x
  ([92, 115, 105, 110, 104, 32, 120], [115, 105, 110, 104, 32, 120]),  -- \sinh x ↦ sinh x
  ([92, 99, 111, 115, 104, 32, 120], [99, 111, 115, 104, 32, 120]),  -- \cosh x ↦ cosh x
  ([92, 116, 97, 110, 104, 32, 120], [116, 97, 110, 104, 32, 120]),  -- \tanh x ↦ tanh x
  ([92, 108, 111, 103, 32, 120], [108, 111, 103, 32, 120]),  -- \log x ↦ log x
  ([92, 108, 110, 32, 120], [108, 110, 32, 120]),  -- \ln x ↦ ln x
  ([92, 108, 111, 103, 95, 50, 32, 120], [108, 111, 103, 8322, 32, 120]),  -- \log_2 x ↦ log₂ x
  ([92, 108, 111, 103, 95, 123, 49, 48, 125, 32, 120], [108, 111, 103, 8321, 8320, 32, 120]),  -- \log_{10} x ↦ log₁₀ x
  ([92, 108, 103, 32, 120], [108, 103, 32, 120]),  -- \lg x ↦ lg x
  ([65, 32, 92, 116, 105, 109, 101, 115, 32, 66], [65, 32, 215, 32, 66]),  -- A \times B ↦ A × B
  ([65, 32, 92, 99, 100, 111, 116, 32, 66], [65, 32, 183, 32, 66]),  -- A \cdot B ↦ A · B
  ([97, 32, 92, 108, 101, 113, 32, 98], [97, 32, 8804, 32, 98]),  -- a \leq b ↦ a ≤ b
  ([97, 32, 92, 103, 101, 113, 32, 98], [97, 32, 8805, 32, 98]),  -- a \geq b ↦ a ≥ b
  ([97, 32, 92, 110, 101, 113, 32, 98], [97, 32, 8800, 32, 98]),  -- a \neq b ↦ a ≠ b
  ([97, 32, 92, 97, 112, 112, 114, 111, 120, 32, 98], [97, 32, 8776, 32, 98]),  -- a \approx b ↦ a ≈ b
  ([97, 32, 92, 101, 113, 117, 105, 118, 32, 98], [97, 32, 8801, 32, 98]),  -- a \equiv b ↦ a ≡ b
  ([97, 32, 92, 105, 110, 32, 66], [97, 32, 8712, 32, 66]),  -- a \in B ↦ a ∈ B
  ([97, 32, 92, 110, 111, 116, 105, 110, 32, 66], [97, 32, 8713, 32, 66]),  -- a \notin B ↦ a ∉ B
  ([65, 32, 92, 115, 117, 98, 115, 101, 116, 32, 66], [65, 32, 8834, 32, 66]),  -- A \subset B ↦ A ⊂ B
  ([65, 32, 92, 115, 117, 112, 115, 101, 116, 32, 66], [65, 32, 8835, 32, 66]),  -- A \supset B ↦ A ⊃ B
  ([65, 32, 92, 115, 117, 98, 115, 101, 116, 101, 113, 32, 66], [65, 32, 8838, 32, 66]),  -- A \subseteq B ↦ A ⊆ B
  ([65, 32, 92, 115, 117, 112, 115, 101, 116, 101, 113, 32, 66], [65, 32, 8839, 32, 66]),  -- A \supseteq B ↦ A ⊇ B
  ([65, 32, 92, 99, 117, 112, 32, 66], [65, 32, 8746, 32, 66]),  -- A \cup B ↦ A ∪ B
  ([65, 32, 92, 99, 97, 112, 32, 66], [65, 32, 8745, 32, 66]),  -- A \cap B ↦ A ∩ B
  ([65, 32, 92, 115, 101, 116, 109, 105, 110, 117, 115, 32, 66], [65, 32, 8726, 32, 66])  -- A \setminus B ↦ A ∖ B
]

/-- The built-in `default_mappings` table of `load_mappings`, in source order. -/
def defaultMappings : List (Str × Str) :=
  defaultMappingsChunk0 ++ defaultMappingsChunk1 ++ defaultMappingsChunk2 ++ defaultMappingsChunk3 ++ defaultMappingsChunk4 ++ defaultMappingsChunk5 ++ defaultMappingsChunk6 ++ defaultMappingsChunk7


/-- Argument parser for the fraction/root regexes: the group
`[^{}]*(?:\{[^{}]*\}[^{}]*)*` followed by its closing brace. The argument may
contain runs of non-brace characters and one level of `{...}` groups; returns
the argument text and the remainder after the closing brace, or `none` where
the regex fails (unclosed argument or a second level of nesting). -/
def parseArg : Nat → Str → Option (Str × Str)
  | 0, _ => none
  | _ + 1, [] => none
  | fuel + 1, c :: rest =>
    if c == rbrace then some ([], rest)
    else if c == lbrace then
      let g := rest.takeWhile (fun x => x != lbrace && x != rbrace)
      match rest.drop g.length with
      | d :: rest2 =>
        if d == rbrace then
          match parseArg fuel rest2 with
          | some (content, rest3) => some (lbrace :: (g ++ rbrace :: content), rest3)
          | none => none
        else none
      | [] => none
    else
      match parseArg fuel rest with
      | some (content, rest2) => some (c :: content, rest2)
      | none => none

/-- The argument parser with its standard fuel. -/
def parseArgF (s : Str) : Option (Str × Str) := parseArg (s.length + 1) s

/-- The literal `\frac{`. -/
def fracPat : Str := [92, 102, 114, 97, 99, 123]

/-- The literal `\sqrt{`. -/
def sqrtPat : Str := [92, 115, 113, 114, 116, 123]

/-- The internal division marker `⟨FRAC⟩` of `_handle_fractions`. -/
def fracMarker : Str := [10216, 70, 82, 65, 67, 10217]

/-- Wrap in parentheses when any of the given operator code points occurs
(`any(op in part for op in [...])`). -/
def parenIfOps (ops : Str) (s : Str) : Str :=
  if s.any (fun c => ops.contains c) then 40 :: (s ++ [41]) else s

/-- The `replace_frac` callback: substitute known mappings in each side, strip
whitespace, parenthesise sides containing `+`, `-` or `*`, and join with the
division marker. -/
def replaceFrac (m : List (Str × Str)) (num den : Str) : Str :=
  let np := removeAllWs (applyKnownMappings m num)
  let dp := removeAllWs (applyKnownMappings m den)
  parenIfOps [43, 45, 42] np ++ fracMarker ++ parenIfOps [43, 45, 42] dp

/-- Fuel-driven scanner for the `\frac{num}{den}` rewrite of `_handle_fractions`. -/
def handleFracsGo (m : List (Str × Str)) : Nat → Str → Str
  | 0, s => s
  | _, [] => []
  | fuel + 1, c :: rest =>
    if fracPat.isPrefixOf (c :: rest) then
      match parseArgF (rest.drop 5) with
      | some (num, r1) =>
        match r1 with
        | d :: r2 =>
          if d == lbrace then
            match parseArgF r2 with
            | some (den, r3) => replaceFrac m num den ++ handleFracsGo m fuel r3
            | none => c :: handleFracsGo m fuel rest
          else c :: handleFracsGo m fuel rest
        | [] => c :: handleFracsGo m fuel rest
      | none => c :: handleFracsGo m fuel rest
    else c :: handleFracsGo m fuel rest

/-- Models `_handle_fractions`. -/
def handleFracs (m : List (Str × Str)) (s : Str) : Str :=
  handleFracsGo m (s.length + 1) s

/-- The `replace_sqrt` callback: substitute known mappings, strip whitespace,
and emit `√(content)` when an operator (`+ - * /`) occurs, else `√content`. -/
def replaceSqrt (m : List (Str × Str)) (content : Str) : Str :=
  let cp := removeAllWs (applyKnownMappings m content)
  if cp.any (fun c => ([43, 45, 42, 47] : Str).contains c) then
    8730 :: 40 :: (cp ++ [41])
  else 8730 :: cp

/-- Fuel-driven scanner for the `\sqrt{arg}` rewrite of `_handle_square_roots`. -/
def handleSqrtsGo (m : List (Str × Str)) : Nat → Str → Str
  | 0, s => s
  | _, [] => []
  | fuel + 1, c :: rest =>
    if sqrtPat.isPrefixOf (c :: rest) then
      match parseArgF (rest.drop 5) with
      | some (content, r1) => replaceSqrt m content ++ handleSqrtsGo m fuel r1
      | none => c :: handleSqrtsGo m fuel rest
    else c :: handleSqrtsGo m fuel rest

/-- Models `_handle_square_roots`. -/
def handleSqrts (m : List (Str × Str)) (s : Str) : Str :=
  handleSqrtsGo m (s.length + 1) s

/-- The `superscript_map` of `_handle_superscripts_subscripts` (code points). -/
def superPairs : List (Nat × Nat) := [(48, 8304), (49, 185), (50, 178), (51, 179), (52, 8308), (53, 8309), (54, 8310), (55, 8311), (56, 8312), (57, 8313), (43, 8314), (45, 8315), (61, 8316), (40, 8317), (41, 8318), (110, 8319), (105, 8305), (120, 739)]

/-- The `subscript_map` of `_handle_superscripts_subscripts` (code points). -/
def subPairs : List (Nat × Nat) := [(48, 8320), (49, 8321), (50, 8322), (51, 8323), (52, 8324), (53, 8325), (54, 8326), (55, 8327), (56, 8328), (57, 8329), (43, 8330), (45, 8331), (61, 8332), (40, 8333), (41, 8334), (97, 8336), (101, 8337), (104, 8341), (105, 7522), (106, 11388), (107, 8342), (108, 8343), (109, 8344), (110, 8345), (111, 8338), (112, 8346), (114, 7523), (115, 8347), (116, 8348), (117, 7524), (118, 7525), (120, 8339)]

/-- The `convert_script` helper: map each character through the table, leaving
unmapped characters unchanged. -/
def convertScript (mp : List (Nat × Nat)) (s : Str) : Str :=
  s.map (fun x => ((mp.lookup x).getD x))

/-- Fuel-driven scanner for one script regex
`mark\{([^}]+)\}|mark([a-zA-Z0-9])` (with `mark` the code point of `^` or `_`):
braced nonempty content or a single alphanumeric character is converted through
the script table; on a failed position the scan advances one character. -/
def scriptGo (mp : List (Nat × Nat)) (mark : Nat) : Nat → Str → Str
  | 0, s => s
  | _, [] => []
  | fuel + 1, c :: rest =>
    if c == mark then
      match rest with
      | b :: rest2 =>
        if b == lbrace then
          let content := rest2.takeWhile (fun x => x != rbrace)
          if content.isEmpty then c :: scriptGo mp mark fuel rest
          else
            match rest2.drop content.length with
            | d :: rest3 =>
              if d == rbrace then convertScript mp content ++ scriptGo mp mark fuel rest3
              else c :: scriptGo mp mark fuel rest
            | [] => c :: scriptGo mp mark fuel rest
        else if isAlnumChar b then convertScript mp [b] ++ scriptGo mp mark fuel rest2
        else c :: scriptGo mp mark fuel rest
      | [] => [c]
    else c :: scriptGo mp mark fuel rest

/-- Models `_handle_superscripts_subscripts`: the superscript pass (`^`, code
point 94) then the subscript pass (`_`, code point 95). -/
def handleScripts (s : Str) : Str :=
  let t := scriptGo superPairs 94 (s.length + 1) s
  scriptGo subPairs 95 (t.length + 1) t

/-- Fuel-driven scanner for `re.sub(r'\\[a-zA-Z]+\*?', '', text)`: a backslash
followed by letters (and an optional star) is removed. -/
def removeCmdsGo : Nat → Str → Str
  | 0, s => s
  | _, [] => []
  | fuel + 1, c :: rest =>
    if c == bslash then
      let letters := rest.takeWhile isLetterChar
      if letters.isEmpty then c :: removeCmdsGo fuel rest
      else
        match rest.drop letters.length with
        | d :: rest2 =>
          if d == 42 then removeCmdsGo fuel rest2
          else removeCmdsGo fuel (d :: rest2)
        | [] => []
    else c :: removeCmdsGo fuel rest

/-- Stage-5 command removal. -/
def removeCmds (s : Str) : Str := removeCmdsGo (s.length + 1) s

/-- Fuel-driven scanner for `re.sub(r'\{([^{}]*)\}', r'(\1)', text)`: one pass
turning non-nested `{...}` into `(...)`. -/
def braceToParenGo : Nat → Str → Str
  | 0, s => s
  | _, [] => []
  | fuel + 1, c :: rest =>
    if c == lbrace then
      let content := rest.takeWhile (fun x => x != lbrace && x != rbrace)
      match rest.drop content.length with
      | d :: rest2 =>
        if d == rbrace then 40 :: (content ++ 41 :: braceToParenGo fuel rest2)
        else c :: braceToParenGo fuel rest
      | [] => c :: braceToParenGo fuel rest
    else c :: braceToParenGo fuel rest

/-- Stage-5 brace-to-parenthesis conversion. -/
def braceToParen (s : Str) : Str := braceToParenGo (s.length + 1) s

/-- Models `re.sub(r'^\s*[+\-*/=<>]\s*', '', text)`: one anchored match, a
leading operator with surrounding whitespace, is removed. -/
def removeLeadOp (s : Str) : Str :=
  let ws := s.takeWhile isSpaceChar
  match s.drop ws.length with
  | c :: rest => if isOpChar c then rest.dropWhile isSpaceChar else s
  | [] => s

/-- Models `re.sub(r'\s*[+\-*/=<>]\s*$', '', text)`: the single possible match
anchored at the end, a trailing operator with surrounding whitespace, is
removed. -/
def removeTrailOp (s : Str) : Str :=
  let t := s.reverse
  let ws := t.takeWhile isSpaceChar
  match t.drop ws.length with
  | c :: rest => if isOpChar c then (rest.dropWhile isSpaceChar).reverse else s
  | [] => s

/-- Fuel-driven scanner for `re.sub(r'([+\-*/=<>])\s*\1+', r'\1', text)`: an
operator, optional whitespace and a maximal run of the same operator collapse
to one occurrence. -/
def collapseDblOpsGo : Nat → Str → Str
  | 0, s => s
  | _, [] => []
  | fuel + 1, c :: rest =>
    if isOpChar c then
      let sp := rest.takeWhile isSpaceChar
      match rest.drop sp.length with
      | d :: rest2 =>
        if d == c then
          let run := rest2.takeWhile (fun x => x == c)
          c :: collapseDblOpsGo fuel (rest2.drop run.length)
        else c :: collapseDblOpsGo fuel rest
      | [] => c :: collapseDblOpsGo fuel rest
    else c :: collapseDblOpsGo fuel rest

/-- Stage-5 duplicate-operator collapse. -/
def collapseDblOps (s : Str) : Str := collapseDblOpsGo (s.length + 1) s

/-- Fuel-driven scanner for `re.sub(r'\s*([+\-*/=<>])\s*', r' \1 ', text)`:
every operator, with surrounding whitespace, is normalised to one space on
each side. -/
def spaceOpsGo : Nat → Str → Str
  | 0, s => s
  | _, [] => []
  | fuel + 1, c :: rest =>
    let sp := (c :: rest).takeWhile isSpaceChar
    match (c :: rest).drop sp.length with
    | d :: rest2 =>
      if isOpChar d then 32 :: d :: 32 :: spaceOpsGo fuel (rest2.dropWhile isSpaceChar)
      else c :: spaceOpsGo fuel rest
    | [] => c :: spaceOpsGo fuel rest

/-- Stage-5 operator spacing. -/
def spaceOps (s : Str) : Str := spaceOpsGo (s.length + 1) s

/-- Models `_cleanup_latex_commands`, stage by stage in source order: remove
unknown commands, braces to parentheses, collapse whitespace, strip a leading
and a trailing operator, collapse duplicated operators, space operators only
when the text has no parenthesis pair, no root sign and no pending division
marker, substitute the division marker by `/`, final collapse and strip. -/
def cleanupLatexCmds (s : Str) : Str :=
  let s1 := removeCmds s
  let s2 := braceToParen s1
  let s3 := collapseWs s2
  let s4 := removeLeadOp s3
  let s5 := removeTrailOp s4
  let s6 := collapseDblOps s5
  let s7 :=
    if !(containsChar 40 s6 && containsChar 41 s6) && !containsChar 8730 s6
        && !containsStr fracMarker s6 then spaceOps s6
    else s6
  let s8 := replacePlain fracMarker [47] s7
  stripEnds (collapseWs s8)

/-- Models `create_fallback_representation`: the five-stage pipeline followed by
the final whitespace collapse and strip. -/
def createFallbackRepresentation (m : List (Str × Str)) (formula : Str) : Str :=
  let f1 := applyKnownMappings m formula
  let f2 := handleFracs m f1
  let f3 := handleSqrts m f2
  let f4 := handleScripts f3
  let f5 := cleanupLatexCmds f4
  stripEnds (collapseWs f5)

/-- The literal `section`. -/
def sectionPat : Str := [115, 101, 99, 116, 105, 111, 110]

/-- The literal `sub`. -/
def subPat : Str := [115, 117, 98]

/-- Models `re.match(r'^\s*\\(sub)?section\s*\{', line)` as a Boolean: leading
whitespace, a backslash, an optional `sub`, `section`, whitespace, and an
opening brace. -/
def isHeadingLine (line : Str) : Bool :=
  match line.dropWhile isSpaceChar with
  | c :: rest =>
    if c == bslash then
      let rest2 := if subPat.isPrefixOf rest then rest.drop 3 else rest
      sectionPat.isPrefixOf rest2 &&
        (match (rest2.drop 7).dropWhile isSpaceChar with
         | d :: _ => d == lbrace
         | [] => false)
    else false
  | [] => false

/-- Fuel-driven scanner for `re.finditer(r'\$([^$]+)\$', line)`: non-overlapping
spans scanning left to right; an empty or unterminated candidate fails and the
scan advances one character. Spans are `(start, end, content)` with `end`
exclusive, as in `match.span()`. -/
def findSpansGo : Nat → Str → Nat → List (Nat × Nat × Str)
  | 0, _, _ => []
  | _, [], _ => []
  | fuel + 1, c :: rest, i =>
    if c == dollar then
      let content := rest.takeWhile (fun x => x != dollar)
      if content.isEmpty then findSpansGo fuel rest (i + 1)
      else
        match rest.drop content.length with
        | d :: rest2 =>
          if d == dollar then
            (i, i + content.length + 2, content) :: findSpansGo fuel rest2 (i + content.length + 2)
          else findSpansGo fuel rest (i + 1)
        | [] => findSpansGo fuel rest (i + 1)
    else findSpansGo fuel rest (i + 1)

/-- Models the `matches` list of `process_line`. -/
def findSpans (line : Str) : List (Nat × Nat × Str) := findSpansGo (line.length + 1) line 0

/-- The literal `\texorpdfstring`. -/
def texorPat : Str := [92, 116, 101, 120, 111, 114, 112, 100, 102, 115, 116, 114, 105, 110, 103]

/-- Fuel-driven scanner for `re.finditer(r'\\texorpdfstring\s*\{', before)`:
returns the `end()` position (the index just after the opening brace) of every
match, scanning left to right without overlap. -/
def findOpenersGo : Nat → Str → Nat → List Nat
  | 0, _, _ => []
  | _, [], _ => []
  | fuel + 1, c :: rest, i =>
    if texorPat.isPrefixOf (c :: rest) then
      let after := (c :: rest).drop 15
      let sp := after.takeWhile isSpaceChar
      match after.drop sp.length with
      | d :: _ =>
        if d == lbrace then
          (i + 16 + sp.length) :: findOpenersGo fuel ((c :: rest).drop (16 + sp.length)) (i + 16 + sp.length)
        else findOpenersGo fuel rest (i + 1)
      | [] => findOpenersGo fuel rest (i + 1)
    else findOpenersGo fuel rest (i + 1)

/-- The opener scanner with its standard fuel. -/
def findOpeners (s : Str) : List Nat := findOpenersGo (s.length + 1) s 0

/-- The brace-counting loop of `is_inside_texorpdfstring`: starting just after
the opening brace with count 1, return the position of the brace that first
brings the count to zero (`first_arg_end`), or `none` when the loop exhausts
the line (`first_arg_end == -1`). -/
def firstArgClose : Str → Nat → Nat → Option Nat
  | [], _, _ => none
  | c :: rest, pos, depth =>
    if c == rbrace && depth == 1 then some pos
    else if c == rbrace then firstArgClose rest (pos + 1) (depth - 1)
    else if c == lbrace then firstArgClose rest (pos + 1) (depth + 1)
    else firstArgClose rest (pos + 1) depth

/-- Models `is_inside_texorpdfstring(line, match_start)`: find the last
`\texorpdfstring{` opener before the position, brace-match forward from it on
the whole line, and test whether the position falls inside the first argument. -/
def isInsideTexorpdfstring (line : Str) (matchStart : Nat) : Bool :=
  match (findOpeners (line.take matchStart)).getLast? with
  | none => false
  | some startPos =>
    match firstArgClose (line.drop startPos) startPos 1 with
    | none => false
    | some fae => startPos.ble matchStart && matchStart.ble fae

/-- Python-level run-time errors surfaced by the model: `EOFError` from
`input()` at end of stdin, and the `NameError` in `process_file`. -/
inductive PyErr
  | eofErr
  | nameErr
deriving DecidableEq

/-- Decidable equality for `Except`, so that concrete runs can be checked by
evaluation. -/
instance exceptDecEq {ε α : Type} [DecidableEq ε] [DecidableEq α] :
    DecidableEq (Except ε α)
  | .ok a, .ok b =>
    if h : a = b then .isTrue (by rw [h]) else .isFalse (fun hh => by cases hh; exact h rfl)
  | .error a, .error b =>
    if h : a = b then .isTrue (by rw [h]) else .isFalse (fun hh => by cases hh; exact h rfl)
  | .ok _, .error _ => .isFalse (fun hh => by cases hh)
  | .error _, .ok _ => .isFalse (fun hh => by cases hh)

/-- ASCII `str.lower()`. -/
def toLowerStr (s : Str) : Str :=
  s.map (fun c => if 65 ≤ c && c ≤ 90 then c + 32 else c)

/-- Models `convert_formula_to_unicode`: an exact table hit is returned
verbatim; otherwise one stdin line is read — empty input selects the fallback
pipeline, anything else is stripped, stored in the table and used. Reading at
end of stdin raises `EOFError`. -/
def convertFormulaToUnicode (m : List (Str × Str)) (stdin : List Str)
    (formula : Str) : Except PyErr (Str × List (Str × Str) × List Str) :=
  match lookupMap m formula with
  | some r => .ok (r, m, stdin)
  | none =>
    match stdin with
    | [] => .error .eofErr
    | u :: rest =>
      let u2 := stripEnds u
      if u2.isEmpty then .ok (createFallbackRepresentation m formula, m, rest)
      else .ok (u2, updateMap m formula u2, rest)

/-- The prompt loop of `confirm_change` for `auto_yes == False`: consume stdin
lines until one of the recognised answers appears; `c`/`custom` reads one more
line, storing a nonempty custom rendering. Exhausting stdin raises `EOFError`. -/
def confirmLoop (m : List (Str × Str)) (formula : Str) :
    List Str → Except PyErr (Bool × List (Str × Str) × List Str)
  | [] => .error .eofErr
  | r :: rest =>
    let r2 := toLowerStr (stripEnds r)
    if r2 = [] || r2 = [121] || r2 = [121, 101, 115] then .ok (true, m, rest)
    else if r2 = [110] || r2 = [110, 111] then .ok (false, m, rest)
    else if r2 = [99] || r2 = [99, 117, 115, 116, 111, 109] then
      match rest with
      | [] => .error .eofErr
      | cm :: rest2 =>
        let cm2 := stripEnds cm
        if cm2.isEmpty then .ok (false, m, rest2)
        else .ok (true, updateMap m formula cm2, rest2)
    else confirmLoop m formula rest

/-- Models `confirm_change`: with the accept-all flag set it returns `True`
without touching stdin; otherwise it runs the prompt loop. -/
def confirmChange (autoYes : Bool) (m : List (Str × Str)) (stdin : List Str)
    (formula : Str) : Except PyErr (Bool × List (Str × Str) × List Str) :=
  if autoYes then .ok (true, m, stdin) else confirmLoop m formula stdin

/-- The replacement `\texorpdfstring{$content$}{rend}` built by `process_line`. -/
def wrapRepl (content rend : Str) : Str :=
  texorPat ++ lbrace :: dollar :: (content ++ dollar :: rbrace :: lbrace :: (rend ++ [rbrace]))

/-- Python's `modified_line[:start] + replacement + modified_line[end:]`. -/
def spliceAt (s : Str) (a b : Nat) (r : Str) : Str :=
  s.take a ++ r ++ s.drop b

/-- The span loop of `process_line`, already reversed: wrap-state is tested
against the original line, the replacement is spliced into the accumulator. -/
def processSpans (autoYes : Bool) (line : Str) :
    List (Nat × Nat × Str) → List (Str × Str) → List Str → Str →
      Except PyErr (Str × List (Str × Str) × List Str)
  | [], m, stdin, acc => .ok (acc, m, stdin)
  | (a, b, content) :: rest, m, stdin, acc =>
    if isInsideTexorpdfstring line a then processSpans autoYes line rest m stdin acc
    else
      match convertFormulaToUnicode m stdin content with
      | .error e => .error e
      | .ok (rend, m2, stdin2) =>
        match confirmChange autoYes m2 stdin2 content with
        | .error e => .error e
        | .ok (okB, m3, stdin3) =>
          if okB then
            processSpans autoYes line rest m3 stdin3 (spliceAt acc a b (wrapRepl content rend))
          else processSpans autoYes line rest m3 stdin3 acc

/-- Models `process_line(line_num, line)` (the line number is used only in
prompts): return non-heading lines and lines without spans unchanged; process
the spans in reverse order, skipping spans already inside a `\texorpdfstring`. -/
def processLine (autoYes : Bool) (m : List (Str × Str)) (stdin : List Str)
    (line : Str) : Except PyErr (Str × List (Str × Str) × List Str) :=
  if !isHeadingLine line then .ok (line, m, stdin)
  else
    let ms := findSpans line
    if ms.isEmpty then .ok (line, m, stdin)
    else processSpans autoYes line ms.reverse m stdin line

/-- Models the loop of `process_file` over the lines read from the input file.
The source's loop body is `processed_line = self.process_line(line_num, line)`,
but `process_file` never binds a variable `line_num` (its enumeration variable
is `i`), so Python raises `NameError` as soon as the body runs on the first
line; an empty file skips the loop and reports no changes. The Boolean is
`changes_made`. -/
def processFileLoop (_autoYes : Bool) (_m : List (Str × Str)) (_stdin : List Str) :
    List Str → Except PyErr (List Str × Bool)
  | [] => .ok ([], false)
  | _ :: _ => .error .nameErr

/-- Models `process_file`: on success, `some lines` means the output file is
written with those lines (at least one changed), `none` means nothing is
written. -/
def processFile (autoYes : Bool) (m : List (Str × Str)) (stdin : List Str)
    (lines : List Str) : Except PyErr (Option (List Str)) :=
  match processFileLoop autoYes m stdin lines with
  | .error e => .error e
  | .ok (ls, changed) => .ok (if changed then some ls else none)

/-- A complete `\texorpdfstring{a}{b}` command occurrence, as it appears in a
line (the brace immediately follows the command name). -/
def wrapCmd (a b : Str) : Str :=
  texorPat ++ lbrace :: (a ++ rbrace :: lbrace :: (b ++ [rbrace]))

/-- The brace count of the `is_inside_texorpdfstring` loop walked across a
string: `none` when the walk would close the first argument inside the string
(count reaches zero), otherwise the final count. Mirrors the branches of
`firstArgClose`. -/
def braceWalk : Str → Nat → Option Nat
  | [], d => some d
  | ch :: rest, d =>
    if ch == rbrace && d == 1 then none
    else if ch == rbrace then braceWalk rest (d - 1)
    else if ch == lbrace then braceWalk rest (d + 1)
    else braceWalk rest d

/-- Little-endian base-65536 code of a string; injective on strings whose
code points stay below 65535. -/
def encodeStr : Str → Nat
  | [] => 0
  | c :: cs => (c + 1) + 65536 * encodeStr cs

/-- Membership oracle for the base-65536 codes of the default table's keys,
as a balanced comparison tree. -/
def keyCodeMem (n : Nat) : Bool :=
  if n < 146280632948857615872688221 then
    if n < 34058953222717533 then
      if n < 11822468715577417 then
        if n < 455274463325 then
          if n < 438093938781 then
            if n < 219049623673 then
              if n < 214754656377 then
                n == 210459689081
              else
                if n < 219049558137 then
                  n == 214754656377
                else
                  n == 219049558137
            else
              if n < 438093480029 then
                if n < 223344525433 then
                  n == 219049623673
                else
                  n == 223344525433
              else
                if n < 438093807709 then
                  n == 438093480029
                else
                  n == 438093807709
          else
            if n < 455272824930 then
              if n < 455271841885 then
                if n < 446683414621 then
                  n == 438093938781
                else
                  n == 446683414621
              else
                if n < 455272366173 then
                  n == 455271841885
                else
                  n == 455272366173
            else
              if n < 455273807965 then
                if n < 455272824953 then
                  n == 455272824930
                else
                  n == 455272824953
              else
                if n < 455273939037 then
                  n == 455273807965
                else
                  n == 455273939037
        else
          if n < 481044004957 then
            if n < 476747595897 then
              if n < 472453808221 then
                if n < 468158578781 then
                  n == 455274463325
                else
                  n == 468158578781
              else
                if n < 476747595827 then
                  n == 472453808221
                else
                  n == 476747595827
            else
              if n < 476747661433 then
                if n < 476747661410 then
                  n == 476747595897
                else
                  n == 476747661410
              else
                if n < 476748316765 then
                  n == 476747661433
                else
                  n == 476748316765
          else
            if n < 506813415517 then
              if n < 493929103453 then
                if n < 485338513501 then
                  n == 481044004957
                else
                  n == 485338513501
              else
                if n < 506813349981 then
                  n == 493929103453
                else
                  n == 506813349981
            else
              if n < 11822468715577415 then
                if n < 519697268838 then
                  n == 506813415517
                else
                  n == 519697268838
              else
                if n < 11822468715577416 then
                  n == 11822468715577415
                else
                  n == 11822468715577416
      else
        if n < 30962702712307805 then
          if n < 28710885718949981 then
            if n < 27585050235502685 then
              if n < 11822468715577448 then
                if n < 11822468715577447 then
                  n == 11822468715577417
                else
                  n == 11822468715577447
              else
                if n < 11822468715577449 then
                  n == 11822468715577448
                else
                  n == 11822468715577449
            else
              if n < 28429423626879069 then
                if n < 28429423626485853 then
                  n == 27585050235502685
                else
                  n == 28429423626485853
              else
                if n < 28429427921518685 then
                  n == 28429423626879069
                else
                  n == 28429427921518685
          else
            if n < 29836798509449309 then
              if n < 29273835671847005 then
                if n < 28992364989775965 then
                  n == 28710885718949981
                else
                  n == 28992364989775965
              else
                if n < 29836798508204125 then
                  n == 29273835671847005
                else
                  n == 29836798508204125
            else
              if n < 29836845752844381 then
                if n < 29836798510301277 then
                  n == 29836798509449309
                else
                  n == 29836798510301277
              else
                if n < 29836845754941533 then
                  n == 29836845752844381
                else
                  n == 29836845754941533
        else
          if n < 32088585438494813 then
            if n < 31525648370696285 then
              if n < 31244130439987250 then
                if n < 30962754251915357 then
                  n == 30962702712307805
                else
                  n == 30962754251915357
              else
                if n < 31525648370368605 then
                  n == 31244130439987250
                else
                  n == 31525648370368605
            else
              if n < 31807153412309085 then
                if n < 31807093281652829 then
                  n == 31525648370696285
                else
                  n == 31807093281652829
              else
                if n < 31807179180998749 then
                  n == 31807153412309085
                else
                  n == 31807179180998749
          else
            if n < 32933053317972061 then
              if n < 32088585438953565 then
                if n < 32088585438822493 then
                  n == 32088585438494813
                else
                  n == 32088585438822493
              else
                if n < 32933049023463517 then
                  n == 32088585438953565
                else
                  n == 32933049023463517
            else
              if n < 33214468166320221 then
                if n < 32933070497775709 then
                  n == 32933053317972061
                else
                  n == 32933070497775709
              else
                if n < 33495977501720669 then
                  n == 33214468166320221
                else
                  n == 33495977501720669
    else
      if n < 118476888621971493693489245 then
        if n < 2158300582255208169565 then
          if n < 1863153521573800181853 then
            if n < 1844702555375439970397 then
              if n < 1807813852233905930333 then
                if n < 1807813852233904357469 then
                  n == 34058953222717533
                else
                  n == 1807813852233904357469
              else
                if n < 1807813852276854489181 then
                  n == 1807813852233905930333
                else
                  n == 1807813852276854489181
            else
              if n < 1844706777448549974109 then
                if n < 1844703118312508293213 then
                  n == 1844702555375439970397
                else
                  n == 1844703118312508293213
              else
                if n < 1863152677135984951389 then
                  n == 1844706777448549974109
                else
                  n == 1863152677135984951389
          else
            if n < 2139855245560676614237 then
              if n < 2084514450389595127901 then
                if n < 1918492627869251141725 then
                  n == 1863153521573800181853
                else
                  n == 1918492627869251141725
              else
                if n < 2121403153526834856029 then
                  n == 2084514450389595127901
                else
                  n == 2121403153526834856029
            else
              if n < 2158300300801706295389 then
                if n < 2158296641639893368925 then
                  n == 2139855245560676614237
                else
                  n == 2158296641639893368925
              else
                if n < 2158300582255207383133 then
                  n == 2158300300801706295389
                else
                  n == 2158300582255207383133
        else
          if n < 118476759493355620021829725 then
            if n < 118476648812328244990705757 then
              if n < 2232065322039770939485 then
                if n < 2158300582298157645917 then
                  n == 2158300582255208169565
                else
                  n == 2158300582298157645917
              else
                if n < 2232065322069835710557 then
                  n == 2232065322039770939485
                else
                  n == 2232065322069835710557
            else
              if n < 118476667262168539150286941 then
                if n < 118476648812328244992802909 then
                  n == 118476648812328244990705757
                else
                  n == 118476648812328244992802909
              else
                if n < 118476741045204137070755933 then
                  n == 118476667262168539150286941
                else
                  n == 118476741045204137070755933
          else
            if n < 118476814836121081582714973 then
              if n < 118476759495044435521568861 then
                if n < 118476759493355620023926877 then
                  n == 118476759493355620021829725
                else
                  n == 118476759493355620023926877
              else
                if n < 118476759495044435523666013 then
                  n == 118476759495044435521568861
                else
                  n == 118476759495044435523666013
            else
              if n < 118476888620001181742465117 then
                if n < 118476888620001181740367965 then
                  n == 118476814836121081582714973
                else
                  n == 118476888620001181740367965
              else
                if n < 118476888621971493691392093 then
                  n == 118476888620001181742465117
                else
                  n == 118476888621971493691392093
      else
        if n < 137819425034925947003076701 then
          if n < 126939295570327308305825885 then
            if n < 123312444325070084486856797 then
              if n < 122103444721575385219072093 then
                if n < 122103444719886535358808157 then
                  n == 118476888621971493693489245
                else
                  n == 122103444719886535358808157
              else
                if n < 123312352090505252355702877 then
                  n == 122103444721575385219072093
                else
                  n == 123312352090505252355702877
            else
              if n < 123312462772377125330681949 then
                if n < 123312444325633030146490461 then
                  n == 123312444325070084486856797
                else
                  n == 123312444325633030146490461
              else
                if n < 125730295962610488681037917 then
                  n == 123312462772377125330681949
                else
                  n == 125730295962610488681037917
          else
            if n < 136610425425520307582795869 then
              if n < 128148221393601064934506589 then
                if n < 126939350909433595169275997 then
                  n == 126939295570327308305825885
                else
                  n == 126939350909433595169275997
              else
                if n < 134192979618038374858162269 then
                  n == 128148221393601064934506589
                else
                  n == 134192979618038374858162269
            else
              if n < 136610739019606572037046365 then
                if n < 136610646792641650173804637 then
                  n == 136610425425520307582795869
                else
                  n == 136610646792641650173804637
              else
                if n < 136610794360401781773828189 then
                  n == 136610739019606572037046365
                else
                  n == 136610794360401781773828189
        else
          if n < 143864109474920129504804957 then
            if n < 140237553375879239473365085 then
              if n < 140237276674155205352554589 then
                if n < 137819425036896297608872029 then
                  n == 137819425034925947003076701
                else
                  n == 137819425036896297608872029
              else
                if n < 140237553375879239473299549 then
                  n == 140237276674155205352554589
                else
                  n == 140237553375879239473299549
            else
              if n < 140237553375879239474544733 then
                if n < 140237553375879239473889373 then
                  n == 140237553375879239473365085
                else
                  n == 140237553375879239473889373
              else
                if n < 140237571821778939793113181 then
                  n == 140237553375879239474544733
                else
                  n == 140237571821778939793113181
          else
            if n < 146280632945198441176039517 then
              if n < 146280632944072498319982685 then
                if n < 143864127922227221887320157 then
                  n == 143864109474920129504804957
                else
                  n == 143864127922227221887320157
              else
                if n < 146280632944072558448476253 then
                  n == 146280632944072498319982685
                else
                  n == 146280632944072558448476253
            else
              if n < 146280632947168740243669085 then
                if n < 146280632947168705883996253 then
                  n == 146280632945198441176039517
                else
                  n == 146280632947168705883996253
              else
                if n < 146280632948576140895977565 then
                  n == 146280632947168740243669085
                else
                  n == 146280632948576140895977565
  else
    if n < 39473367262494175196150114921553313595485 then
      if n < 347886504187807216195085532582182978 then
        if n < 8952925019203288355536887808093 then
          if n < 8081400724750144419336267432029 then
            if n < 7764482029731944787679548080221 then
              if n < 152326885340424576379584614 then
                if n < 147491108291033782681206877 then
                  n == 146280632948857615872688221
                else
                  n == 147491108291033782681206877
              else
                if n < 5308326785055376330458935656546 then
                  n == 152326885340424576379584614
                else
                  n == 5308326785055376330458935656546
            else
              if n < 8002179815753902311045515706461 then
                if n < 7764482029731944787679550177373 then
                  n == 7764482029731944787679548080221
                else
                  n == 7764482029731944787679550177373
              else
                if n < 8081395889083754945341590536285 then
                  n == 8002179815753902311045515706461
                else
                  n == 8081395889083754945341590536285
          else
            if n < 8873681140930073285060101341277 then
              if n < 8398312165807593771351418536029 then
                if n < 8319097301200642344800601768029 then
                  n == 8081400724750144419336267432029
                else
                  n == 8319097301200642344800601768029
              else
                if n < 8636001488776964081603234431069 then
                  n == 8398312165807593771351418536029
                else
                  n == 8636001488776964081603234431069
            else
              if n < 8873695648058354841733953355869 then
                if n < 8873695648003014328110862631005 then
                  n == 8873681140930073285060101341277
                else
                  n == 8873695648003014328110862631005
              else
                if n < 8952900840686896062953393684573 then
                  n == 8873695648058354841733953355869
                else
                  n == 8952900840686896062953393684573
        else
          if n < 9269818326613253975934077435997 then
            if n < 9190590164117435537985018789981 then
              if n < 9032133838904438296152338661469 then
                if n < 9032133838904437733215270338653 then
                  n == 8952925019203288355536887808093
                else
                  n == 9032133838904437733215270338653
              else
                if n < 9111362001492490172917659009117 then
                  n == 9032133838904438296152338661469
                else
                  n == 9111362001492490172917659009117
            else
              if n < 9190608298115410221882075906141 then
                if n < 9190598626450597480403206799453 then
                  n == 9190590164117435537985018789981
                else
                  n == 9190598626450597480403206799453
              else
                if n < 9190609506948996116095458869341 then
                  n == 9190608298115410221882075906141
                else
                  n == 9190609506948996116095458869341
          else
            if n < 9586647560714971503498775232605 then
              if n < 9269818326742382310349952254045 then
                if n < 9269818326742378369700278304861 then
                  n == 9269818326613253975934077435997
                else
                  n == 9269818326742378369700278304861
              else
                if n < 9586647560714971503464415559773 then
                  n == 9269818326742382310349952254045
                else
                  n == 9586647560714971503464415559773
            else
              if n < 9586743066039189062920689549405 then
                if n < 9586647560714972910899427541085 then
                  n == 9586647560714971503498775232605
                else
                  n == 9586647560714972910899427541085
              else
                if n < 347886504187806847260204058391150658 then
                  n == 9586743066039189062920689549405
                else
                  n == 347886504187806847260204058391150658
      else
        if n < 623084496717409503688305901175177309 then
          if n < 565968122068370904595485626964443229 then
            if n < 514044915788863291579188307529695325 then
              if n < 514040003662130330982304139729502306 then
                if n < 514040003662130330980896764845949026 then
                  n == 347886504187807216195085532582182978
                else
                  n == 514040003662130330980896764845949026
              else
                if n < 514040003662130330982867089682923618 then
                  n == 514040003662130330982304139729502306
                else
                  n == 514040003662130330982867089682923618
            else
              if n < 524430777173458394789324591236186205 then
                if n < 519238797220319884834704806801244253 then
                  n == 514044915788863291579188307529695325
                else
                  n == 519238797220319884834704806801244253
              else
                if n < 524430777173458394789324591238283357 then
                  n == 524430777173458394789324591236186205
                else
                  n == 524430777173458394789324591238283357
          else
            if n < 576353824983342334098213545358786653 then
              if n < 576353824983342334098213545356689501 then
                if n < 565968122079251255419324313199640669 then
                  n == 565968122068370904595485626964443229
                else
                  n == 565968122079251255419324313199640669
              else
                if n < 576353824983342334098213545357738077 then
                  n == 576353824983342334098213545356689501
                else
                  n == 576353824983342334098213545357738077
            else
              if n < 607507606124880003989566202407223389 then
                if n < 597122220129811835972331700822016093 then
                  n == 576353824983342334098213545358786653
                else
                  n == 597122220129811835972331700822016093
              else
                if n < 623084496717409503688305901173080157 then
                  n == 607507606124880003989566202407223389
                else
                  n == 623084496717409503688305901173080157
        else
          if n < 33348243119146265300210074825924132929629 then
            if n < 654237802497225126408116284984066150 then
              if n < 654233444961585468609700561859903581 then
                if n < 628270534473734101492381685434351709 then
                  n == 623084496717409503688305901175177309
                else
                  n == 628270534473734101492381685434351709
              else
                if n < 654233524189747982874038155403853917 then
                  n == 654233444961585468609700561859903581
                else
                  n == 654233524189747982874038155403853917
            else
              if n < 654238990932961467113332109936427101 then
                if n < 654238198651336324469956174496923741 then
                  n == 654237802497225126408116284984066150
                else
                  n == 654238198651336324469956174496923741
              else
                if n < 22799089938769039117081713840561313611842 then
                  n == 654238990932961467113332109936427101
                else
                  n == 22799089938769039117081713840561313611842
          else
            if n < 37091307617297864558702906402231421042781 then
              if n < 34709341432811178621925514481480352596061 then
                if n < 33348279465065817510067572993655884415069 then
                  n == 33348243119146265300210074825924132929629
                else
                  n == 33348279465065817510067572993655884415069
              else
                if n < 34709367394533166663532998871772202074205 then
                  n == 34709341432811178621925514481480352596061
                else
                  n == 34709367394533166663532998871772202074205
            else
              if n < 38792719452536373713985193727547434860637 then
                if n < 38452520161018307552131218651840126320733 then
                  n == 37091307617297864558702906402231421042781
                else
                  n == 38452520161018307552131218651840126320733
              else
                if n < 38792719452536373713985197668197108809821 then
                  n == 38792719452536373713985193727547434860637
                else
                  n == 38792719452536373713985197668197108809821
    else
      if n < 184150365984639759017708979834215299779223557177437 then
        if n < 2676127536045893172180865186298269393299505245 then
          if n < 41174337752024339915740140089740621906013 then
            if n < 39813566553219974240081967246374960627805 then
              if n < 39473367262652623058661016465346277933149 then
                if n < 39473367262494175196260795385995570905181 then
                  n == 39473367262494175196150114921553313595485
                else
                  n == 39473367262494175196260795385995570905181
              else
                if n < 39813566553219957315120492641566514741341 then
                  n == 39473367262652623058661016465346277933149
                else
                  n == 39813566553219957315120492641566514741341
            else
              if n < 39813587322565868330847981312962885582941 then
                if n < 39813566553219985120395896189521712513117 then
                  n == 39813566553219974240081967246374960627805
                else
                  n == 39813566553219985120395896189521712513117
              else
                if n < 41174337752024330244352029916780933808221 then
                  n == 39813587322565868330847981312962885582941
                else
                  n == 41174337752024330244352029916780933808221
          else
            if n < 2207785004590531806474856749841208508841787490 then
              if n < 1494161158196013491076226181377647468213239906 then
                if n < 41174337752420487981571231560304037068893 then
                  n == 41174337752024339915740140089740621906013
                else
                  n == 41174337752420487981571231560304037068893
              else
                if n < 1494161158221974658447787671046871579063550018 then
                  n == 1494161158196013491076226181377647468213239906
                else
                  n == 1494161158221974658447787671046871579063550018
            else
              if n < 2609223258771676746934079767187434135117627485 then
                if n < 2586921152402139272906920521954829208685576285 then
                  n == 2207785004590531806474856749841208508841787490
                else
                  n == 2586921152402139272906920521954829208685576285
              else
                if n < 2609223258771676746952213912736070557426581597 then
                  n == 2609223258771676746934079767187434135117627485
                else
                  n == 2609223258771676746952213912736070557426581597
        else
          if n < 163690792607722696221858630050691631789176735465565 then
            if n < 97921345665575613583430511785814452354353492721730 then
              if n < 2676127536045893172180865296973948718003585117 then
                if n < 2676127536045893172180865186298269393301602397 then
                  n == 2676127536045893172180865186298269393299505245
                else
                  n == 2676127536045893172180865186298269393301602397
              else
                if n < 2676127536045893172180865296973948718005682269 then
                  n == 2676127536045893172180865296973948718003585117
                else
                  n == 2676127536045893172180865296973948718005682269
            else
              if n < 144689398061525688356521554397220264198330472530018 then
                if n < 97921345665575613583430528710775926959161938608194 then
                  n == 97921345665575613583430511785814452354353492721730
                else
                  n == 97921345665575613583430528710775926959161938608194
              else
                if n < 162229179464283787737440769103344288120480265076829 then
                  n == 144689398061525688356521554397220264198330472530018
                else
                  n == 162229179464283787737440769103344288120480265076829
          else
            if n < 175382694202303654932045188102521597234304882245725 then
              if n < 166613461371546749352000481813002041620024880529501 then
                if n < 166613461371546749352000464888040567015216434643037 then
                  n == 163690792607722696221858630050691631789176735465565
                else
                  n == 166613461371546749352000464888040567015216434643037
              else
                if n < 175382694202303654932045188102521597234304880148573 then
                  n == 166613461371546749352000481813002041620024880529501
                else
                  n == 175382694202303654932045188102521597234304880148573
            else
              if n < 184150343683894560487006610135982762793268507246685 then
                if n < 176842434084506637271755408074598007103670060908637 then
                  n == 175382694202303654932045188102521597234304882245725
                else
                  n == 176842434084506637271755408074598007103670060908637
              else
                if n < 184150365984639759017629751671701035441630013227101 then
                  n == 184150343683894560487006610135982762793268507246685
                else
                  n == 184150365984639759017629751671701035441630013227101
      else
        if n < 696767392004345777362920880028735640493272946930285328531549 then
          if n < 10631826660222560959811030296296882613490611216239034461 then
            if n < 184150432886875354609499176278855853386714531168349 then
              if n < 184150388285384957548411349532447836765178607108189 then
                if n < 184150388285384957548252893207419308089991519207517 then
                  n == 184150365984639759017708979834215299779223557177437
                else
                  n == 184150388285384957548252893207419308089991519207517
              else
                if n < 184150410586130156078876034743137580738353025187933 then
                  n == 184150388285384957548411349532447836765178607108189
                else
                  n == 184150410586130156078876034743137580738353025187933
            else
              if n < 184151414119664089960720355651144538119110903922781 then
                if n < 184150477488365751670745459350292398683437543129181 then
                  n == 184150432886875354609499176278855853386714531168349
                else
                  n == 184150477488365751670745459350292398683437543129181
              else
                if n < 184151927036803656166874858710492888796077052330077 then
                  n == 184151414119664089960720355651144538119110903922781
                else
                  n == 184151927036803656166874858710492888796077052330077
          else
            if n < 11493880247242172329626512972136014345628143845417287773 then
              if n < 11206528564386896759160349363365338733628406693873647709 then
                if n < 10631826660222561300093397217235346076865218648007245917 then
                  n == 10631826660222560959811030296296882613490611216239034461
                else
                  n == 10631826660222561300093397217235346076865218648007245917
              else
                if n < 11493880247242172329626512972136014345628143845415190621 then
                  n == 11206528564386896759160349363365338733628406693873647709
                else
                  n == 11493880247242172329626512972136014345628143845415190621
            else
              if n < 420568977209574108444315004797657629204551070048464496820290 then
                if n < 420568977209574108444315004797657612279589595443656050933826 then
                  n == 11493880247242172329626512972136014345628143845417287773
                else
                  n == 420568977209574108444315004797657612279589595443656050933826
              else
                if n < 420568977212497468528858313691221702660328809466731247501378 then
                  n == 420568977209574108444315004797657629204551070048464496820290
                else
                  n == 420568977212497468528858313691221702660328809466731247501378
        else
          if n < 3235239674907559483653620180678099423539574951834069465858852960927837 then
            if n < 46486244452960697824646218961124975345072665219555214591966117981 then
              if n < 765817618241354779064113506302873643178976346523398818103389 then
                if n < 734430768629361571352001149263515697793230718183472568270941 then
                  n == 696767392004345777362920880028735640493272946930285328531549
                else
                  n == 734430768629361571352001149263515697793230718183472568270941
              else
                if n < 46486244452098664698225837843348403291479202784616323207013793885 then
                  n == 765817618241354779064113506302873643178976346523398818103389
                else
                  n == 46486244452098664698225837843348403291479202784616323207013793885
            else
              if n < 49365839766045524347742007151449872565023453275491688572229582941 then
                if n < 48131667407288868271879506409928940537231263570979200895003459677 then
                  n == 46486244452960697824646218961124975345072665219555214591966117981
                else
                  n == 48131667407288868271879506409928940537231263570979200895003459677
              else
                if n < 3046522516469232292636014605836286384214682187828807437550175997067357 then
                  n == 49365839766045524347742007151449872565023453275491688572229582941
                else
                  n == 3046522516469232292636014605836286384214682187828807437550175997067357
          else
            if n < 196123259430075480263422277364808889069596992199022316733300284514252947549 then
              if n < 3235239674907559483653620180678099423539574951834235484022198607085661 then
                if n < 3235239674907559483653620180678099423539574951834235484022198604988509 then
                  n == 3235239674907559483653620180678099423539574951834069465858852960927837
                else
                  n == 3235239674907559483653620180678099423539574951834235484022198604988509
              else
                if n < 196123259430075480262560244238388507951820420145428854298361393129300623453 then
                  n == 3235239674907559483653620180678099423539574951834235484022198607085661
                else
                  n == 196123259430075480262560244238388507951820420145428854298361393129300623453
            else
              if n < 880284694909578718173765184314139620526259363648233856735486873239149891535972270173 then
                if n < 12853133930009426674543642369380115354065108480755126549433604339977165659635805 then
                  n == 196123259430075480263422277364808889069596992199022316733300284514252947549
                else
                  n == 12853133930009426674543642369380115354065108480755126549433604339977165659635805
              else
                if n < 260594231764923863901718281103226563754186008041156027497146271476616066796015712412200754479759453 then
                  n == 880284694909578718173765184314139620526259363648233856735486873239149891535972270173
                else
                  n == 260594231764923863901718281103226563754186008041156027497146271476616066796015712412200754479759453

/-- All prefixes of a string (the takes). -/
def prefixesL : Str → List Str
  | [] => [[]]
  | c :: cs => [] :: (prefixesL cs).map (c :: ·)

/-- All contiguous substrings of a string: prefixes of each suffix. -/
def substrsL : Str → List Str
  | [] => [[]]
  | c :: cs => prefixesL (c :: cs) ++ substrsL cs

/-- `n` differs from every element of the list. -/
def nodupNatInner (n : Nat) : List Nat → Bool
  | [] => true
  | x :: rest => !(x == n) && nodupNatInner n rest

/-- Pairwise distinctness of a list of naturals. -/
def nodupNat : List Nat → Bool
  | [] => true
  | k :: rest => nodupNatInner k rest && nodupNat rest

/-! ### Structured heading lines: mixed sequences of wrapped and raw spans -/

/-- One segment of a heading line: `(true, a, b)` renders an already-wrapped
command `\texorpdfstring{$a$}{b}`, `(false, c, r)` a raw span `$c$` whose
Symbol Table rendering is `r`. -/
def segStr : Bool × Str × Str → Str
  | (true, a, b) => wrapRepl a b
  | (false, c, _) => dollar :: (c ++ [dollar])

/-- The segment after one pass of `process_line`: raw spans are wrapped with
their table rendering, wrapped spans are left alone. -/
def segOut : Bool × Str × Str → Str
  | (true, a, b) => wrapRepl a b
  | (false, c, r) => wrapRepl c r

/-- A segment list, each segment followed by its gap, rendered as a string. -/
def chunksStr : List ((Bool × Str × Str) × Str) → Str
  | [] => []
  | (s, g) :: rest => segStr s ++ (g ++ chunksStr rest)

/-- The rendering of the segment list after one pass. -/
def chunksOut : List ((Bool × Str × Str) × Str) → Str
  | [] => []
  | (s, g) :: rest => segOut s ++ (g ++ chunksOut rest)

/-- The spans the delimiter scan finds on a segment-list line starting at
offset `i`, each annotated with the wrapped flag of its segment. -/
def annSpans : Nat → List ((Bool × Str × Str) × Str) → List (Bool × Nat × Nat × Str)
  | _, [] => []
  | i, ((true, a, b), g) :: rest =>
    (true, i + 16, i + 16 + a.length + 2, a) ::
      annSpans (i + a.length + b.length + 21 + g.length) rest
  | i, ((false, c, _), g) :: rest =>
    (false, i, i + c.length + 2, c) :: annSpans (i + c.length + 2 + g.length) rest

/-- The absolute start offsets of the wrapped segments of a segment-list line
starting at offset `i`. -/
def wrapOffs : Nat → List ((Bool × Str × Str) × Str) → List Nat
  | _, [] => []
  | i, ((true, a, b), g) :: rest => i :: wrapOffs (i + a.length + b.length + 21 + g.length) rest
  | i, ((false, c, _), g) :: rest => wrapOffs (i + c.length + 2 + g.length) rest

/-- Mark every segment as wrapped: the segment list of the once-processed
line. -/
def markW : List ((Bool × Str × Str) × Str) → List ((Bool × Str × Str) × Str) :=
  List.map (fun pr => ((true, pr.1.2.1, pr.1.2.2), pr.2))

/-! ### Structure of the length-descending sort -/

/-- The sort order of `sortMaps`: key length descending. -/
def KeyLenDesc (p q : Str × Str) : Prop := q.1.length ≤ p.1.length

theorem mergeByLen_perm : ∀ (fuel : Nat) (xs ys : List (Str × Str)),
    List.Perm (mergeByLen fuel xs ys) (xs ++ ys) := by
  intro fuel
  induction fuel with
  | zero => intro xs ys; simp [mergeByLen]
  | succ fuel ih =>
    intro xs ys
    match xs, ys with
    | [], ys => simp [mergeByLen]
    | x :: xs, [] => simp [mergeByLen]
    | x :: xs, y :: ys =>
      simp only [mergeByLen]
      split
      · exact (ih xs (y :: ys)).cons x
      · exact ((ih (x :: xs) ys).cons y).trans List.perm_middle.symm

theorem mem_mergeByLen {p : Str × Str} {fuel : Nat} {xs ys : List (Str × Str)} :
    p ∈ mergeByLen fuel xs ys ↔ p ∈ xs ∨ p ∈ ys := by
  rw [(mergeByLen_perm fuel xs ys).mem_iff, List.mem_append]

theorem mergeByLen_pairwise : ∀ (fuel : Nat) (xs ys : List (Str × Str)),
    xs.length + ys.length ≤ fuel →
    List.Pairwise KeyLenDesc xs → List.Pairwise KeyLenDesc ys →
    List.Pairwise KeyLenDesc (mergeByLen fuel xs ys) := by
  intro fuel
  induction fuel with
  | zero =>
    intro xs ys hlen hx hy
    have hx0 : xs = [] := List.eq_nil_of_length_eq_zero (by omega)
    have hy0 : ys = [] := List.eq_nil_of_length_eq_zero (by omega)
    subst hx0; subst hy0
    simp [mergeByLen]
  | succ fuel ih =>
    intro xs ys hlen hx hy
    match xs, ys with
    | [], ys => simpa [mergeByLen] using hy
    | x :: xs, [] => simpa [mergeByLen] using hx
    | x :: xs, y :: ys =>
      simp only [mergeByLen]
      rw [List.pairwise_cons] at hx hy
      split
      · rename_i hyx
        refine List.pairwise_cons.mpr ⟨?_, ?_⟩
        · intro z hz
          rcases mem_mergeByLen.mp hz with hz | hz
          · exact hx.1 z hz
          · rcases List.mem_cons.mp hz with rfl | hz
            · exact hyx
            · exact Nat.le_trans (hy.1 z hz) hyx
        · refine ih xs (y :: ys) (by simp at hlen ⊢; omega) hx.2 ?_
          exact List.pairwise_cons.mpr ⟨hy.1, hy.2⟩
      · rename_i hyx
        have hxy : KeyLenDesc y x := Nat.le_of_lt (Nat.lt_of_not_le hyx)
        refine List.pairwise_cons.mpr ⟨?_, ?_⟩
        · intro z hz
          rcases mem_mergeByLen.mp hz with hz | hz
          · rcases List.mem_cons.mp hz with rfl | hz
            · exact hxy
            · exact Nat.le_trans (hx.1 z hz) hxy
          · exact hy.1 z hz
        · refine ih (x :: xs) ys (by simp at hlen ⊢; omega) ?_ hy.2
          exact List.pairwise_cons.mpr ⟨hx.1, hx.2⟩

theorem msortByLen_perm : ∀ (fuel : Nat) (l : List (Str × Str)),
    List.Perm (msortByLen fuel l) l := by
  intro fuel
  induction fuel with
  | zero => intro l; simp [msortByLen]
  | succ fuel ih =>
    intro l
    match l with
    | [] => simp [msortByLen]
    | [a] => simp [msortByLen]
    | a :: b :: l =>
      simp only [msortByLen]
      have h1 := mergeByLen_perm ((a :: b :: l).length)
        (msortByLen fuel ((a :: b :: l).take ((a :: b :: l).length / 2)))
        (msortByLen fuel ((a :: b :: l).drop ((a :: b :: l).length / 2)))
      have h2 := List.Perm.append (ih ((a :: b :: l).take ((a :: b :: l).length / 2)))
        (ih ((a :: b :: l).drop ((a :: b :: l).length / 2)))
      have h3 := h1.trans h2
      simpa [List.take_append_drop] using h3

theorem msortByLen_pairwise : ∀ (fuel : Nat) (l : List (Str × Str)),
    l.length ≤ fuel + 1 → List.Pairwise KeyLenDesc (msortByLen fuel l) := by
  intro fuel
  induction fuel with
  | zero =>
    intro l hl
    match l, hl with
    | [], _ => simp [msortByLen]
    | [a], _ => simp [msortByLen]
  | succ fuel ih =>
    intro l hl
    match l with
    | [] => simp [msortByLen]
    | [a] => simp [msortByLen]
    | a :: b :: l =>
      simp only [msortByLen]
      have ht := (msortByLen_perm fuel ((a :: b :: l).take ((a :: b :: l).length / 2))).length_eq
      have hd := (msortByLen_perm fuel ((a :: b :: l).drop ((a :: b :: l).length / 2))).length_eq
      have hL : (a :: b :: l).length = l.length + 2 := by simp
      refine mergeByLen_pairwise _ _ _ ?_ (ih _ ?_) (ih _ ?_)
      · rw [ht, hd, List.length_take, List.length_drop]
        omega
      · rw [List.length_take]
        have : (a :: b :: l).length ≤ fuel + 2 := hl
        omega
      · rw [List.length_drop]
        omega

theorem sortMaps_perm (m : List (Str × Str)) : List.Perm (sortMaps m) m :=
  msortByLen_perm _ _

theorem mem_sortMaps {p : Str × Str} {m : List (Str × Str)} :
    p ∈ sortMaps m ↔ p ∈ m := (sortMaps_perm m).mem_iff

/-- The sorted table really is ordered longest-key-first. -/
theorem sortMaps_pairwise (m : List (Str × Str)) :
    List.Pairwise KeyLenDesc (sortMaps m) :=
  msortByLen_pairwise _ _ (by omega)

/-! ### Substitution passes: no-occurrence no-ops and whole-key replacement -/

theorem containsStr_cons_eq_false {pat : Str} {c : Nat} {rest : Str}
    (h : containsStr pat (c :: rest) = false) :
    pat.isPrefixOf (c :: rest) = false ∧ containsStr pat rest = false := by
  simpa [containsStr] using h

theorem containsStr_nil_true (s : Str) : containsStr [] s = true := by
  cases s <;> simp [containsStr, List.isEmpty]

theorem replacePlainGo_no_occur {key rend : Str} :
    ∀ (fuel : Nat) (s : Str), containsStr key s = false →
      replacePlainGo key rend fuel s = s := by
  intro fuel
  induction fuel with
  | zero => intro s _; cases s <;> simp [replacePlainGo]
  | succ fuel ih =>
    intro s h
    match s with
    | [] => simp [replacePlainGo]
    | c :: rest =>
      obtain ⟨h1, h2⟩ := containsStr_cons_eq_false h
      simp [replacePlainGo, h1, ih rest h2]

theorem replaceCmdGo_no_occur {key rend : Str} :
    ∀ (fuel : Nat) (s : Str), containsStr key s = false →
      replaceCmdGo key rend fuel s = s := by
  intro fuel
  induction fuel with
  | zero => intro s _; cases s <;> simp [replaceCmdGo]
  | succ fuel ih =>
    intro s h
    match s with
    | [] => simp [replaceCmdGo]
    | c :: rest =>
      obtain ⟨h1, h2⟩ := containsStr_cons_eq_false h
      simp [replaceCmdGo, h1, ih rest h2]

/-- A table pass whose key does not occur in the string leaves it unchanged. -/
theorem applyOnePass_no_occur {p : Str × Str} {s : Str}
    (h : containsStr p.1 s = false) : applyOnePass p s = s := by
  have hne : p.1 ≠ [] := by
    intro h0
    rw [h0, containsStr_nil_true] at h
    cases h
  unfold applyOnePass replaceCmd replacePlain
  split
  · exact replaceCmdGo_no_occur _ _ h
  · rw [if_neg (by simpa [List.isEmpty_iff] using hne)]
    exact replacePlainGo_no_occur _ _ h

/-- A key at least as long as the whole string, and different from it, cannot
occur in it. -/
theorem containsStr_eq_false_of_longer {key : Str} :
    ∀ {s : Str}, s.length ≤ key.length → key ≠ s → containsStr key s = false := by
  intro s
  induction s with
  | nil =>
    intro _ hne
    cases key with
    | nil => exact absurd rfl hne
    | cons a as => simp [containsStr, List.isEmpty]
  | cons c rest ih =>
    intro hlen hne
    have hlen2 : rest.length + 1 ≤ key.length := by simpa using hlen
    have h1 : key.isPrefixOf (c :: rest) = false := by
      cases hcon : key.isPrefixOf (c :: rest) with
      | false => rfl
      | true =>
        have hp : key <+: (c :: rest) := List.isPrefixOf_iff_prefix.mp hcon
        have hle := hp.length_le
        have hkeq : key = c :: rest :=
          hp.eq_of_length (by simp only [List.length_cons] at hle ⊢; omega)
        exact absurd hkeq hne
    have h2 : containsStr key rest = false := by
      refine ih (by omega) ?_
      intro heq
      rw [heq] at hlen2
      omega
    simp [containsStr, h1, h2]

theorem replacePlainGo_nil (key rend : Str) (fuel : Nat) :
    replacePlainGo key rend fuel [] = [] := by
  cases fuel <;> rfl

theorem replaceCmdGo_nil (key rend : Str) (fuel : Nat) :
    replaceCmdGo key rend fuel [] = [] := by
  cases fuel <;> rfl

/-- A pass applied to exactly its own key substitutes the rendering whole. -/
theorem applyOnePass_self {k r : Str} (hk : k ≠ []) : applyOnePass (k, r) k = r := by
  match k, hk with
  | c :: rest, _ =>
    have hpre : (c :: rest).isPrefixOf (c :: rest) = true :=
      List.isPrefixOf_iff_prefix.mpr (List.prefix_refl _)
    unfold applyOnePass replaceCmd replacePlain
    split
    · simp [replaceCmdGo, hpre, List.drop_length, boundaryAfter, replaceCmdGo_nil,
        List.isEmpty]
    · rw [if_neg (by simp [List.isEmpty])]
      simp [replacePlainGo, hpre, List.drop_length, replacePlainGo_nil, List.isEmpty]

theorem foldl_passes_fixed {L : List (Str × Str)} {s : Str}
    (h : ∀ q ∈ L, applyOnePass q s = s) :
    L.foldl (fun t p => applyOnePass p t) s = s := by
  induction L with
  | nil => rfl
  | cons q rest ih =>
    simp only [List.foldl_cons, h q (List.mem_cons_self q rest)]
    exact ih (fun p hp => h p (List.mem_cons_of_mem q hp))

/-- Splitting the substitution fold at a table entry: earlier (longer or
equal, distinct) keys cannot touch the key itself, the key's own pass
substitutes its rendering whole, and only the later (not longer) entries act
on the rendering. This is the no-truncation property of
`_apply_known_mappings`. -/
theorem applyKnownMappings_split (m : List (Str × Str))
    (hnd : (m.map Prod.fst).Nodup) {k r : Str}
    (hmem : (k, r) ∈ m) (hk : k ≠ []) :
    ∃ post : List (Str × Str),
      (∀ q ∈ post, q ∈ m ∧ q.1.length ≤ k.length ∧ q.1 ≠ k) ∧
      applyKnownMappings m k = post.foldl (fun t p => applyOnePass p t) r := by
  obtain ⟨pre, post, hsplit⟩ := List.append_of_mem (mem_sortMaps.mpr hmem)
  have hpw := sortMaps_pairwise m
  rw [hsplit] at hpw
  rw [List.pairwise_append] at hpw
  have hndS : ((sortMaps m).map Prod.fst).Nodup :=
    (((sortMaps_perm m).map Prod.fst).nodup_iff).mpr hnd
  rw [hsplit, List.map_append, List.map_cons] at hndS
  have hndP := (List.pairwise_append.mp hndS)
  have hkpre : ∀ q ∈ pre, q.1 ≠ k := by
    intro q hq heq
    exact hndP.2.2 q.1 (List.mem_map_of_mem Prod.fst hq) k (List.mem_cons_self _ _) heq
  have hkpost : ∀ q ∈ post, q.1 ≠ k := by
    intro q hq heq
    have := List.pairwise_cons.mp hndP.2.1
    exact this.1 q.1 (List.mem_map_of_mem Prod.fst hq) heq.symm
  refine ⟨post, ?_, ?_⟩
  · intro q hq
    refine ⟨mem_sortMaps.mp (by rw [hsplit]; exact List.mem_append_right _ (List.mem_cons_of_mem _ hq)), ?_, hkpost q hq⟩
    have := List.pairwise_cons.mp hpw.2.1
    exact this.1 q hq
  · unfold applyKnownMappings
    rw [hsplit, List.foldl_append]
    have hpre : pre.foldl (fun t p => applyOnePass p t) k = k := by
      refine foldl_passes_fixed ?_
      intro q hq
      refine applyOnePass_no_occur (containsStr_eq_false_of_longer ?_ (by
        intro heq
        exact hkpre q hq (by rw [heq])))
      exact hpw.2.2 q hq (k, r) (List.mem_cons_self _ _)
    rw [hpre, List.foldl_cons, applyOnePass_self hk]

/-! ### Dictionary and stage lemmas -/

/-- In a table with unique keys, membership determines the lookup. -/
theorem lookupMap_eq_of_mem_nodup :
    ∀ {m : List (Str × Str)}, (m.map Prod.fst).Nodup →
      ∀ {k r : Str}, (k, r) ∈ m → lookupMap m k = some r := by
  intro m
  induction m with
  | nil => intro _ _ _ h; cases h
  | cons p rest ih =>
    intro hnd k r hmem
    simp only [List.map_cons, List.nodup_cons] at hnd
    rcases List.mem_cons.mp hmem with heq | hmem2
    · cases heq
      simp [lookupMap]
    · have hne : p.1 ≠ k := by
        intro he
        exact hnd.1 (he ▸ List.mem_map_of_mem Prod.fst hmem2)
      simp [lookupMap, hne, ih hnd.2 hmem2]

theorem containsChar_cons_eq_false {b c : Nat} {rest : Str}
    (h : containsChar b (c :: rest) = false) :
    c ≠ b ∧ containsChar b rest = false := by
  constructor
  · intro he
    subst he
    simp [containsChar] at h
  · simp only [containsChar, List.any_cons, Bool.or_eq_false_iff] at h
    exact h.2

theorem isPrefixOf_cons_head_ne {a c : Nat} {as rest : Str} (h : c ≠ a) :
    List.isPrefixOf (a :: as) (c :: rest) = false := by
  simp only [List.isPrefixOf_cons₂]
  have : (a == c) = false := by
    simp only [beq_eq_false_iff_ne, ne_eq]
    exact fun he => h he.symm
  simp [this]

/-- `_handle_fractions` is the identity on backslash-free text. -/
theorem handleFracsGo_no_bslash (m : List (Str × Str)) :
    ∀ (fuel : Nat) (s : Str), containsChar bslash s = false →
      handleFracsGo m fuel s = s := by
  intro fuel
  induction fuel with
  | zero => intro s _; cases s <;> simp [handleFracsGo]
  | succ fuel ih =>
    intro s h
    match s with
    | [] => simp [handleFracsGo]
    | c :: rest =>
      obtain ⟨hc, hrest⟩ := containsChar_cons_eq_false h
      have hpre : fracPat.isPrefixOf (c :: rest) = false :=
        isPrefixOf_cons_head_ne hc
      simp [handleFracsGo, hpre, ih rest hrest]

theorem handleFracs_no_bslash (m : List (Str × Str)) {s : Str}
    (h : containsChar bslash s = false) : handleFracs m s = s :=
  handleFracsGo_no_bslash m _ s h

/-- `_handle_square_roots` is the identity on backslash-free text. -/
theorem handleSqrtsGo_no_bslash (m : List (Str × Str)) :
    ∀ (fuel : Nat) (s : Str), containsChar bslash s = false →
      handleSqrtsGo m fuel s = s := by
  intro fuel
  induction fuel with
  | zero => intro s _; cases s <;> simp [handleSqrtsGo]
  | succ fuel ih =>
    intro s h
    match s with
    | [] => simp [handleSqrtsGo]
    | c :: rest =>
      obtain ⟨hc, hrest⟩ := containsChar_cons_eq_false h
      have hpre : sqrtPat.isPrefixOf (c :: rest) = false :=
        isPrefixOf_cons_head_ne hc
      simp [handleSqrtsGo, hpre, ih rest hrest]

theorem handleSqrts_no_bslash (m : List (Str × Str)) {s : Str}
    (h : containsChar bslash s = false) : handleSqrts m s = s :=
  handleSqrtsGo_no_bslash m _ s h

/-- Occurrences of a backslash-headed key cannot start inside backslash-free
text, so they are confined to the tail part. -/
theorem containsStr_append_bslash_head {kt z : Str} :
    ∀ {w : Str}, containsChar bslash w = false →
      containsStr (bslash :: kt) z = false →
      containsStr (bslash :: kt) (w ++ z) = false := by
  intro w
  induction w with
  | nil => intro _ hz; simpa using hz
  | cons c rest ih =>
    intro hw hz
    obtain ⟨hc, hrest⟩ := containsChar_cons_eq_false hw
    have hpre : List.isPrefixOf (bslash :: kt) (c :: (rest ++ z)) = false :=
      isPrefixOf_cons_head_ne hc
    simp [containsStr, hpre, ih hrest hz]

/-- The word-boundary rule of the command-key pass: an occurrence of the key
immediately followed by a letter is not replaced. Stated for a key whose only
backslash is its leading one and whose other occurrences are absent. -/
theorem replaceCmd_boundary_blocked {kt rend v : Str} {d : Nat}
    (hkt : containsChar bslash kt = false)
    (hd : isLetterChar d = true)
    (hno : containsStr (bslash :: kt) (d :: v) = false) :
    replaceCmd (bslash :: kt) rend ((bslash :: kt) ++ d :: v) =
      (bslash :: kt) ++ d :: v := by
  have hrest : containsStr (bslash :: kt) (kt ++ d :: v) = false :=
    containsStr_append_bslash_head hkt hno
  have hpre : List.isPrefixOf (bslash :: kt) ((bslash :: kt) ++ d :: v) = true :=
    List.isPrefixOf_iff_prefix.mpr (List.prefix_append _ _)
  have hdrop : ((bslash :: kt) ++ d :: v).drop (bslash :: kt).length = d :: v :=
    List.drop_left _ _
  unfold replaceCmd
  have hlen : ((bslash :: kt) ++ d :: v).length + 1 = (kt ++ d :: v).length + 2 := by
    simp
  rw [hlen]
  show replaceCmdGo (bslash :: kt) rend ((kt ++ d :: v).length + 1 + 1)
      (bslash :: (kt ++ d :: v)) = bslash :: (kt ++ d :: v)
  simp only [replaceCmdGo]
  rw [show bslash :: (kt ++ d :: v) = (bslash :: kt) ++ d :: v from rfl] at *
  simp only [hpre, hdrop, boundaryAfter, hd, Bool.not_true, Bool.and_false,
    replaceCmdGo_no_occur _ _ hrest]
  simp

/-- The whole transliteration pipeline maps a table key to its rendering,
provided only shorter keys could act after it and none of them occurs in the
rendering, the rendering is backslash-free, and the rendering is fixed by the
script and cleanup stages. -/
theorem createFallback_eq_rend (m : List (Str × Str))
    (hnd : (m.map Prod.fst).Nodup) {k r : Str}
    (hmem : (k, r) ∈ m) (hk : k ≠ [])
    (hocc : ∀ q ∈ m, q.1 = k ∨ containsStr q.1 r = false)
    (hbs : containsChar bslash r = false)
    (hsc : handleScripts r = r) (hcl : cleanupLatexCmds r = r)
    (hws : collapseWs r = r) (hst : stripEnds r = r) :
    createFallbackRepresentation m k = r := by
  have h1 : applyKnownMappings m k = r := by
    obtain ⟨post, hpost, heq⟩ := applyKnownMappings_split m hnd hmem hk
    rw [heq]
    refine foldl_passes_fixed ?_
    intro q hq
    rcases hocc q (hpost q hq).1 with he | he
    · exact absurd he (hpost q hq).2.2
    · exact applyOnePass_no_occur he
  simp only [createFallbackRepresentation]
  rw [h1, handleFracs_no_bslash m hbs, handleSqrts_no_bslash m hbs, hsc, hcl, hws, hst]

/-! ### A cheap certificate that no table key occurs in another rendering -/

theorem encodeStr_inj : ∀ (u v : Str),
    u.all (fun c => Nat.blt c 65535) = true →
    v.all (fun c => Nat.blt c 65535) = true →
    encodeStr u = encodeStr v → u = v := by
  intro u
  induction u with
  | nil =>
    intro v _ _ h
    cases v with
    | nil => rfl
    | cons d ds =>
      exfalso
      simp only [encodeStr] at h
      omega
  | cons c cs ih =>
    intro v hu hv h
    cases v with
    | nil =>
      exfalso
      simp only [encodeStr] at h
      omega
    | cons d ds =>
      simp only [encodeStr] at h
      simp only [List.all_cons, Bool.and_eq_true] at hu hv
      have hc : c < 65535 := by
        have h1 := hu.1
        rwa [Nat.blt_eq] at h1
      have hd : d < 65535 := by
        have h1 := hv.1
        rwa [Nat.blt_eq] at h1
      have hcd : c = d := by omega
      subst hcd
      have h2 : encodeStr cs = encodeStr ds := by omega
      rw [ih ds hu.2 hv.2 h2]

theorem nodupNatInner_ne {n : Nat} :
    ∀ {l : List Nat}, nodupNatInner n l = true → ∀ x ∈ l, x ≠ n := by
  intro l
  induction l with
  | nil => intro _ x hx; cases hx
  | cons a rest ih =>
    intro h x hx
    simp only [nodupNatInner, Bool.and_eq_true] at h
    rcases List.mem_cons.mp hx with rfl | hx
    · have h1 := h.1
      simp only [Bool.not_eq_true', beq_eq_false_iff_ne] at h1
      exact h1
    · exact ih h.2 x hx

theorem nodupNat_nodup : ∀ {l : List Nat}, nodupNat l = true → l.Nodup := by
  intro l
  induction l with
  | nil => intro _; exact List.nodup_nil
  | cons a rest ih =>
    intro h
    simp only [nodupNat, Bool.and_eq_true] at h
    refine List.nodup_cons.mpr ⟨?_, ih h.2⟩
    intro hmem
    exact nodupNatInner_ne h.1 a hmem rfl

theorem prefix_mem_prefixesL : ∀ {w u : Str}, u <+: w → u ∈ prefixesL w := by
  intro w
  induction w with
  | nil =>
    intro u hu
    rw [ List.prefix_nil.mp hu]
    simp [prefixesL]
  | cons c cs ih =>
    intro u hu
    cases u with
    | nil => simp [prefixesL]
    | cons d ds =>
      obtain ⟨t, ht⟩ := hu
      simp only [List.cons_append, List.cons.injEq] at ht
      obtain ⟨h1, h2⟩ := ht
      subst h1
      simp only [prefixesL, List.mem_cons, List.mem_map]
      exact Or.inr ⟨ds, ih ⟨t, h2⟩, rfl⟩

theorem containsStr_mem_substrsL : ∀ {r k : Str},
    containsStr k r = true → k ∈ substrsL r := by
  intro r
  induction r with
  | nil =>
    intro k h
    simp only [containsStr] at h
    cases k with
    | nil => simp [substrsL]
    | cons a as => simp [List.isEmpty] at h
  | cons c cs ih =>
    intro k h
    simp only [containsStr, Bool.or_eq_true] at h
    rcases h with h | h
    · have hp : k <+: (c :: cs) := List.isPrefixOf_iff_prefix.mp h
      simp only [substrsL]
      exact List.mem_append.mpr (Or.inl (prefix_mem_prefixesL hp))
    · simp only [substrsL]
      exact List.mem_append.mpr (Or.inr (ih h))

/-- The default table's keys are pairwise distinct. -/
theorem defaultMappings_keys_nodup : (defaultMappings.map Prod.fst).Nodup := by
  have h : nodupNat ((defaultMappings.map Prod.fst).map encodeStr) = true := by decide
  exact List.Nodup.of_map encodeStr (nodupNat_nodup h)

/-- No key of the default table occurs inside the rendering of a different
entry: every substring of a rendering whose code is a key code is the entry's
own key. -/
theorem default_hocc : ∀ p ∈ defaultMappings, ∀ q ∈ defaultMappings,
    q.1 = p.1 ∨ containsStr q.1 p.2 = false := by
  have hF3 : defaultMappings.all (fun p => p.1.all (fun c => Nat.blt c 65535)) = true := by
    decide
  have hF1 : defaultMappings.all (fun p => keyCodeMem (encodeStr p.1)) = true := by decide
  have hF2 : defaultMappings.all (fun p => (substrsL p.2).all
      (fun s => !keyCodeMem (encodeStr s) || (encodeStr s == encodeStr p.1))) = true := by
    decide
  intro p hp q hq
  cases hco : containsStr q.1 p.2 with
  | false => exact Or.inr rfl
  | true =>
    refine Or.inl ?_
    have hmem : q.1 ∈ substrsL p.2 := containsStr_mem_substrsL hco
    have h2 : (!keyCodeMem (encodeStr q.1) || (encodeStr q.1 == encodeStr p.1)) = true :=
      List.all_eq_true.mp (List.all_eq_true.mp hF2 p hp) q.1 hmem
    have h1 : keyCodeMem (encodeStr q.1) = true := List.all_eq_true.mp hF1 q hq
    rw [h1] at h2
    simp only [Bool.not_true, Bool.false_or, beq_iff_eq] at h2
    have hkq : q.1.all (fun c => Nat.blt c 65535) = true := List.all_eq_true.mp hF3 q hq
    have hkp : p.1.all (fun c => Nat.blt c 65535) = true := List.all_eq_true.mp hF3 p hp
    exact encodeStr_inj q.1 p.1 hkq hkp h2

/-! ### Claim C6: longest-match precedence and the word-boundary rule -/

/-- Claim C6: whole-token substitution respects longest-match precedence and
the command word-boundary rule. (1) For every table, the passes run longest
key first. (2) A backslash-prefixed key occurring immediately before a letter
is not replaced there (word-boundary rule). (3) For every table with unique
keys and every pair of keys with one a proper prefix of the other, the longer
key's occurrence is never truncated: processing the longer key replaces it
whole by its own rendering, and only entries not longer than it — the shorter
prefix key among them — subsequently act on the rendering, not on the key.
(4) Concretely, transliterating `\infty` gives `∞`, never a partial
substitution of `\in`. -/
theorem substitution_longest_first_no_truncation :
    (∀ m : List (Str × Str), List.Pairwise KeyLenDesc (sortMaps m))
    ∧ (∀ (kt rend v : Str) (d : Nat), containsChar bslash kt = false →
        isLetterChar d = true → containsStr (bslash :: kt) (d :: v) = false →
        replaceCmd (bslash :: kt) rend ((bslash :: kt) ++ d :: v) =
          (bslash :: kt) ++ d :: v)
    ∧ (∀ (m : List (Str × Str)), (m.map Prod.fst).Nodup →
        ∀ (k r k2 r2 : Str), (k, r) ∈ m → (k2, r2) ∈ m → k2 <+: k → k2 ≠ k →
          ∃ post : List (Str × Str),
            (∀ q ∈ post, q ∈ m ∧ q.1.length ≤ k.length ∧ q.1 ≠ k) ∧
            applyKnownMappings m k = post.foldl (fun t p => applyOnePass p t) r)
    ∧ createFallbackRepresentation defaultMappings (strOf "\\infty") = strOf "∞" := by
  refine ⟨sortMaps_pairwise, ?_, ?_, by decide⟩
  · intro kt rend v d h1 h2 h3
    exact replaceCmd_boundary_blocked h1 h2 h3
  · intro m hnd k r k2 r2 hk hk2 hpre hne
    have hkne : k ≠ [] := by
      intro h0
      subst h0
      exact hne (List.prefix_nil.mp hpre)
    exact applyKnownMappings_split m hnd hk hkne

/-- Witness for C6: the boundary rule and the no-truncation split at the
concrete prefix pair `\in` / `\infty` of the default table. -/
theorem substitution_longest_first_no_truncation_witness :
    List.Pairwise KeyLenDesc (sortMaps defaultMappings)
    ∧ replaceCmd (bslash :: strOf "in") (strOf "∈")
        ((bslash :: strOf "in") ++ 102 :: strOf "ty") =
        (bslash :: strOf "in") ++ 102 :: strOf "ty"
    ∧ (∃ post : List (Str × Str),
        (∀ q ∈ post, q ∈ defaultMappings ∧
            q.1.length ≤ (strOf "\\infty").length ∧ q.1 ≠ strOf "\\infty") ∧
        applyKnownMappings defaultMappings (strOf "\\infty") =
          post.foldl (fun t p => applyOnePass p t) (strOf "∞"))
    ∧ createFallbackRepresentation defaultMappings (strOf "\\infty") = strOf "∞" := by
  obtain ⟨h1, h2, h3, h4⟩ := substitution_longest_first_no_truncation
  refine ⟨h1 defaultMappings, h2 (strOf "in") (strOf "∈") (strOf "ty") 102
      (by decide) (by decide) (by decide), ?_, h4⟩
  exact h3 defaultMappings defaultMappings_keys_nodup (strOf "\\infty") (strOf "∞")
    (strOf "\\in") (strOf "∈") (by decide) (by decide) (by decide) (by decide)

/-! ### Claim C3: pipeline output versus exact lookup on table keys -/

/-- The key `\frac{a}{b}` of the default table. -/
def fracABKey : Str := [92, 102, 114, 97, 99, 123, 97, 125, 123, 98, 125]

/-- The key `\frac{x}{y}` of the default table. -/
def fracXYKey : Str := [92, 102, 114, 97, 99, 123, 120, 125, 123, 121, 125]

/-- Claim C3 counterexample: `\frac{a}{b}` is a key of the (default) Symbol
Table whose pipeline output `a / b` differs from its lookup `a/b`: stage 1
substitutes the whole key, and cleanup then spaces the bare `/` because the
text has no parentheses, root sign or division marker. -/
theorem transliterate_lookup_mismatch_fracAB :
    (fracABKey, strOf "a/b") ∈ defaultMappings ∧
    lookupMap defaultMappings fracABKey = some (strOf "a/b") ∧
    createFallbackRepresentation defaultMappings fracABKey = strOf "a / b" ∧
    createFallbackRepresentation defaultMappings fracABKey ≠ strOf "a/b" := by
  refine ⟨by decide, by decide, by decide, by decide⟩

/-- Claim C3 (amended): for every key of the default Symbol Table other than
`\frac{a}{b}` and `\frac{x}{y}`, running the transliteration pipeline on the
key alone produces exactly the table lookup of that key. -/
theorem default_keys_transliterate_to_lookup :
    ∀ p ∈ defaultMappings, p.1 ≠ fracABKey → p.1 ≠ fracXYKey →
      lookupMap defaultMappings p.1 = some p.2 ∧
      createFallbackRepresentation defaultMappings p.1 = p.2 := by
  have hnd : (defaultMappings.map Prod.fst).Nodup := defaultMappings_keys_nodup
  have hchk : defaultMappings.all (fun p =>
      (p.1 == fracABKey || p.1 == fracXYKey) ||
      (!p.1.isEmpty &&
       !containsChar bslash p.2 &&
       (handleScripts p.2 == p.2) &&
       (cleanupLatexCmds p.2 == p.2) &&
       (collapseWs p.2 == p.2) &&
       (stripEnds p.2 == p.2))) = true := by decide
  intro p hp hne1 hne2
  have hchecks := List.all_eq_true.mp hchk p hp
  have hoccp := default_hocc p hp
  obtain ⟨k, r⟩ := p
  simp only [beq_iff_eq, Bool.or_eq_true, Bool.and_eq_true, Bool.not_eq_true',
    beq_eq_false_iff_ne] at hchecks
  simp only at hne1 hne2
  rcases hchecks with h | h
  · rcases h with h | h
    · exact absurd h hne1
    · exact absurd h hne2
  · obtain ⟨⟨⟨⟨⟨hk0, hbs⟩, hsc⟩, hcl⟩, hws⟩, hst⟩ := h
    have hkne : k ≠ [] := by
      intro h0
      rw [h0] at hk0
      simp [List.isEmpty] at hk0
    refine ⟨lookupMap_eq_of_mem_nodup hnd hp, ?_⟩
    refine createFallback_eq_rend defaultMappings hnd hp hkne ?_ hbs
      (by simpa using hsc) (by simpa using hcl) (by simpa using hws) (by simpa using hst)
    intro q hq
    rcases hoccp q hq with he | he
    · exact Or.inl he
    · exact Or.inr he

/-- Witness for the amended C3 at the key `\alpha`. -/
theorem default_keys_transliterate_to_lookup_witness :
    lookupMap defaultMappings (strOf "\\alpha") = some (strOf "α") ∧
    createFallbackRepresentation defaultMappings (strOf "\\alpha") = strOf "α" := by
  have := default_keys_transliterate_to_lookup (strOf "\\alpha", strOf "α")
    (by decide) (by decide) (by decide)
  simpa using this

/-! ### Claim C2: fraction round-trip values of the pipeline -/

/-- Claim C2 evaluation: `create_fallback_representation` maps
`\frac{x+1}{y-1}` to `(x+1)/(y-1)` as claimed, but maps `\frac{a}{b}` to
`a / b`, not the claimed `a/b`: stage 1 already substitutes the whole key
`\frac{a}{b} ↦ a/b`, and cleanup then spaces the bare `/` because the text has
no parentheses, root sign or pending division marker. The repo's own test
(`test_fallback.py`) expects `a/b`. -/
theorem fraction_rewrite_values :
    createFallbackRepresentation defaultMappings (strOf "\\frac\x7bx+1\x7d\x7by-1\x7d") =
      strOf "(x+1)/(y-1)"
    ∧ createFallbackRepresentation defaultMappings (strOf "\\frac\x7ba\x7d\x7bb\x7d") =
      strOf "a / b"
    ∧ strOf "a / b" ≠ strOf "a/b" :=
  ⟨by decide, by decide, by decide⟩

/-! ### Claim C7: unknown-token removal and engine totality -/

/-- Claim C7: unknown commands vanish while surrounding structure is kept
(`\alpha + \unknown + \beta ↦ α + β`), a lone unrecognized command reduces to
the empty string, and the empty string transliterates to the empty string.
Totality of every stage holds by construction: each stage of the model is a
total function on all strings, and no error value enters the pipeline. -/
theorem unknown_token_removal_totality :
    createFallbackRepresentation defaultMappings (strOf "\\alpha + \\unknown + \\beta") =
      strOf "α + β"
    ∧ createFallbackRepresentation defaultMappings (strOf "\\unknown") = []
    ∧ createFallbackRepresentation defaultMappings [] = [] :=
  ⟨by decide, by decide, by decide⟩

/-! ### Claim C4: exact-lookup precedence and the end-to-end example -/

/-- Claim C4: when a span's full content matches a Symbol Table key exactly,
`convert_formula_to_unicode` returns the table rendering verbatim (no pipeline,
no interactive input, no state change); end to end, with the accept-all flag
set, the example heading is rewritten with the table rendering `a/b` of
`\frac{a}{b}`. -/
theorem exact_lookup_precedence_end_to_end :
    (∀ (m : List (Str × Str)) (stdin : List Str) (f r : Str),
        lookupMap m f = some r →
        convertFormulaToUnicode m stdin f = .ok (r, m, stdin))
    ∧ processLine true defaultMappings []
        (strOf "\\section\x7bStudy of $\\frac\x7ba\x7d\x7bb\x7d$ ratios\x7d") =
      .ok (strOf "\\section\x7bStudy of \\texorpdfstring\x7b$\\frac\x7ba\x7d\x7bb\x7d$\x7d\x7ba/b\x7d ratios\x7d",
        defaultMappings, []) := by
  refine ⟨?_, by decide⟩
  intro m stdin f r h
  simp [convertFormulaToUnicode, h]

/-- Witness for C4: the exact-lookup branch applied at the concrete key
`\frac{a}{b}` of the default table. -/
theorem exact_lookup_precedence_end_to_end_witness :
    convertFormulaToUnicode defaultMappings [] fracABKey =
      .ok (strOf "a/b", defaultMappings, []) := by
  exact exact_lookup_precedence_end_to_end.1 defaultMappings [] fracABKey (strOf "a/b")
    (by decide)

/-! ### Claim C10: the file driver -/

/-- Claim C10 evaluation: the file driver's loop body refers to the unbound
name `line_num` (the enumeration variable is `i`), so processing any nonempty
file raises `NameError` before any line is processed and nothing is written;
only an empty file completes (reporting no changes, writing nothing). -/
theorem process_file_raises_name_error :
    (∀ (autoYes : Bool) (m : List (Str × Str)) (stdin : List Str) (l : Str) (ls : List Str),
        processFile autoYes m stdin (l :: ls) = .error .nameErr)
    ∧ (∀ (autoYes : Bool) (m : List (Str × Str)) (stdin : List Str),
        processFile autoYes m stdin [] = .ok none) := by
  exact ⟨fun _ _ _ _ _ => rfl, fun _ _ _ => rfl⟩

/-- Witness for C10 at a concrete one-line file. -/
theorem process_file_raises_name_error_witness :
    processFile true defaultMappings [] [strOf "\\section\x7b$\\alpha$\x7d"] = .error .nameErr
    ∧ processFile true defaultMappings [] [] = .ok none :=
  ⟨process_file_raises_name_error.1 true defaultMappings [] _ [],
   process_file_raises_name_error.2 true defaultMappings []⟩

/-! ### Claim C9: stdin independence under the accept-all flag -/

/-- Claim C9 counterexample: with the accept-all flag set, a heading whose span
content `q` has no Symbol Table entry still consults interactive input
(`convert_formula_to_unicode` prompts regardless of the flag), so two
different input streams produce two different outputs. -/
theorem processLine_depends_on_stdin :
    processLine true defaultMappings [strOf "QQ"] (strOf "\\section\x7bThe $q$ law\x7d") =
      .ok (strOf "\\section\x7bThe \\texorpdfstring\x7b$q$\x7d\x7bQQ\x7d law\x7d",
        updateMap defaultMappings (strOf "q") (strOf "QQ"), [])
    ∧ processLine true defaultMappings [strOf "RR"] (strOf "\\section\x7bThe $q$ law\x7d") =
      .ok (strOf "\\section\x7bThe \\texorpdfstring\x7b$q$\x7d\x7bRR\x7d law\x7d",
        updateMap defaultMappings (strOf "q") (strOf "RR"), [])
    ∧ processLine true defaultMappings [strOf "QQ"] (strOf "\\section\x7bThe $q$ law\x7d") ≠
      processLine true defaultMappings [strOf "RR"] (strOf "\\section\x7bThe $q$ law\x7d") :=
  ⟨by decide, by decide, by decide⟩

theorem processSpans_no_input (line : Str) :
    ∀ (l : List (Nat × Nat × Str)) (m : List (Str × Str)) (acc : Str),
      (∀ s ∈ l, isInsideTexorpdfstring line s.1 = true ∨ (lookupMap m s.2.2).isSome) →
      ∃ out, ∀ stdin, processSpans true line l m stdin acc = .ok (out, m, stdin) := by
  intro l
  induction l with
  | nil => exact fun m acc _ => ⟨acc, fun _ => rfl⟩
  | cons s rest ih =>
    intro m acc h
    obtain ⟨a, b, content⟩ := s
    by_cases hin : isInsideTexorpdfstring line a = true
    · obtain ⟨out, hout⟩ := ih m acc (fun q hq => h q (List.mem_cons_of_mem _ hq))
      exact ⟨out, fun stdin => by simp only [processSpans, hin, if_true]; exact hout stdin⟩
    · have hlk : (lookupMap m content).isSome := by
        rcases h (a, b, content) (List.mem_cons_self _ _) with hx | hx
        · exact absurd hx hin
        · exact hx
      obtain ⟨r, hr⟩ := Option.isSome_iff_exists.mp hlk
      obtain ⟨out, hout⟩ := ih m (spliceAt acc a b (wrapRepl content r))
        (fun q hq => h q (List.mem_cons_of_mem _ hq))
      refine ⟨out, fun stdin => ?_⟩
      simp only [processSpans, hin, if_false, Bool.false_eq_true,
        convertFormulaToUnicode, hr, confirmChange, if_true]
      exact hout stdin

/-- Claim C9 (amended): with the accept-all flag set, the confirmation prompt
is suppressed, and for every line all of whose spans are already wrapped or
have exact Symbol Table entries, `process_line` consults no interactive input:
one output, with the table and the stream unchanged, results for every stream. -/
theorem processLine_no_input_when_known :
    ∀ (m : List (Str × Str)) (line : Str),
      (∀ s ∈ findSpans line,
        isInsideTexorpdfstring line s.1 = true ∨ (lookupMap m s.2.2).isSome) →
      ∃ out, ∀ stdin, processLine true m stdin line = .ok (out, m, stdin) := by
  intro m line h
  by_cases hh : isHeadingLine line = true
  · by_cases hsp : (findSpans line).isEmpty = true
    · exact ⟨line, fun stdin => by simp only [processLine, hh, Bool.not_true, hsp,
        Bool.false_eq_true, if_false, if_true]⟩
    · obtain ⟨out, hout⟩ := processSpans_no_input line (findSpans line).reverse m line
        (fun s hs => h s (List.mem_reverse.mp hs))
      exact ⟨out, fun stdin => by
        simp only [processLine, hh, Bool.not_true, hsp, Bool.false_eq_true, if_false]
        exact hout stdin⟩
  · exact ⟨line, fun stdin => by
      simp only [processLine, Bool.not_eq_true', eq_false_of_ne_true hh, Bool.not_false, if_true]⟩

/-- Witness for the amended C9: a heading whose only span content `\alpha` has
a table entry is processed identically for every stream. -/
theorem processLine_no_input_when_known_witness :
    ∃ out, ∀ stdin, processLine true defaultMappings stdin
      (strOf "\\section\x7b$\\alpha$\x7d") = .ok (out, defaultMappings, stdin) := by
  exact processLine_no_input_when_known defaultMappings (strOf "\\section\x7b$\\alpha$\x7d")
    (by decide)

/-! ### Claim C8: empty and unterminated spans are skipped -/

theorem findSpansGo_nil (fuel i : Nat) : findSpansGo fuel [] i = [] := by
  cases fuel <;> rfl

theorem takeWhile_ne_dollar_eq_self :
    ∀ {v : Str}, containsChar dollar v = false →
      v.takeWhile (fun x => x != dollar) = v := by
  intro v
  induction v with
  | nil => intro _; rfl
  | cons c rest ih =>
    intro h
    obtain ⟨hc, hrest⟩ := containsChar_cons_eq_false h
    simp only [List.takeWhile_cons]
    rw [if_pos (by simpa using hc)]
    rw [ih hrest]

theorem findSpansGo_no_dollar :
    ∀ (fuel : Nat) (v : Str) (i : Nat), containsChar dollar v = false →
      findSpansGo fuel v i = [] := by
  intro fuel
  induction fuel with
  | zero => intro v i _; cases v <;> rfl
  | succ fuel ih =>
    intro v i h
    match v with
    | [] => rfl
    | c :: rest =>
      obtain ⟨hc, hrest⟩ := containsChar_cons_eq_false h
      have hc2 : (c == dollar) = false := by simpa using hc
      simp only [findSpansGo, hc2, Bool.false_eq_true, if_false]
      exact ih rest (i + 1) hrest

/-- An unterminated span — a delimiter whose remainder holds no further
delimiter — yields no span. -/
theorem findSpansGo_single_dollar :
    ∀ (fuel : Nat) (v : Str) (i : Nat), containsChar dollar v = false →
      findSpansGo fuel (dollar :: v) i = [] := by
  intro fuel
  induction fuel with
  | zero => intro v i _; rfl
  | succ fuel _ =>
    intro v i h
    simp only [findSpansGo, beq_self_eq_true, if_true, takeWhile_ne_dollar_eq_self h]
    match v, h with
    | [], _ =>
      simp only [List.isEmpty_nil, if_true]
      exact findSpansGo_nil _ _
    | c :: rest, h =>
      simp only [List.isEmpty_cons, if_false, Bool.false_eq_true, List.drop_length]
      exact findSpansGo_no_dollar _ _ _ h

/-- Two adjacent delimiters yield no span: the first candidate has empty
content and the scan resumes at the second delimiter, which is unterminated. -/
theorem findSpansGo_double_dollar :
    ∀ (fuel : Nat) (v : Str) (i : Nat), containsChar dollar v = false →
      findSpansGo fuel (dollar :: dollar :: v) i = [] := by
  intro fuel
  cases fuel with
  | zero => intro v i _; rfl
  | succ fuel =>
    intro v i h
    simp only [findSpansGo, beq_self_eq_true, if_true, List.takeWhile_cons,
      bne_self_eq_false, Bool.false_eq_true, if_false, List.takeWhile_nil,
      List.isEmpty_nil, if_true]
    exact findSpansGo_single_dollar _ _ _ h

theorem findSpansGo_append_of_no_dollar :
    ∀ (u : Str) (fuel i : Nat) {z : Str}, containsChar dollar u = false →
      (∀ (fuel2 i2 : Nat), findSpansGo fuel2 z i2 = []) →
      findSpansGo fuel (u ++ z) i = [] := by
  intro u
  induction u with
  | nil => intro fuel i z _ hz; exact hz fuel i
  | cons c rest ih =>
    intro fuel i z h hz
    obtain ⟨hc, hrest⟩ := containsChar_cons_eq_false h
    cases fuel with
    | zero => rfl
    | succ fuel =>
      have hc2 : (c == dollar) = false := by simpa using hc
      simp only [List.cons_append, findSpansGo, hc2, Bool.false_eq_true, if_false]
      exact ih fuel (i + 1) hrest hz

/-- Lines with no spans pass through `process_line` unchanged. -/
theorem processLine_no_spans {line : Str} (autoYes : Bool) (m : List (Str × Str))
    (stdin : List Str) (h : findSpans line = []) :
    processLine autoYes m stdin line = .ok (line, m, stdin) := by
  unfold processLine
  split
  · rfl
  · simp only [h, List.isEmpty_nil, if_true]

/-- Claim C8: a line whose only delimiters are the two-adjacent pair `$$` (or a
delimiter without a matching partner) has no math span at all, and every line
without spans is returned by `process_line` unchanged — empty and unterminated
spans are skipped, not errors. -/
theorem empty_unterminated_spans_skipped :
    (∀ (autoYes : Bool) (m : List (Str × Str)) (stdin : List Str) (line : Str),
        findSpans line = [] → processLine autoYes m stdin line = .ok (line, m, stdin))
    ∧ (∀ (u v : Str), containsChar dollar u = false → containsChar dollar v = false →
        findSpans (u ++ dollar :: dollar :: v) = [] ∧
        ∀ (autoYes : Bool) (m : List (Str × Str)) (stdin : List Str),
          processLine autoYes m stdin (u ++ dollar :: dollar :: v) =
            .ok (u ++ dollar :: dollar :: v, m, stdin))
    ∧ (∀ (u v : Str), containsChar dollar u = false → containsChar dollar v = false →
        findSpans (u ++ dollar :: v) = [] ∧
        ∀ (autoYes : Bool) (m : List (Str × Str)) (stdin : List Str),
          processLine autoYes m stdin (u ++ dollar :: v) =
            .ok (u ++ dollar :: v, m, stdin)) := by
  refine ⟨fun autoYes m stdin line h => processLine_no_spans autoYes m stdin h, ?_, ?_⟩
  · intro u v hu hv
    have hz : findSpans (u ++ dollar :: dollar :: v) = [] :=
      findSpansGo_append_of_no_dollar u _ _ hu
        (fun fuel2 i2 => findSpansGo_double_dollar fuel2 v i2 hv)
    exact ⟨hz, fun autoYes m stdin => processLine_no_spans autoYes m stdin hz⟩
  · intro u v hu hv
    have hz : findSpans (u ++ dollar :: v) = [] :=
      findSpansGo_append_of_no_dollar u _ _ hu
        (fun fuel2 i2 => findSpansGo_single_dollar fuel2 v i2 hv)
    exact ⟨hz, fun autoYes m stdin => processLine_no_spans autoYes m stdin hz⟩

/-- Witness for C8 at the concrete lines `\section{Test $$ formula}` and
`\section{Cost is $5}`. -/
theorem empty_unterminated_spans_skipped_witness :
    processLine true defaultMappings [] (strOf "\\section\x7bTest " ++ dollar :: dollar :: strOf " formula\x7d") =
      .ok (strOf "\\section\x7bTest " ++ dollar :: dollar :: strOf " formula\x7d", defaultMappings, [])
    ∧ processLine true defaultMappings [] (strOf "\\section\x7bCost is " ++ dollar :: strOf "5\x7d") =
      .ok (strOf "\\section\x7bCost is " ++ dollar :: strOf "5\x7d", defaultMappings, []) := by
  constructor
  · exact (empty_unterminated_spans_skipped.2.1 (strOf "\\section\x7bTest ")
      (strOf " formula\x7d") (by decide) (by decide)).2 true defaultMappings []
  · exact (empty_unterminated_spans_skipped.2.2 (strOf "\\section\x7bCost is ")
      (strOf "5\x7d") (by decide) (by decide)).2 true defaultMappings []

/-! ### Claim C1 counterexample: stray delimiters defeat idempotence -/

/-- Claim C1 counterexample: in `\section{$$\alpha$ x}` the only math span is
`$\alpha$` (the `$$` pair is empty and skipped), its content `\alpha` has an
exact Symbol Table entry, and the accept-all flag is set — yet the first pass
leaves a stray `$` which pairs with the inserted `\texorpdfstring{` text, so
the second pass rewrites the line again (and even consults stdin): applying
`process_line` twice does not equal applying it once. -/
theorem processLine_not_idempotent_stray_delims :
    (∀ s ∈ findSpans (strOf "\\section\x7b$$\\alpha$ x\x7d"),
      (lookupMap defaultMappings s.2.2).isSome)
    ∧ processLine true defaultMappings [[]] (strOf "\\section\x7b$$\\alpha$ x\x7d") =
      .ok (strOf "\\section\x7b$\\texorpdfstring\x7b$\\alpha$\x7d\x7bα\x7d x\x7d",
        defaultMappings, [[]])
    ∧ processLine true defaultMappings [[]]
        (strOf "\\section\x7b$\\texorpdfstring\x7b$\\alpha$\x7d\x7bα\x7d x\x7d") =
      .ok (strOf "\\section\x7b\\texorpdfstring\x7b$\\texorpdfstring\x7b$\x7d\x7b\x7b\x7d\\alpha$\x7d\x7bα\x7d x\x7d",
        defaultMappings, [])
    ∧ strOf "\\section\x7b\\texorpdfstring\x7b$\\texorpdfstring\x7b$\x7d\x7b\x7b\x7d\\alpha$\x7d\x7bα\x7d x\x7d" ≠
      strOf "\\section\x7b$\\texorpdfstring\x7b$\\alpha$\x7d\x7bα\x7d x\x7d" :=
  ⟨by decide, by decide, by decide, by decide⟩

/-! ### Scanning infrastructure for the wrapped-span detector -/

theorem occ_length15 {u : Str} (h : texorPat.isPrefixOf u = true) :
    15 ≤ u.length := by
  rw [List.isPrefixOf_iff_prefix] at h
  simpa using h.length_le

theorem occ_false_of_short {u : Str} (h : u.length < 15) :
    texorPat.isPrefixOf u = false := by
  cases heq : texorPat.isPrefixOf u with
  | false => rfl
  | true => exact absurd (occ_length15 heq) (by omega)

/-- An occurrence of the command name inside a prefix of `L` is an occurrence
in `L` itself. -/
theorem occ_in_take {L : Str} {t j : Nat}
    (h : texorPat.isPrefixOf ((L.take t).drop j) = true) :
    texorPat.isPrefixOf (L.drop j) = true := by
  rw [List.isPrefixOf_iff_prefix] at h ⊢
  rw [List.drop_take] at h
  exact h.trans ( List.take_prefix _ _)

theorem findOpenersGo_skip {c : Nat} {u : Str} {fuel i : Nat}
    (h : texorPat.isPrefixOf (c :: u) = false) :
    findOpenersGo (fuel + 1) (c :: u) i = findOpenersGo fuel u (i + 1) := by
  simp only [findOpenersGo, h, Bool.false_eq_true, if_false]

/-- A string without any occurrence of the command name yields no opener. -/
theorem findOpenersGo_none :
    ∀ (fuel : Nat) (u : Str) (i : Nat),
      (∀ j, texorPat.isPrefixOf (u.drop j) = false) →
      findOpenersGo fuel u i = [] := by
  intro fuel
  induction fuel with
  | zero => intro u i _; cases u <;> rfl
  | succ fuel ih =>
    intro u i h
    match u with
    | [] => rfl
    | c :: rest =>
      rw [findOpenersGo_skip (by simpa using h 0)]
      exact ih rest (i + 1) (fun j => by simpa using h (j + 1))

/-- The opener scan skips over an occurrence-free segment. -/
theorem findOpenersGo_seg :
    ∀ (v : Str) (f i : Nat) (z : Str),
      (∀ j, j < v.length → texorPat.isPrefixOf ((v ++ z).drop j) = false) →
      findOpenersGo (v.length + f) (v ++ z) i = findOpenersGo f z (i + v.length) := by
  intro v
  induction v with
  | nil => intro f i z _; simp
  | cons c rest ih =>
    intro f i z h
    have h0 : texorPat.isPrefixOf (c :: (rest ++ z)) = false := by
      simpa using h 0 (by simp)
    have hf : (c :: rest).length + f = (rest.length + f) + 1 := by
      simp only [List.length_cons]; omega
    rw [hf, List.cons_append, findOpenersGo_skip h0,
      ih f (i + 1) z (fun j hj => by
        simpa using h (j + 1) (by simp only [List.length_cons]; omega))]
    have hi : i + 1 + rest.length = i + (c :: rest).length := by
      simp only [List.length_cons]; omega
    rw [hi]

/-- The opener scan at a command occurrence records the position just after the
opening brace and resumes there. -/
theorem findOpenersGo_block (z : Str) (fuel i : Nat) :
    findOpenersGo (fuel + 1) (texorPat ++ lbrace :: z) i =
      (i + 16) :: findOpenersGo fuel z (i + 16) := rfl

theorem firstArgClose_close (z : Str) (pos : Nat) :
    firstArgClose (rbrace :: z) pos 1 = some pos := rfl

/-- The brace-count loop walks across a segment that does not close the first
argument, updating the count as `braceWalk` does. -/
theorem braceWalk_skip :
    ∀ (u : Str) (d d' : Nat), braceWalk u d = some d' →
      ∀ (z : Str) (pos : Nat),
        firstArgClose (u ++ z) pos d = firstArgClose z (pos + u.length) d' := by
  intro u
  induction u with
  | nil =>
    intro d d' h z pos
    simp only [braceWalk, Option.some.injEq] at h
    subst h
    simp
  | cons ch rest ih =>
    intro d d' h z pos
    simp only [braceWalk] at h
    simp only [List.cons_append, firstArgClose, List.append_eq]
    have hlen : pos + 1 + rest.length = pos + (ch :: rest).length := by
      simp only [List.length_cons]; omega
    by_cases h1 : (ch == rbrace && d == 1) = true
    · rw [if_pos h1] at h; cases h
    · rw [if_neg h1] at h
      rw [if_neg h1]
      by_cases h2 : (ch == rbrace) = true
      · rw [if_pos h2] at h
        rw [if_pos h2, ih _ _ h, hlen]
      · rw [if_neg h2] at h
        rw [if_neg h2]
        by_cases h3 : (ch == lbrace) = true
        · rw [if_pos h3] at h
          rw [if_pos h3, ih _ _ h, hlen]
        · rw [if_neg h3] at h
          rw [if_neg h3, ih _ _ h, hlen]

theorem braceWalk_append :
    ∀ (u v : Str) (d : Nat),
      braceWalk (u ++ v) d = (braceWalk u d).bind (fun d' => braceWalk v d') := by
  intro u
  induction u with
  | nil => intro v d; simp [braceWalk]
  | cons ch rest ih =>
    intro v d
    simp only [List.cons_append, braceWalk, List.append_eq]
    by_cases h1 : (ch == rbrace && d == 1) = true
    · rw [if_pos h1, if_pos h1]; rfl
    · rw [if_neg h1, if_neg h1]
      by_cases h2 : (ch == rbrace) = true
      · rw [if_pos h2, if_pos h2, ih]
      · rw [if_neg h2, if_neg h2]
        by_cases h3 : (ch == lbrace) = true
        · rw [if_pos h3, if_pos h3, ih]
        · rw [if_neg h3, if_neg h3, ih]

/-- The detector, evaluated once the last opener and its closing brace are
known. -/
theorem isInside_eval {L : Str} {t st fae : Nat}
    (h1 : (findOpeners (L.take t)).getLast? = some st)
    (h2 : firstArgClose (L.drop st) st 1 = some fae) :
    isInsideTexorpdfstring L t = (Nat.ble st t && Nat.ble t fae) := by
  unfold isInsideTexorpdfstring
  simp only [h1, h2]

/-- The detector returns `false` when no opener precedes the position. -/
theorem isInside_of_no_opener {L : Str} {t : Nat}
    (h : findOpeners (L.take t) = []) :
    isInsideTexorpdfstring L t = false := by
  unfold isInsideTexorpdfstring
  simp only [h, List.getLast?_nil]

/-- Taking past a leading part splits off that part. -/
theorem take_of_prefix_part (A X : Str) (t : Nat) (ht : A.length ≤ t) :
    (A ++ X).take t = A ++ X.take (t - A.length) := by
  rw [List.take_append_eq_append_take, List.take_of_length_le ht]

/-- A prefix holding exactly one opener. -/
theorem findOpeners_one (u w : Str)
    (hu : ∀ j, j < u.length →
      texorPat.isPrefixOf ((u ++ (texorPat ++ lbrace :: w)).drop j) = false)
    (hw : ∀ j, texorPat.isPrefixOf (w.drop j) = false) :
    findOpeners (u ++ (texorPat ++ lbrace :: w)) = [u.length + 16] := by
  unfold findOpeners
  have hlen : (u ++ (texorPat ++ lbrace :: w)).length = u.length + (w.length + 16) := by
    simp only [List.length_append, List.length_cons, List.length_nil, texorPat]
    omega
  rw [hlen]
  have h2 : u.length + (w.length + 16) + 1 = u.length + (w.length + 16 + 1) := by omega
  rw [h2, findOpenersGo_seg u (w.length + 16 + 1) 0 _ hu]
  rw [findOpenersGo_block, findOpenersGo_none _ _ _ hw]
  simp

/-- A prefix holding exactly two openers. -/
theorem findOpeners_two (u v w : Str)
    (hu : ∀ j, j < u.length →
      texorPat.isPrefixOf
        ((u ++ (texorPat ++ lbrace :: (v ++ (texorPat ++ lbrace :: w)))).drop j) = false)
    (hv : ∀ j, j < v.length →
      texorPat.isPrefixOf ((v ++ (texorPat ++ lbrace :: w)).drop j) = false)
    (hw : ∀ j, texorPat.isPrefixOf (w.drop j) = false) :
    findOpeners (u ++ (texorPat ++ lbrace :: (v ++ (texorPat ++ lbrace :: w)))) =
      [u.length + 16, u.length + 16 + (v.length + 16)] := by
  unfold findOpeners
  have hlen : (u ++ (texorPat ++ lbrace :: (v ++ (texorPat ++ lbrace :: w)))).length =
      u.length + (v.length + w.length + 32) := by
    simp only [List.length_append, List.length_cons, List.length_nil, texorPat]
    omega
  rw [hlen]
  have h2 : u.length + (v.length + w.length + 32) + 1 =
      u.length + (v.length + (w.length + 31 + 1) + 1) := by omega
  rw [h2, findOpenersGo_seg u (v.length + (w.length + 31 + 1) + 1) 0 _ hu]
  rw [findOpenersGo_block]
  rw [findOpenersGo_seg v (w.length + 31 + 1) _ _ hv]
  rw [findOpenersGo_block, findOpenersGo_none _ _ _ hw]
  simp only [Nat.zero_add, List.cons.injEq, and_true]
  exact ⟨trivial, by omega⟩


theorem containsChar_append {ch : Nat} {u v : Str} :
    containsChar ch (u ++ v) = (containsChar ch u || containsChar ch v) := by
  simp [containsChar, List.any_append]

/-- `takeWhile` up to the delimiter reads exactly the delimiter-free part. -/
theorem takeWhile_dollarFree_append {c : Str} (z : Str)
    (h : containsChar dollar c = false) :
    (c ++ dollar :: z).takeWhile (fun x => x != dollar) = c := by
  rw [List.takeWhile_append]
  rw [takeWhile_ne_dollar_eq_self h]
  simp

/-- The span scan skips over a delimiter-free segment. -/
theorem findSpansGo_seg :
    ∀ (u : Str) (f i : Nat) (z : Str), containsChar dollar u = false →
      findSpansGo (u.length + f) (u ++ z) i = findSpansGo f z (i + u.length) := by
  intro u
  induction u with
  | nil => intro f i z _; simp
  | cons c rest ih =>
    intro f i z h
    obtain ⟨hc, hrest⟩ := containsChar_cons_eq_false h
    have hc2 : (c == dollar) = false := by simpa using hc
    have hf : (c :: rest).length + f = (rest.length + f) + 1 := by
      simp only [List.length_cons]; omega
    rw [hf, List.cons_append]
    simp only [findSpansGo, hc2, Bool.false_eq_true, if_false]
    rw [ih f (i + 1) z hrest]
    have hi : i + 1 + rest.length = i + (c :: rest).length := by
      simp only [List.length_cons]; omega
    rw [hi]

/-- The span scan at a nonempty terminated candidate records the span and
resumes after its closing delimiter. -/
theorem findSpansGo_step {c : Str} (z : Str) (fuel i : Nat)
    (hne : c ≠ []) (hdf : containsChar dollar c = false) :
    findSpansGo (fuel + 1) (dollar :: (c ++ dollar :: z)) i =
      (i, i + c.length + 2, c) :: findSpansGo fuel z (i + c.length + 2) := by
  have hne2 : c.isEmpty = false := by
    cases c
    · exact absurd rfl hne
    · rfl
  simp only [findSpansGo, beq_self_eq_true, if_true,
    takeWhile_dollarFree_append z hdf, hne2, Bool.false_eq_true, if_false,
    List.drop_left]

/-- A Boolean list-prefix test survives appending on the right. -/
theorem isPrefixOf_append_mono {u v : Str} (x : Str) (h : u.isPrefixOf v = true) :
    u.isPrefixOf (v ++ x) = true := by
  rw [List.isPrefixOf_iff_prefix] at h ⊢
  exact h.trans ( List.prefix_append v x)

theorem isPrefixOf_exists {u v : Str} (h : u.isPrefixOf v = true) :
    ∃ w, v = u ++ w := by
  rw [List.isPrefixOf_iff_prefix] at h
  obtain ⟨w, hw⟩ := h
  exact ⟨w, hw.symm⟩

/-- A line whose heading pattern is complete stays a heading under appending:
the regex `^\s*\\(sub)?section\s*\{` looks at a prefix only. -/
theorem isHeadingLine_append (g x : Str) (h : isHeadingLine g = true) :
    isHeadingLine (g ++ x) = true := by
  unfold isHeadingLine at h ⊢
  cases hd : g.dropWhile isSpaceChar with
  | nil => rw [hd] at h; simp at h
  | cons c rest =>
    simp only [hd] at h
    rw [List.dropWhile_append, hd]
    simp only [List.isEmpty_cons, Bool.false_eq_true, if_false, List.cons_append]
    by_cases hc : (c == bslash) = true
    · rw [if_pos hc] at h
      rw [if_pos hc]
      by_cases hsub : subPat.isPrefixOf rest = true
      · rw [if_pos hsub] at h
        rw [if_pos (isPrefixOf_append_mono x hsub)]
        obtain ⟨w3, hw3⟩ := isPrefixOf_exists hsub
        subst hw3
        rw [List.drop_left' (show subPat.length = 3 from rfl)] at h
        rw [List.append_assoc, List.drop_left' (show subPat.length = 3 from rfl)]
        rw [Bool.and_eq_true] at h
        obtain ⟨hsec, hbr⟩ := h
        rw [Bool.and_eq_true]
        refine ⟨isPrefixOf_append_mono x hsec, ?_⟩
        obtain ⟨w7, hw7⟩ := isPrefixOf_exists hsec
        subst hw7
        rw [List.drop_left' (show sectionPat.length = 7 from rfl)] at hbr
        rw [List.append_assoc, List.drop_left' (show sectionPat.length = 7 from rfl)]
        cases he : w7.dropWhile isSpaceChar with
        | nil => rw [he] at hbr; simp at hbr
        | cons d ds =>
          rw [he] at hbr
          rw [List.dropWhile_append, he]
          simp only [List.isEmpty_cons, Bool.false_eq_true, if_false, List.cons_append]
          exact hbr
      · rw [if_neg hsub] at h
        rw [Bool.and_eq_true] at h
        obtain ⟨hsec, hbr⟩ := h
        obtain ⟨w7, hw7⟩ := isPrefixOf_exists hsec
        subst hw7
        have hsub2 : subPat.isPrefixOf ((sectionPat ++ w7) ++ x) = false := by
          rw [List.append_assoc]
          simp [subPat, sectionPat, List.isPrefixOf]
        rw [if_neg (show ¬List.isPrefixOf subPat ((sectionPat ++ w7) ++ x) = true by
          rw [hsub2]; exact Bool.false_ne_true)]
        rw [Bool.and_eq_true]
        refine ⟨isPrefixOf_append_mono x hsec, ?_⟩
        rw [List.drop_left' (show sectionPat.length = 7 from rfl)] at hbr
        rw [List.append_assoc, List.drop_left' (show sectionPat.length = 7 from rfl)]
        cases he : w7.dropWhile isSpaceChar with
        | nil => rw [he] at hbr; simp at hbr
        | cons d ds =>
          rw [he] at hbr
          rw [List.dropWhile_append, he]
          simp only [List.isEmpty_cons, Bool.false_eq_true, if_false, List.cons_append]
          exact hbr
    · rw [if_neg hc] at h
      simp at h

/-- Positions inside the brace-balanced first argument of the only opener in
the prefix are classified as wrapped. -/
theorem isInside_true_inside_first_arg (p a z L' : Str) (t : Nat)
    (hshape : L' = (p ++ texorPat ++ [lbrace]) ++ (a ++ rbrace :: z))
    (ha : braceWalk a 1 = some 1)
    (hocc : ∀ j, texorPat.isPrefixOf ((L'.take t).drop j) = true → j = p.length)
    (ht1 : p.length + 16 ≤ t) (ht2 : t ≤ p.length + 16 + a.length) :
    isInsideTexorpdfstring L' t = true := by
  have hlenA : (p ++ texorPat ++ [lbrace]).length = p.length + 16 := by
    simp only [List.length_append, List.length_cons, List.length_nil, texorPat]
  have hT : L'.take t =
      p ++ (texorPat ++ lbrace :: ((a ++ rbrace :: z).take (t - (p.length + 16)))) := by
    rw [hshape, take_of_prefix_part _ _ t (by rw [hlenA]; omega), hlenA]
    simp
  have hsplit : L'.take t =
      (p ++ texorPat ++ [lbrace]) ++ ((a ++ rbrace :: z).take (t - (p.length + 16))) := by
    rw [hT]; simp
  have hu : ∀ j, j < p.length → texorPat.isPrefixOf
      ((p ++ (texorPat ++ lbrace :: ((a ++ rbrace :: z).take (t - (p.length + 16))))).drop j) =
        false := by
    intro j hj
    rw [← hT]
    cases heq : texorPat.isPrefixOf ((L'.take t).drop j) with
    | false => rfl
    | true => have := hocc j heq; omega
  have hw : ∀ j, texorPat.isPrefixOf
      (((a ++ rbrace :: z).take (t - (p.length + 16))).drop j) = false := by
    intro j
    cases heq : texorPat.isPrefixOf
        (((a ++ rbrace :: z).take (t - (p.length + 16))).drop j) with
    | false => rfl
    | true =>
      exfalso
      have e1 : ((a ++ rbrace :: z).take (t - (p.length + 16))).drop j =
          (L'.take t).drop (p.length + 16 + j) := by
        rw [hsplit]
        have h3 : p.length + 16 + j = (p ++ texorPat ++ [lbrace]).length + j := by
          rw [hlenA]
        rw [h3, List.drop_append]
      rw [e1] at heq
      have := hocc _ heq
      omega
  have hops : findOpeners (L'.take t) = [p.length + 16] := by
    rw [hT]
    exact findOpeners_one p _ hu hw
  have h1 : (findOpeners (L'.take t)).getLast? = some (p.length + 16) := by
    rw [hops]; rfl
  have hcl : firstArgClose (L'.drop (p.length + 16)) (p.length + 16) 1 =
      some (p.length + 16 + a.length) := by
    have hdrop : L'.drop (p.length + 16) = a ++ rbrace :: z := by
      rw [hshape]; exact List.drop_left' hlenA
    rw [hdrop, braceWalk_skip a 1 1 ha, firstArgClose_close]
  rw [isInside_eval h1 hcl]
  simp only [Bool.and_eq_true, Nat.ble_eq]
  exact ⟨ht1, ht2⟩

/-- Claim C5: on a line holding two complete `\texorpdfstring{..}{..}` commands
(with brace-balanced first arguments, and no other occurrence of the command
name), `is_inside_texorpdfstring` classifies every position inside either
command's first argument as wrapped, and every position at or past the end of
the second command as unwrapped: the brace-matched first-argument scope of the
nearest preceding opener gates the decision. -/
theorem wrapped_detection_two_commands
    (p a1 b1 mid a2 b2 s : Str)
    (ha1 : braceWalk a1 1 = some 1) (ha2 : braceWalk a2 1 = some 1)
    (hocc : ∀ j, texorPat.isPrefixOf
        ((p ++ wrapCmd a1 b1 ++ mid ++ wrapCmd a2 b2 ++ s).drop j) = true →
      j = p.length ∨ j = p.length + (wrapCmd a1 b1).length + mid.length) :
    (∀ t, p.length + 16 ≤ t → t ≤ p.length + 16 + a1.length →
      isInsideTexorpdfstring (p ++ wrapCmd a1 b1 ++ mid ++ wrapCmd a2 b2 ++ s) t = true)
    ∧ (∀ t, p.length + (wrapCmd a1 b1).length + mid.length + 16 ≤ t →
        t ≤ p.length + (wrapCmd a1 b1).length + mid.length + 16 + a2.length →
      isInsideTexorpdfstring (p ++ wrapCmd a1 b1 ++ mid ++ wrapCmd a2 b2 ++ s) t = true)
    ∧ (∀ t, p.length + (wrapCmd a1 b1).length + mid.length + (wrapCmd a2 b2).length ≤ t →
      isInsideTexorpdfstring (p ++ wrapCmd a1 b1 ++ mid ++ wrapCmd a2 b2 ++ s) t = false) := by
  have hW1 : (wrapCmd a1 b1).length = a1.length + b1.length + 19 := by
    simp only [wrapCmd, List.length_append, List.length_cons, List.length_nil, texorPat]
    omega
  have hW2 : (wrapCmd a2 b2).length = a2.length + b2.length + 19 := by
    simp only [wrapCmd, List.length_append, List.length_cons, List.length_nil, texorPat]
    omega
  have hB : p ++ wrapCmd a1 b1 ++ mid ++ wrapCmd a2 b2 ++ s =
      (p ++ wrapCmd a1 b1 ++ mid ++ texorPat ++ [lbrace]) ++
        (a2 ++ rbrace :: (lbrace :: (b2 ++ rbrace :: s))) := by
    simp [wrapCmd]
  have hlenB : (p ++ wrapCmd a1 b1 ++ mid ++ texorPat ++ [lbrace]).length =
      p.length + (wrapCmd a1 b1).length + mid.length + 16 := by
    simp only [List.length_append, List.length_cons, List.length_nil, texorPat]
  have key2 : ∀ t, p.length + (wrapCmd a1 b1).length + mid.length + 16 ≤ t →
      isInsideTexorpdfstring (p ++ wrapCmd a1 b1 ++ mid ++ wrapCmd a2 b2 ++ s) t =
        (Nat.ble (p.length + (wrapCmd a1 b1).length + mid.length + 16) t &&
          Nat.ble t (p.length + (wrapCmd a1 b1).length + mid.length + 16 + a2.length)) := by
    intro t ht
    have hT : (p ++ wrapCmd a1 b1 ++ mid ++ wrapCmd a2 b2 ++ s).take t =
        p ++ (texorPat ++ lbrace ::
          (((a1 ++ rbrace :: lbrace :: (b1 ++ [rbrace])) ++ mid) ++
            (texorPat ++ lbrace ::
              ((a2 ++ rbrace :: (lbrace :: (b2 ++ rbrace :: s))).take
                (t - (p.length + (wrapCmd a1 b1).length + mid.length + 16)))))) := by
      rw [hB, take_of_prefix_part _ _ t (by rw [hlenB]; omega), hlenB]
      simp [wrapCmd]
    have hVlen : ((a1 ++ rbrace :: lbrace :: (b1 ++ [rbrace])) ++ mid).length =
        a1.length + b1.length + mid.length + 3 := by
      simp only [List.length_append, List.length_cons, List.length_nil]
      omega
    have hsplit2 : (p ++ wrapCmd a1 b1 ++ mid ++ wrapCmd a2 b2 ++ s).take t =
        (p ++ texorPat ++ [lbrace]) ++
          (((a1 ++ rbrace :: lbrace :: (b1 ++ [rbrace])) ++ mid) ++
            (texorPat ++ lbrace ::
              ((a2 ++ rbrace :: (lbrace :: (b2 ++ rbrace :: s))).take
                (t - (p.length + (wrapCmd a1 b1).length + mid.length + 16))))) := by
      rw [hT]; simp
    have hlenA : (p ++ texorPat ++ [lbrace]).length = p.length + 16 := by
      simp only [List.length_append, List.length_cons, List.length_nil, texorPat]
    have hsplit3 : (p ++ wrapCmd a1 b1 ++ mid ++ wrapCmd a2 b2 ++ s).take t =
        ((p ++ texorPat ++ [lbrace]) ++
            (((a1 ++ rbrace :: lbrace :: (b1 ++ [rbrace])) ++ mid) ++ (texorPat ++ [lbrace]))) ++
          ((a2 ++ rbrace :: (lbrace :: (b2 ++ rbrace :: s))).take
            (t - (p.length + (wrapCmd a1 b1).length + mid.length + 16))) := by
      rw [hT]; simp
    have hlenC : ((p ++ texorPat ++ [lbrace]) ++
        (((a1 ++ rbrace :: lbrace :: (b1 ++ [rbrace])) ++ mid) ++ (texorPat ++ [lbrace]))).length =
          p.length + (wrapCmd a1 b1).length + mid.length + 16 := by
      simp only [List.length_append, List.length_cons, List.length_nil, texorPat, wrapCmd]
      omega
    have hu : ∀ j, j < p.length → texorPat.isPrefixOf
        ((p ++ (texorPat ++ lbrace ::
          (((a1 ++ rbrace :: lbrace :: (b1 ++ [rbrace])) ++ mid) ++
            (texorPat ++ lbrace ::
              ((a2 ++ rbrace :: (lbrace :: (b2 ++ rbrace :: s))).take
                (t - (p.length + (wrapCmd a1 b1).length + mid.length + 16))))))).drop j) =
          false := by
      intro j hj
      rw [← hT]
      cases heq : texorPat.isPrefixOf
          (((p ++ wrapCmd a1 b1 ++ mid ++ wrapCmd a2 b2 ++ s).take t).drop j) with
      | false => rfl
      | true => rcases hocc j (occ_in_take heq) with h | h <;> omega
    have hv : ∀ j, j < ((a1 ++ rbrace :: lbrace :: (b1 ++ [rbrace])) ++ mid).length →
        texorPat.isPrefixOf
          ((((a1 ++ rbrace :: lbrace :: (b1 ++ [rbrace])) ++ mid) ++
            (texorPat ++ lbrace ::
              ((a2 ++ rbrace :: (lbrace :: (b2 ++ rbrace :: s))).take
                (t - (p.length + (wrapCmd a1 b1).length + mid.length + 16))))).drop j) =
            false := by
      intro j hj
      cases heq : texorPat.isPrefixOf
          ((((a1 ++ rbrace :: lbrace :: (b1 ++ [rbrace])) ++ mid) ++
            (texorPat ++ lbrace ::
              ((a2 ++ rbrace :: (lbrace :: (b2 ++ rbrace :: s))).take
                (t - (p.length + (wrapCmd a1 b1).length + mid.length + 16))))).drop j) with
      | false => rfl
      | true =>
        exfalso
        have e1 : (((a1 ++ rbrace :: lbrace :: (b1 ++ [rbrace])) ++ mid) ++
            (texorPat ++ lbrace ::
              ((a2 ++ rbrace :: (lbrace :: (b2 ++ rbrace :: s))).take
                (t - (p.length + (wrapCmd a1 b1).length + mid.length + 16))))).drop j =
            ((p ++ wrapCmd a1 b1 ++ mid ++ wrapCmd a2 b2 ++ s).take t).drop
              (p.length + 16 + j) := by
          rw [hsplit2]
          have h3 : p.length + 16 + j = (p ++ texorPat ++ [lbrace]).length + j := by
            rw [hlenA]
          rw [h3, List.drop_append]
        rw [e1] at heq
        rcases hocc _ (occ_in_take heq) with h | h
        · omega
        · rw [hVlen] at hj; omega
    have hw : ∀ j, texorPat.isPrefixOf
        (((a2 ++ rbrace :: (lbrace :: (b2 ++ rbrace :: s))).take
          (t - (p.length + (wrapCmd a1 b1).length + mid.length + 16))).drop j) = false := by
      intro j
      cases heq : texorPat.isPrefixOf
          (((a2 ++ rbrace :: (lbrace :: (b2 ++ rbrace :: s))).take
            (t - (p.length + (wrapCmd a1 b1).length + mid.length + 16))).drop j) with
      | false => rfl
      | true =>
        exfalso
        have e1 : ((a2 ++ rbrace :: (lbrace :: (b2 ++ rbrace :: s))).take
            (t - (p.length + (wrapCmd a1 b1).length + mid.length + 16))).drop j =
            ((p ++ wrapCmd a1 b1 ++ mid ++ wrapCmd a2 b2 ++ s).take t).drop
              (p.length + (wrapCmd a1 b1).length + mid.length + 16 + j) := by
          rw [hsplit3]
          have h3 : p.length + (wrapCmd a1 b1).length + mid.length + 16 + j =
              ((p ++ texorPat ++ [lbrace]) ++
                (((a1 ++ rbrace :: lbrace :: (b1 ++ [rbrace])) ++ mid) ++
                  (texorPat ++ [lbrace]))).length + j := by
            rw [hlenC]
          rw [h3, List.drop_append]
        rw [e1] at heq
        rcases hocc _ (occ_in_take heq) with h | h <;> omega
    have hops : findOpeners ((p ++ wrapCmd a1 b1 ++ mid ++ wrapCmd a2 b2 ++ s).take t) =
        [p.length + 16,
          p.length + 16 + (((a1 ++ rbrace :: lbrace :: (b1 ++ [rbrace])) ++ mid).length + 16)] := by
      rw [hT]
      exact findOpeners_two p _ _ hu hv hw
    have h1 : (findOpeners ((p ++ wrapCmd a1 b1 ++ mid ++ wrapCmd a2 b2 ++ s).take t)).getLast? =
        some (p.length + (wrapCmd a1 b1).length + mid.length + 16) := by
      rw [hops]
      have hy : p.length + 16 + (((a1 ++ rbrace :: lbrace :: (b1 ++ [rbrace])) ++ mid).length + 16) =
          p.length + (wrapCmd a1 b1).length + mid.length + 16 := by
        rw [hVlen]; omega
      rw [hy]
      rfl
    have hcl : firstArgClose
        ((p ++ wrapCmd a1 b1 ++ mid ++ wrapCmd a2 b2 ++ s).drop
          (p.length + (wrapCmd a1 b1).length + mid.length + 16))
        (p.length + (wrapCmd a1 b1).length + mid.length + 16) 1 =
        some (p.length + (wrapCmd a1 b1).length + mid.length + 16 + a2.length) := by
      have hdropB : (p ++ wrapCmd a1 b1 ++ mid ++ wrapCmd a2 b2 ++ s).drop
          (p.length + (wrapCmd a1 b1).length + mid.length + 16) =
          a2 ++ rbrace :: (lbrace :: (b2 ++ rbrace :: s)) := by
        rw [hB]; exact List.drop_left' hlenB
      rw [hdropB, braceWalk_skip a2 1 1 ha2, firstArgClose_close]
    rw [isInside_eval h1 hcl]
  refine ⟨?_, ?_, ?_⟩
  · intro t ht1 ht2
    have hshape : p ++ wrapCmd a1 b1 ++ mid ++ wrapCmd a2 b2 ++ s =
        (p ++ texorPat ++ [lbrace]) ++
          (a1 ++ rbrace :: (lbrace :: (b1 ++ rbrace :: (mid ++ (wrapCmd a2 b2 ++ s))))) := by
      simp [wrapCmd]
    apply isInside_true_inside_first_arg p a1 _ _ t hshape ha1 _ ht1 ht2
    intro j hj
    rcases hocc j (occ_in_take hj) with h | h
    · exact h
    · exfalso
      have h15 := occ_length15 hj
      rw [List.length_drop, List.length_take] at h15
      have hmin : min t (p ++ wrapCmd a1 b1 ++ mid ++ wrapCmd a2 b2 ++ s).length ≤ t :=
        Nat.min_le_left _ _
      omega
  · intro t ht1 ht2
    rw [key2 t ht1]
    simp only [Bool.and_eq_true, Nat.ble_eq]
    exact ⟨ht1, ht2⟩
  · intro t ht
    have hge : p.length + (wrapCmd a1 b1).length + mid.length + 16 ≤ t := by omega
    rw [key2 t hge]
    have hf : Nat.ble t (p.length + (wrapCmd a1 b1).length + mid.length + 16 + a2.length) =
        false := by
      cases hb : Nat.ble t (p.length + (wrapCmd a1 b1).length + mid.length + 16 + a2.length) with
      | false => rfl
      | true =>
        exfalso
        have := Nat.le_of_ble_eq_true hb
        omega
    rw [hf, Bool.and_false]

/-- Witness for C5 at the concrete line
`\section{\texorpdfstring{$x$}{x} and \texorpdfstring{$y$}{y} more}`:
position 26 (inside the first command's first argument) and position 54
(inside the second command's first argument) are wrapped, position 61 (after
both commands) is not. -/
theorem wrapped_detection_two_commands_witness :
    isInsideTexorpdfstring
      (strOf "\\section\x7b" ++ wrapCmd (strOf "$x$") (strOf "x") ++ strOf " and " ++
        wrapCmd (strOf "$y$") (strOf "y") ++ strOf " more\x7d") 26 = true
    ∧ isInsideTexorpdfstring
      (strOf "\\section\x7b" ++ wrapCmd (strOf "$x$") (strOf "x") ++ strOf " and " ++
        wrapCmd (strOf "$y$") (strOf "y") ++ strOf " more\x7d") 54 = true
    ∧ isInsideTexorpdfstring
      (strOf "\\section\x7b" ++ wrapCmd (strOf "$x$") (strOf "x") ++ strOf " and " ++
        wrapCmd (strOf "$y$") (strOf "y") ++ strOf " more\x7d") 61 = false := by
  have hocc : ∀ j, texorPat.isPrefixOf
      ((strOf "\\section\x7b" ++ wrapCmd (strOf "$x$") (strOf "x") ++ strOf " and " ++
        wrapCmd (strOf "$y$") (strOf "y") ++ strOf " more\x7d").drop j) = true →
      j = (strOf "\\section\x7b").length ∨
        j = (strOf "\\section\x7b").length + (wrapCmd (strOf "$x$") (strOf "x")).length +
          (strOf " and ").length := by
    have hb : ∀ j, j < 66 → texorPat.isPrefixOf
        ((strOf "\\section\x7b" ++ wrapCmd (strOf "$x$") (strOf "x") ++ strOf " and " ++
          wrapCmd (strOf "$y$") (strOf "y") ++ strOf " more\x7d").drop j) = true →
        j = (strOf "\\section\x7b").length ∨
          j = (strOf "\\section\x7b").length + (wrapCmd (strOf "$x$") (strOf "x")).length +
            (strOf " and ").length := by decide
    intro j hj
    by_cases h : j < 66
    · exact hb j h hj
    · exfalso
      have h15 := occ_length15 hj
      rw [List.length_drop] at h15
      have hL : (strOf "\\section\x7b" ++ wrapCmd (strOf "$x$") (strOf "x") ++ strOf " and " ++
          wrapCmd (strOf "$y$") (strOf "y") ++ strOf " more\x7d").length = 66 := by decide
      omega
  have h := wrapped_detection_two_commands (strOf "\\section\x7b") (strOf "$x$") (strOf "x")
    (strOf " and ") (strOf "$y$") (strOf "y") (strOf " more\x7d")
    (by decide) (by decide) hocc
  exact ⟨h.1 26 (by decide) (by decide), h.2.1 54 (by decide) (by decide),
    h.2.2 61 (by decide)⟩

theorem wrapRepl_length (a b : Str) : (wrapRepl a b).length = a.length + b.length + 21 := by
  simp only [wrapRepl, texorPat, List.length_append, List.length_cons, List.length_nil]
  omega

/-- Marking every segment wrapped renders the once-processed line. -/
theorem chunksStr_markW : ∀ ps, chunksStr (markW ps) = chunksOut ps := by
  intro ps
  induction ps with
  | nil => rfl
  | cons pr rest ih =>
    obtain ⟨⟨f, x, y⟩, g⟩ := pr
    cases f <;>
      simp only [markW, List.map_cons, chunksStr, chunksOut, segStr, segOut] at ih ⊢ <;>
      rw [ih]

/-- A second pass leaves an all-wrapped segment list unchanged. -/
theorem chunksOut_markW : ∀ ps, chunksOut (markW ps) = chunksOut ps := by
  intro ps
  induction ps with
  | nil => rfl
  | cons pr rest ih =>
    obtain ⟨⟨f, x, y⟩, g⟩ := pr
    cases f <;>
      simp only [markW, List.map_cons, chunksOut, segOut] at ih ⊢ <;>
      rw [ih]

theorem wrapOffs_ge : ∀ (ps : List ((Bool × Str × Str) × Str)) (i : Nat),
    ∀ x ∈ wrapOffs i ps, i ≤ x := by
  intro ps
  induction ps with
  | nil => intro i x hx; simp [wrapOffs] at hx
  | cons pr rest ih =>
    intro i x hx
    obtain ⟨⟨f, a, b⟩, g⟩ := pr
    cases f
    · simp only [wrapOffs] at hx
      have := ih _ x hx
      omega
    · simp only [wrapOffs, List.mem_cons] at hx
      rcases hx with rfl | hx
      · exact Nat.le_refl x
      · have := ih _ x hx
        omega

theorem markW_mem {ps : List ((Bool × Str × Str) × Str)}
    {q : (Bool × Str × Str) × Str} (hq : q ∈ markW ps) :
    ∃ pr ∈ ps, q = ((true, pr.1.2.1, pr.1.2.2), pr.2) := by
  simp only [markW, List.mem_map] at hq
  obtain ⟨pr, hpr, hq⟩ := hq
  exact ⟨pr, hpr, hq.symm⟩

/-- The span loop splits over concatenation of span lists. -/
theorem processSpans_append (autoYes : Bool) (L : Str) :
    ∀ (l1 l2 : List (Nat × Nat × Str)) (m : List (Str × Str)) (stdin : List Str) (acc : Str),
      processSpans autoYes L (l1 ++ l2) m stdin acc =
        (match processSpans autoYes L l1 m stdin acc with
         | .ok (acc2, m2, stdin2) => processSpans autoYes L l2 m2 stdin2 acc2
         | .error e => .error e) := by
  intro l1
  induction l1 with
  | nil => intro l2 m stdin acc; rfl
  | cons x rest ih =>
    intro l2 m stdin acc
    obtain ⟨a, b, content⟩ := x
    rw [List.cons_append]
    by_cases h : isInsideTexorpdfstring L a = true
    · simp only [processSpans, h, if_true]
      exact ih l2 m stdin acc
    · simp only [processSpans, h, Bool.false_eq_true, if_false]
      cases hcv : convertFormulaToUnicode m stdin content with
      | error e => simp only [hcv]
      | ok v =>
        obtain ⟨rend, m2, stdin2⟩ := v
        simp only [hcv]
        cases hcf : confirmChange autoYes m2 stdin2 content with
        | error e => simp only [hcf]
        | ok w =>
          obtain ⟨okB, m3, stdin3⟩ := w
          simp only [hcf]
          cases okB
          · simp only [Bool.false_eq_true, if_false]
            exact ih l2 m3 stdin3 acc
          · simp only [if_true]
            exact ih l2 m3 stdin3 _

/-- A command-opener shape at `p` survives truncation that keeps the opener. -/
theorem shape_take {L : Str} {p t : Nat}
    (h : L.drop p = texorPat ++ lbrace :: L.drop (p + 16)) (hpt : p + 16 ≤ t) :
    (L.take t).drop p = texorPat ++ lbrace :: (L.take t).drop (p + 16) := by
  rw [List.drop_take, List.drop_take, h]
  rw [take_of_prefix_part texorPat _ (t - p)
    (by simp only [texorPat, List.length_cons, List.length_nil]; omega)]
  have h2 : t - p - texorPat.length = (t - (p + 16)) + 1 := by
    have h15 : texorPat.length = 15 := rfl
    rw [h15]
    omega
  rw [h2, List.take_succ_cons]

/-- The brace count walks unchanged across a delimiter-wrapped brace-balanced
content. -/
theorem braceWalk_dollarWrap {a : Str} (h : braceWalk a 1 = some 1) :
    braceWalk (dollar :: (a ++ [dollar])) 1 = some 1 := by
  have e1 : braceWalk (dollar :: (a ++ [dollar])) 1 = braceWalk (a ++ [dollar]) 1 := by
    simp [braceWalk, dollar, rbrace, lbrace]
  rw [e1, braceWalk_append, h]
  decide

/-- The delimiter scan on a segment-list line finds exactly the annotated
spans: one per segment, sitting after the wrap prelude for wrapped segments. -/
theorem findSpansGo_chunks :
    ∀ (ps : List ((Bool × Str × Str) × Str)) (f i : Nat),
      (∀ pr ∈ ps, pr.1.2.1 ≠ [] ∧ containsChar dollar pr.1.2.1 = false ∧
        containsChar dollar pr.1.2.2 = false ∧ containsChar dollar pr.2 = false) →
      findSpansGo ((chunksStr ps).length + (f + 1)) (chunksStr ps) i =
        (annSpans i ps).map Prod.snd := by
  intro ps
  induction ps with
  | nil =>
    intro f i _
    simp only [chunksStr, annSpans, List.map_nil, List.length_nil]
    exact findSpansGo_nil _ _
  | cons pr rest ih =>
    intro f i hpk
    obtain ⟨⟨fl, x, y⟩, g⟩ := pr
    obtain ⟨hxne, hxd, hyd, hgd⟩ := hpk _ (List.mem_cons_self _ _)
    have hpk' := fun q hq => hpk q (List.mem_cons_of_mem _ hq)
    cases fl
    · -- raw segment
      have hshape : chunksStr (((false, x, y), g) :: rest) =
          dollar :: (x ++ dollar :: (g ++ chunksStr rest)) := by
        simp [chunksStr, segStr]
      have hlen : (chunksStr (((false, x, y), g) :: rest)).length + (f + 1) =
          (x.length + 2 + g.length + (chunksStr rest).length + f) + 1 := by
        rw [hshape]
        simp only [List.length_cons, List.length_append]
        omega
      rw [hlen, hshape,
        findSpansGo_step (g ++ chunksStr rest) _ i hxne hxd]
      have hseg : x.length + 2 + g.length + (chunksStr rest).length + f =
          g.length + ((chunksStr rest).length + ((x.length + f + 1) + 1)) := by omega
      rw [hseg, findSpansGo_seg g _ _ _ hgd, ih (x.length + f + 1) _ hpk']
      simp only [annSpans, List.map_cons]
    · -- wrapped segment
      have hshape : chunksStr (((true, x, y), g) :: rest) =
          (texorPat ++ [lbrace]) ++
            (dollar :: (x ++ dollar ::
              ((rbrace :: lbrace :: (y ++ [rbrace])) ++ (g ++ chunksStr rest)))) := by
        simp [chunksStr, segStr, wrapRepl]
      have hlen : (chunksStr (((true, x, y), g) :: rest)).length + (f + 1) =
          (texorPat ++ [lbrace]).length +
            ((x.length + y.length + 5 + g.length + (chunksStr rest).length + f) + 1) := by
        rw [hshape]
        simp only [texorPat, List.length_append, List.length_cons, List.length_nil]
        omega
      have hudf : containsChar dollar (texorPat ++ [lbrace]) = false := by decide
      rw [hlen, hshape, findSpansGo_seg (texorPat ++ [lbrace]) _ i _ hudf,
        show (texorPat ++ [lbrace]).length = 16 from rfl,
        findSpansGo_step ((rbrace :: lbrace :: (y ++ [rbrace])) ++ (g ++ chunksStr rest))
          _ (i + 16) hxne hxd]
      have hvd : containsChar dollar (rbrace :: lbrace :: (y ++ [rbrace])) = false := by
        have e : rbrace :: lbrace :: (y ++ [rbrace]) = [rbrace, lbrace] ++ (y ++ [rbrace]) :=
          rfl
        rw [e, containsChar_append, containsChar_append, hyd]
        decide
      have hstep2 : x.length + y.length + 5 + g.length + (chunksStr rest).length + f =
          (rbrace :: lbrace :: (y ++ [rbrace])).length +
            (g.length + ((chunksStr rest).length + ((x.length + f + 1) + 1))) := by
        simp only [List.length_cons, List.length_append, List.length_nil]
        omega
      rw [hstep2, findSpansGo_seg (rbrace :: lbrace :: (y ++ [rbrace])) _ _ _ hvd,
        findSpansGo_seg g _ _ _ hgd, ih (x.length + f + 1) _ hpk']
      have hidx : i + 16 + x.length + 2 + (rbrace :: lbrace :: (y ++ [rbrace])).length +
          g.length = i + x.length + y.length + 21 + g.length := by
        simp only [List.length_cons, List.length_append, List.length_nil]
        omega
      rw [hidx]
      simp only [annSpans, List.map_cons]

/-- The opener scan finds exactly a given list of openers: positions of
command-opener shape, pairwise separated by at least the opener length, that
cover every occurrence of the command name. -/
theorem findOpenersGo_multi :
    ∀ (n : Nat) (os : List Nat) (T : Str), T.length ≤ n →
      ∀ (f i : Nat),
      List.Pairwise (fun p q => p + 16 ≤ q) os →
      (∀ o ∈ os, T.drop o = texorPat ++ lbrace :: T.drop (o + 16)) →
      (∀ j, texorPat.isPrefixOf (T.drop j) = true → j ∈ os) →
      findOpenersGo (T.length + (f + 1)) T i = os.map (fun o => i + o + 16) := by
  intro n
  induction n with
  | zero =>
    intro os T hTn f i hpw hsh hocc
    have hT : T = [] := List.length_eq_zero.mp (Nat.le_zero.mp hTn)
    subst hT
    cases os with
    | nil =>
      simp only [List.map_nil]
      exact findOpenersGo_none _ _ _ (fun j => by rw [List.drop_nil]; rfl)
    | cons o os' =>
      exfalso
      have h := hsh o (List.mem_cons_self _ _)
      simp [texorPat] at h
  | succ n ihn =>
    intro os T hTn f i hpw hsh hocc
    cases os with
    | nil =>
      simp only [List.map_nil]
      exact findOpenersGo_none _ _ _ (fun j => by
        cases heq : texorPat.isPrefixOf (T.drop j) with
        | false => rfl
        | true => exact absurd (hocc j heq) (List.not_mem_nil j))
    | cons o os' =>
      have hro : ∀ q ∈ os', o + 16 ≤ q := (List.pairwise_cons.mp hpw).1
      have hpw' : List.Pairwise (fun p q => p + 16 ≤ q) os' := (List.pairwise_cons.mp hpw).2
      have hshape0 := hsh o (List.mem_cons_self _ _)
      have hlenT : o + 16 ≤ T.length := by
        have h1 : (T.drop o).length = 16 + (T.drop (o + 16)).length := by
          rw [hshape0]
          simp only [texorPat, List.length_append, List.length_cons, List.length_nil]
          omega
        rw [List.length_drop, List.length_drop] at h1
        omega
      obtain ⟨u, hu⟩ : ∃ u, T.take o = u := ⟨_, rfl⟩
      obtain ⟨w, hw⟩ : ∃ w, T.drop (o + 16) = w := ⟨_, rfl⟩
      have hulen : u.length = o := by
        rw [← hu, List.length_take]
        omega
      have hwlen : w.length = T.length - (o + 16) := by rw [← hw, List.length_drop]
      have hT : T = u ++ (texorPat ++ lbrace :: w) := by
        rw [← hu, ← hw, ← hshape0, List.take_append_drop]
      have husg : ∀ j, j < u.length →
          texorPat.isPrefixOf ((u ++ (texorPat ++ lbrace :: w)).drop j) = false := by
        intro j hj
        rw [← hT]
        cases heq : texorPat.isPrefixOf (T.drop j) with
        | false => rfl
        | true =>
          exfalso
          rcases List.mem_cons.mp (hocc j heq) with rfl | hmem
          · omega
          · have := hro j hmem
            omega
      rw [hT]
      have hflen : (u ++ (texorPat ++ lbrace :: w)).length + (f + 1) =
          u.length + ((w.length + 16 + f) + 1) := by
        simp only [texorPat, List.length_append, List.length_cons, List.length_nil]
        omega
      rw [hflen, findOpenersGo_seg u ((w.length + 16 + f) + 1) i _ husg,
        findOpenersGo_block, hulen]
      have hf2 : w.length + 16 + f = w.length + ((15 + f) + 1) := by omega
      rw [hf2]
      have hwn : w.length ≤ n := by omega
      have hsh' : ∀ o2 ∈ os'.map (fun q => q - (o + 16)),
          w.drop o2 = texorPat ++ lbrace :: w.drop (o2 + 16) := by
        intro o2 ho2
        obtain ⟨q, hq, rfl⟩ := List.mem_map.mp ho2
        have hq16 := hro q hq
        have e1 : w.drop (q - (o + 16)) = T.drop q := by
          rw [← hw, List.drop_drop]
          have e : o + 16 + (q - (o + 16)) = q := by omega
          rw [e]
        have e2 : w.drop (q - (o + 16) + 16) = T.drop (q + 16) := by
          rw [← hw, List.drop_drop]
          have e : o + 16 + (q - (o + 16) + 16) = q + 16 := by omega
          rw [e]
        rw [e1, e2]
        exact hsh q (List.mem_cons_of_mem _ hq)
      have hocc' : ∀ j, texorPat.isPrefixOf (w.drop j) = true →
          j ∈ os'.map (fun q => q - (o + 16)) := by
        intro j hj
        have e1 : w.drop j = T.drop (o + 16 + j) := by
          rw [← hw, List.drop_drop]
        rw [e1] at hj
        rcases List.mem_cons.mp (hocc _ hj) with heq | hmem
        · exact absurd heq (by omega)
        · exact List.mem_map.mpr ⟨o + 16 + j, hmem, by omega⟩
      have hpw2 : List.Pairwise (fun p q => p + 16 ≤ q)
          (os'.map (fun q => q - (o + 16))) := by
        rw [List.pairwise_map]
        refine List.Pairwise.imp_of_mem ?_ hpw'
        intro p q hp hq hpq
        have := hro p hp
        show p - (o + 16) + 16 ≤ q - (o + 16)
        omega
      rw [ihn (os'.map (fun q => q - (o + 16))) w hwn (15 + f) (i + o + 16) hpw2 hsh' hocc']
      simp only [List.map_cons]
      congr 1
      rw [List.map_map]
      apply List.map_congr_left
      intro q hq
      have := hro q hq
      show i + o + 16 + (q - (o + 16)) + 16 = i + q + 16
      omega

/-- On a segment-list line the wrapped-span detector classifies every span by
its segment's flag: spans of wrapped segments test as inside a first argument,
raw spans as outside. `prev` lists the opener positions inside the prefix
`Pre`, and `lw` carries the last of them together with the position of the
brace closing its first argument. -/
theorem annSpans_isInside :
    ∀ (ps : List ((Bool × Str × Str) × Str)) (L Pre : Str)
      (prev : List Nat) (lw : Option (Nat × Nat)),
      L = Pre ++ chunksStr ps →
      (∀ pr ∈ ps, pr.1.2.1 ≠ [] ∧ braceWalk pr.1.2.1 1 = some 1) →
      (∀ j, texorPat.isPrefixOf (L.drop j) = true →
        j ∈ prev ++ wrapOffs Pre.length ps) →
      (∀ p ∈ prev, p + 21 ≤ Pre.length) →
      List.Pairwise (fun p q => p + 16 ≤ q) prev →
      (∀ p ∈ prev, L.drop p = texorPat ++ lbrace :: L.drop (p + 16)) →
      (match lw with
       | none => prev = []
       | some (ow, fw) => prev.getLast? = some ow ∧ fw < Pre.length ∧
           firstArgClose (L.drop (ow + 16)) (ow + 16) 1 = some fw) →
      ∀ e ∈ annSpans Pre.length ps, isInsideTexorpdfstring L e.2.1 = e.1 := by
  intro ps
  induction ps with
  | nil =>
    intro L Pre prev lw _ _ _ _ _ _ _ e he
    simp [annSpans] at he
  | cons pr rest ih =>
    intro L Pre prev lw hL hpk hocc hprevB hprevPW hprevSh hlw e he
    obtain ⟨⟨fl, x, y⟩, g⟩ := pr
    obtain ⟨hxne, hxw⟩ := hpk _ (List.mem_cons_self _ _)
    have hpk' := fun q hq => hpk q (List.mem_cons_of_mem _ hq)
    have hLlen : Pre.length ≤ L.length := by
      rw [hL]
      simp
    cases fl
    · -- raw segment at the head
      simp only [annSpans, List.mem_cons] at he
      rcases he with rfl | he
      · -- the raw span itself: the detector says "outside"
        show isInsideTexorpdfstring L Pre.length = false
        have hoccT : ∀ j,
            texorPat.isPrefixOf ((L.take Pre.length).drop j) = true → j ∈ prev := by
          intro j hj
          have hj15 := occ_length15 hj
          rw [List.length_drop, List.length_take] at hj15
          rcases List.mem_append.mp (hocc j (occ_in_take hj)) with hp | hwo
          · exact hp
          · exfalso
            simp only [wrapOffs] at hwo
            have := wrapOffs_ge _ _ j hwo
            omega
        cases lw with
        | none =>
          subst hlw
          have hops : findOpeners (L.take Pre.length) = [] := by
            unfold findOpeners
            exact findOpenersGo_none _ _ _ (fun j => by
              cases heq : texorPat.isPrefixOf ((L.take Pre.length).drop j) with
              | false => rfl
              | true => exact absurd (hoccT j heq) (List.not_mem_nil j))
          exact isInside_of_no_opener hops
        | some owfw =>
          obtain ⟨ow, fw⟩ := owfw
          obtain ⟨hlast, hfwlt, hfac⟩ := hlw
          have hshT : ∀ p ∈ prev, (L.take Pre.length).drop p =
              texorPat ++ lbrace :: (L.take Pre.length).drop (p + 16) := by
            intro p hp
            exact shape_take (hprevSh p hp) (by have := hprevB p hp; omega)
          have hops := findOpenersGo_multi (L.take Pre.length).length prev
            (L.take Pre.length) (Nat.le_refl _) 0 0 hprevPW hshT hoccT
          have hops2 : findOpeners (L.take Pre.length) =
              prev.map (fun o => 0 + o + 16) := by
            unfold findOpeners
            have e1 : (L.take Pre.length).length + 1 =
                (L.take Pre.length).length + (0 + 1) := rfl
            rw [e1, hops]
          have h1 : (findOpeners (L.take Pre.length)).getLast? = some (ow + 16) := by
            rw [hops2, List.getLast?_map, hlast]
            simp
          have hblef : Nat.ble Pre.length fw = false := by
            cases hb : Nat.ble Pre.length fw with
            | false => rfl
            | true => exact absurd (Nat.le_of_ble_eq_true hb) (by omega)
          rw [isInside_eval h1 hfac, hblef, Bool.and_false]
      · -- spans of the remaining segments
        have hPre'len : (Pre ++ (dollar :: (x ++ [dollar]) ++ g)).length =
            Pre.length + x.length + 2 + g.length := by
          simp only [List.length_append, List.length_cons, List.length_nil]
          omega
        rw [← hPre'len] at he
        refine ih L (Pre ++ (dollar :: (x ++ [dollar]) ++ g)) prev lw ?_ hpk' ?_ ?_
          hprevPW hprevSh ?_ e he
        · rw [hL]
          simp [chunksStr, segStr]
        · intro j hj
          have h := hocc j hj
          simp only [wrapOffs] at h
          rw [hPre'len]
          exact h
        · intro p hp
          rw [hPre'len]
          have := hprevB p hp
          omega
        · cases lw with
          | none => exact hlw
          | some owfw =>
            obtain ⟨ow, fw⟩ := owfw
            obtain ⟨hlast, hfwlt, hfac⟩ := hlw
            refine ⟨hlast, ?_, hfac⟩
            rw [hPre'len]
            omega
    · -- wrapped segment at the head
      have hLdropO : L.drop Pre.length = chunksStr (((true, x, y), g) :: rest) := by
        rw [hL]
        exact List.drop_left _ _
      have hdrop16 : L.drop (Pre.length + 16) =
          dollar :: (x ++ [dollar]) ++
            (rbrace :: lbrace :: (y ++ [rbrace]) ++ (g ++ chunksStr rest)) := by
        have e1 : L.drop (Pre.length + 16) = (L.drop Pre.length).drop 16 :=
          (List.drop_drop 16 Pre.length L).symm
        rw [e1, hLdropO]
        have e2 : chunksStr (((true, x, y), g) :: rest) =
            (texorPat ++ [lbrace]) ++
              (dollar :: (x ++ [dollar]) ++
                (rbrace :: lbrace :: (y ++ [rbrace]) ++ (g ++ chunksStr rest))) := by
          simp [chunksStr, segStr, wrapRepl]
        rw [e2, List.drop_left' (show (texorPat ++ [lbrace]).length = 16 from rfl)]
      have hshO : L.drop Pre.length = texorPat ++ lbrace :: L.drop (Pre.length + 16) := by
        rw [hdrop16, hLdropO]
        simp [chunksStr, segStr, wrapRepl]
      have hbw : braceWalk (dollar :: (x ++ [dollar])) 1 = some 1 := braceWalk_dollarWrap hxw
      have hfacNew : firstArgClose (L.drop (Pre.length + 16)) (Pre.length + 16) 1 =
          some (Pre.length + 18 + x.length) := by
        have hZ : L.drop (Pre.length + 16) =
            (dollar :: (x ++ [dollar])) ++
              (rbrace :: (lbrace :: (y ++ [rbrace]) ++ (g ++ chunksStr rest))) := by
          rw [hdrop16]
          simp
        rw [hZ, braceWalk_skip (dollar :: (x ++ [dollar])) 1 1 hbw, firstArgClose_close]
        have e3 : Pre.length + 16 + (dollar :: (x ++ [dollar])).length =
            Pre.length + 18 + x.length := by
          simp only [List.length_cons, List.length_append, List.length_nil]
          omega
        rw [e3]
      have hpw2 : List.Pairwise (fun p q => p + 16 ≤ q) (prev ++ [Pre.length]) := by
        rw [List.pairwise_append]
        refine ⟨hprevPW, List.pairwise_singleton _ _, ?_⟩
        intro p hp q hq
        simp only [List.mem_singleton] at hq
        subst hq
        have := hprevB p hp
        omega
      have hsh2 : ∀ p ∈ prev ++ [Pre.length],
          L.drop p = texorPat ++ lbrace :: L.drop (p + 16) := by
        intro p hp
        rcases List.mem_append.mp hp with hp | hp
        · exact hprevSh p hp
        · rw [List.mem_singleton] at hp
          subst hp
          exact hshO
      simp only [annSpans, List.mem_cons] at he
      rcases he with rfl | he
      · -- the already-wrapped span: the detector says "inside"
        show isInsideTexorpdfstring L (Pre.length + 16) = true
        have hoccT : ∀ j, texorPat.isPrefixOf ((L.take (Pre.length + 16)).drop j) = true →
            j ∈ prev ++ [Pre.length] := by
          intro j hj
          have hj15 := occ_length15 hj
          rw [List.length_drop, List.length_take] at hj15
          rcases List.mem_append.mp (hocc j (occ_in_take hj)) with hp | hwo
          · exact List.mem_append.mpr (Or.inl hp)
          · simp only [wrapOffs, List.mem_cons] at hwo
            rcases hwo with rfl | htl
            · exact List.mem_append.mpr (Or.inr (List.mem_singleton.mpr rfl))
            · exfalso
              have := wrapOffs_ge _ _ j htl
              omega
        have hshT : ∀ p ∈ prev ++ [Pre.length], (L.take (Pre.length + 16)).drop p =
            texorPat ++ lbrace :: (L.take (Pre.length + 16)).drop (p + 16) := by
          intro p hp
          rcases List.mem_append.mp hp with hp2 | hp2
          · exact shape_take (hprevSh p hp2) (by have := hprevB p hp2; omega)
          · rw [List.mem_singleton] at hp2
            subst hp2
            exact shape_take hshO (Nat.le_refl _)
        have hops := findOpenersGo_multi (L.take (Pre.length + 16)).length
          (prev ++ [Pre.length]) (L.take (Pre.length + 16)) (Nat.le_refl _) 0 0
          hpw2 hshT hoccT
        have hops2 : findOpeners (L.take (Pre.length + 16)) =
            (prev ++ [Pre.length]).map (fun o => 0 + o + 16) := by
          unfold findOpeners
          have e1 : (L.take (Pre.length + 16)).length + 1 =
              (L.take (Pre.length + 16)).length + (0 + 1) := rfl
          rw [e1, hops]
        have h1 : (findOpeners (L.take (Pre.length + 16))).getLast? =
            some (Pre.length + 16) := by
          rw [hops2, List.map_append]
          simp only [List.map_cons, List.map_nil]
          rw [List.getLast?_concat]
          simp
        rw [isInside_eval h1 hfacNew]
        simp only [Bool.and_eq_true, Nat.ble_eq]
        omega
      · -- spans of the remaining segments
        have hPre'len : (Pre ++ (wrapRepl x y ++ g)).length =
            Pre.length + x.length + y.length + 21 + g.length := by
          simp only [List.length_append, wrapRepl_length]
          omega
        rw [← hPre'len] at he
        refine ih L (Pre ++ (wrapRepl x y ++ g)) (prev ++ [Pre.length])
          (some (Pre.length, Pre.length + 18 + x.length)) ?_ hpk' ?_ ?_ hpw2 hsh2 ?_ e he
        · rw [hL]
          simp [chunksStr, segStr]
        · intro j hj
          have h := hocc j hj
          simp only [wrapOffs] at h
          rw [List.append_cons] at h
          rw [hPre'len]
          exact h
        · intro p hp
          rw [hPre'len]
          rcases List.mem_append.mp hp with hp2 | hp2
          · have := hprevB p hp2
            omega
          · rw [List.mem_singleton] at hp2
            subst hp2
            omega
        · refine ⟨List.getLast?_concat _, ?_, hfacNew⟩
          rw [hPre'len]
          omega

/-- Processing the reversed annotated spans of a segment-list line with the
accept-all flag: raw spans are spliced with their table wrap, wrapped spans
are skipped, and neither the table nor stdin is touched. -/
theorem processSpans_chunks :
    ∀ (ps : List ((Bool × Str × Str) × Str)) (L : Str) (m : List (Str × Str))
      (stdin : List Str) (Pre : Str),
      (∀ pr ∈ ps, pr.1.1 = false → lookupMap m pr.1.2.1 = some pr.1.2.2) →
      (∀ e ∈ annSpans Pre.length ps, isInsideTexorpdfstring L e.2.1 = e.1) →
      processSpans true L (((annSpans Pre.length ps).map Prod.snd).reverse) m stdin
        (Pre ++ chunksStr ps) =
        .ok (Pre ++ chunksOut ps, m, stdin) := by
  intro ps
  induction ps with
  | nil =>
    intro L m stdin Pre _ _
    simp only [annSpans, List.map_nil, List.reverse_nil, chunksStr, chunksOut]
    rfl
  | cons pr rest ih =>
    intro L m stdin Pre hlk hins
    obtain ⟨⟨fl, x, y⟩, g⟩ := pr
    have hlk' := fun q hq => hlk q (List.mem_cons_of_mem _ hq)
    cases fl
    · -- raw head: its span is processed last and spliced
      simp only [annSpans] at hins
      have hinsHead : isInsideTexorpdfstring L Pre.length = false :=
        hins _ (List.mem_cons_self _ _)
      have hlkHead : lookupMap m x = some y := hlk _ (List.mem_cons_self _ _) rfl
      have hPre'len : (Pre ++ (dollar :: (x ++ [dollar]) ++ g)).length =
          Pre.length + x.length + 2 + g.length := by
        simp only [List.length_append, List.length_cons, List.length_nil]
        omega
      have hins2 : ∀ e ∈ annSpans (Pre ++ (dollar :: (x ++ [dollar]) ++ g)).length rest,
          isInsideTexorpdfstring L e.2.1 = e.1 := by
        rw [hPre'len]
        exact fun e he => hins e (List.mem_cons_of_mem _ he)
      have hchunks : Pre ++ chunksStr (((false, x, y), g) :: rest) =
          (Pre ++ (dollar :: (x ++ [dollar]) ++ g)) ++ chunksStr rest := by
        simp [chunksStr, segStr]
      have htail := ih L m stdin (Pre ++ (dollar :: (x ++ [dollar]) ++ g)) hlk' hins2
      simp only [annSpans, List.map_cons, List.reverse_cons]
      rw [hchunks, ← hPre'len, processSpans_append]
      simp only [htail]
      simp only [processSpans, hinsHead, Bool.false_eq_true, if_false,
        convertFormulaToUnicode, hlkHead, confirmChange, if_true]
      have hsplice : spliceAt ((Pre ++ (dollar :: (x ++ [dollar]) ++ g)) ++ chunksOut rest)
          Pre.length (Pre.length + x.length + 2) (wrapRepl x y) =
          Pre ++ chunksOut (((false, x, y), g) :: rest) := by
        unfold spliceAt
        have ht : ((Pre ++ (dollar :: (x ++ [dollar]) ++ g)) ++ chunksOut rest).take
            Pre.length = Pre := by
          have e1 : (Pre ++ (dollar :: (x ++ [dollar]) ++ g)) ++ chunksOut rest =
              Pre ++ ((dollar :: (x ++ [dollar]) ++ g) ++ chunksOut rest) := by
            simp
          rw [e1, List.take_left]
        have hd : ((Pre ++ (dollar :: (x ++ [dollar]) ++ g)) ++ chunksOut rest).drop
            (Pre.length + x.length + 2) = g ++ chunksOut rest := by
          have e1 : (Pre ++ (dollar :: (x ++ [dollar]) ++ g)) ++ chunksOut rest =
              (Pre ++ dollar :: (x ++ [dollar])) ++ (g ++ chunksOut rest) := by
            simp
          rw [e1, List.drop_left' (by
            simp only [List.length_append, List.length_cons, List.length_nil]
            omega)]
        rw [ht, hd]
        simp [chunksOut, segOut]
      rw [hsplice]
    · -- wrapped head: its span is skipped
      simp only [annSpans] at hins
      have hinsHead : isInsideTexorpdfstring L (Pre.length + 16) = true :=
        hins _ (List.mem_cons_self _ _)
      have hPre'len : (Pre ++ (wrapRepl x y ++ g)).length =
          Pre.length + x.length + y.length + 21 + g.length := by
        simp only [List.length_append, wrapRepl_length]
        omega
      have hins2 : ∀ e ∈ annSpans (Pre ++ (wrapRepl x y ++ g)).length rest,
          isInsideTexorpdfstring L e.2.1 = e.1 := by
        rw [hPre'len]
        exact fun e he => hins e (List.mem_cons_of_mem _ he)
      have hchunks : Pre ++ chunksStr (((true, x, y), g) :: rest) =
          (Pre ++ (wrapRepl x y ++ g)) ++ chunksStr rest := by
        simp [chunksStr, segStr]
      have htail := ih L m stdin (Pre ++ (wrapRepl x y ++ g)) hlk' hins2
      simp only [annSpans, List.map_cons, List.reverse_cons]
      rw [hchunks, ← hPre'len, processSpans_append]
      simp only [htail]
      simp only [processSpans, hinsHead, if_true]
      simp [chunksOut, segOut]

/-- The span scan of a segment-list heading line. -/
theorem findSpans_chunks (ps : List ((Bool × Str × Str) × Str)) (g0 : Str)
    (hg0 : containsChar dollar g0 = false)
    (hpk : ∀ pr ∈ ps, pr.1.2.1 ≠ [] ∧ containsChar dollar pr.1.2.1 = false ∧
      containsChar dollar pr.1.2.2 = false ∧ containsChar dollar pr.2 = false) :
    findSpans (g0 ++ chunksStr ps) = (annSpans g0.length ps).map Prod.snd := by
  unfold findSpans
  have hlen : (g0 ++ chunksStr ps).length + 1 =
      g0.length + ((chunksStr ps).length + (0 + 1)) := by
    simp only [List.length_append]
    omega
  rw [hlen, findSpansGo_seg g0 _ 0 _ hg0,
    show (0 : Nat) + g0.length = g0.length from Nat.zero_add _,
    findSpansGo_chunks ps 0 _ hpk]

/-- A nonempty segment list produces at least one span. -/
theorem annSpans_ne_nil (i : Nat) (pr : (Bool × Str × Str) × Str)
    (rest : List ((Bool × Str × Str) × Str)) : annSpans i (pr :: rest) ≠ [] := by
  obtain ⟨⟨fl, x, y⟩, g⟩ := pr
  cases fl <;> simp [annSpans]

/-- One pass of `process_line` with the accept-all flag over a structured
heading line: every raw span is wrapped with its table rendering, every
already-wrapped span is skipped, and the table and stdin are untouched. -/
theorem processLine_chunks (ps : List ((Bool × Str × Str) × Str)) (g0 : Str)
    (m : List (Str × Str)) (stdin : List Str)
    (hhead : isHeadingLine g0 = true)
    (hg0 : containsChar dollar g0 = false)
    (hpk : ∀ pr ∈ ps, pr.1.2.1 ≠ [] ∧ containsChar dollar pr.1.2.1 = false ∧
      braceWalk pr.1.2.1 1 = some 1 ∧ containsChar dollar pr.1.2.2 = false ∧
      containsChar dollar pr.2 = false ∧
      (pr.1.1 = false → lookupMap m pr.1.2.1 = some pr.1.2.2))
    (hocc : ∀ j, texorPat.isPrefixOf ((g0 ++ chunksStr ps).drop j) = true →
      j ∈ wrapOffs g0.length ps) :
    processLine true m stdin (g0 ++ chunksStr ps) = .ok (g0 ++ chunksOut ps, m, stdin) := by
  have hheadL : isHeadingLine (g0 ++ chunksStr ps) = true := isHeadingLine_append g0 _ hhead
  unfold processLine
  rw [hheadL]
  simp only [Bool.not_true, Bool.false_eq_true, if_false]
  rw [findSpans_chunks ps g0 hg0 (fun pr hpr =>
    ⟨(hpk pr hpr).1, (hpk pr hpr).2.1, (hpk pr hpr).2.2.2.1, (hpk pr hpr).2.2.2.2.1⟩)]
  cases ps with
  | nil =>
    simp only [annSpans, List.map_nil, List.isEmpty_nil, if_true, chunksStr, chunksOut]
  | cons pr rest =>
    have hne := annSpans_ne_nil g0.length pr rest
    have hemp : ((annSpans g0.length (pr :: rest)).map Prod.snd).isEmpty = false := by
      cases h : annSpans g0.length (pr :: rest) with
      | nil => exact absurd h hne
      | cons a l => rfl
    rw [hemp]
    simp only [Bool.false_eq_true, if_false]
    exact processSpans_chunks (pr :: rest) _ m stdin g0
      (fun q hq hraw => ((hpk q hq).2.2.2.2.2) hraw)
      (annSpans_isInside (pr :: rest) _ g0 [] none rfl
        (fun q hq => ⟨(hpk q hq).1, (hpk q hq).2.2.1⟩)
        (fun j hj => by simpa using hocc j hj)
        (fun p hp => absurd hp (List.not_mem_nil p))
        List.Pairwise.nil
        (fun p hp => absurd hp (List.not_mem_nil p))
        rfl)

/-- Claim C1 (amended): `process_line` with the accept-all flag is idempotent
on structurally well-formed heading lines: a delimiter-free heading prefix
(heading pattern complete inside it) followed by any sequence of segments,
each either an already-wrapped `\texorpdfstring{$a$}{b}` command or a raw span
`$c$` whose content has an exact Symbol Table entry, each segment followed by
a delimiter-free gap, with contents nonempty, delimiter-free and
brace-balanced, renderings delimiter-free, and the command name occurring only
at the wrapped commands (of the input line, and of the once-processed line).
One pass wraps exactly the raw spans with their table renderings; a second
pass returns the once-processed line unchanged, with the same table and input
stream: twice equals once. Moreover a span whose start is already inside a
`\texorpdfstring` first argument is always skipped, never re-wrapped. -/
theorem processLine_idempotent_structured
    (ps : List ((Bool × Str × Str) × Str)) (g0 : Str) (m : List (Str × Str))
    (stdin : List Str)
    (hhead : isHeadingLine g0 = true)
    (hg0 : containsChar dollar g0 = false)
    (hpk : ∀ pr ∈ ps, pr.1.2.1 ≠ [] ∧ containsChar dollar pr.1.2.1 = false ∧
      braceWalk pr.1.2.1 1 = some 1 ∧ containsChar dollar pr.1.2.2 = false ∧
      containsChar dollar pr.2 = false ∧
      (pr.1.1 = false → lookupMap m pr.1.2.1 = some pr.1.2.2))
    (hoccIn : ∀ j, texorPat.isPrefixOf ((g0 ++ chunksStr ps).drop j) = true →
      j ∈ wrapOffs g0.length ps)
    (hoccOut : ∀ j, texorPat.isPrefixOf ((g0 ++ chunksOut ps).drop j) = true →
      j ∈ wrapOffs g0.length (markW ps)) :
    processLine true m stdin (g0 ++ chunksStr ps) = .ok (g0 ++ chunksOut ps, m, stdin)
    ∧ processLine true m stdin (g0 ++ chunksOut ps) = .ok (g0 ++ chunksOut ps, m, stdin)
    ∧ ∀ (autoYes : Bool) (line : Str) (a b : Nat) (content : Str)
        (rest : List (Nat × Nat × Str)) (m2 : List (Str × Str)) (stdin2 : List Str)
        (acc : Str), isInsideTexorpdfstring line a = true →
        processSpans autoYes line ((a, b, content) :: rest) m2 stdin2 acc =
          processSpans autoYes line rest m2 stdin2 acc := by
  refine ⟨processLine_chunks ps g0 m stdin hhead hg0 hpk hoccIn, ?_, ?_⟩
  · -- second pass: every segment of the once-processed line is wrapped
    have hpkW : ∀ pr ∈ markW ps, pr.1.2.1 ≠ [] ∧ containsChar dollar pr.1.2.1 = false ∧
        braceWalk pr.1.2.1 1 = some 1 ∧ containsChar dollar pr.1.2.2 = false ∧
        containsChar dollar pr.2 = false ∧
        (pr.1.1 = false → lookupMap m pr.1.2.1 = some pr.1.2.2) := by
      intro q hq
      obtain ⟨pr, hpr, rfl⟩ := markW_mem hq
      obtain ⟨h1, h2, h3, h4, h5, _⟩ := hpk pr hpr
      exact ⟨h1, h2, h3, h4, h5, fun h => Bool.noConfusion h⟩
    have hoccW : ∀ j, texorPat.isPrefixOf ((g0 ++ chunksStr (markW ps)).drop j) = true →
        j ∈ wrapOffs g0.length (markW ps) := by
      intro j hj
      rw [chunksStr_markW ps] at hj
      exact hoccOut j hj
    have h2 := processLine_chunks (markW ps) g0 m stdin hhead hg0 hpkW hoccW
    rw [chunksStr_markW, chunksOut_markW] at h2
    exact h2
  · -- a span already inside a first argument is skipped
    intro autoYes line a b content rest m2 stdin2 acc h
    simp only [processSpans, h, if_true]

/-- Witness for C1 at `\section{A $\alpha$ and \texorpdfstring{$\beta$}{β} vs
$\gamma$}` (a heading with a raw span, an already-wrapped span, and another
raw span) with the default Symbol Table: the first pass wraps exactly the two
raw spans, the second pass returns the once-processed line unchanged. -/
theorem processLine_idempotent_structured_witness :
    processLine true defaultMappings []
        (strOf "\\section\x7bA " ++ chunksStr
          [((false, strOf "\\alpha", strOf "α"), strOf " and "),
           ((true, strOf "\\beta", strOf "β"), strOf " vs "),
           ((false, strOf "\\gamma", strOf "γ"), strOf "\x7d")]) =
      .ok (strOf "\\section\x7bA " ++ chunksOut
          [((false, strOf "\\alpha", strOf "α"), strOf " and "),
           ((true, strOf "\\beta", strOf "β"), strOf " vs "),
           ((false, strOf "\\gamma", strOf "γ"), strOf "\x7d")],
        defaultMappings, [])
    ∧ processLine true defaultMappings []
        (strOf "\\section\x7bA " ++ chunksOut
          [((false, strOf "\\alpha", strOf "α"), strOf " and "),
           ((true, strOf "\\beta", strOf "β"), strOf " vs "),
           ((false, strOf "\\gamma", strOf "γ"), strOf "\x7d")]) =
      .ok (strOf "\\section\x7bA " ++ chunksOut
          [((false, strOf "\\alpha", strOf "α"), strOf " and "),
           ((true, strOf "\\beta", strOf "β"), strOf " vs "),
           ((false, strOf "\\gamma", strOf "γ"), strOf "\x7d")],
        defaultMappings, []) := by
  have hoccIn : ∀ j, texorPat.isPrefixOf
      ((strOf "\\section\x7bA " ++ chunksStr
        [((false, strOf "\\alpha", strOf "α"), strOf " and "),
         ((true, strOf "\\beta", strOf "β"), strOf " vs "),
         ((false, strOf "\\gamma", strOf "γ"), strOf "\x7d")]).drop j) = true →
      j ∈ wrapOffs (strOf "\\section\x7bA ").length
        [((false, strOf "\\alpha", strOf "α"), strOf " and "),
         ((true, strOf "\\beta", strOf "β"), strOf " vs "),
         ((false, strOf "\\gamma", strOf "γ"), strOf "\x7d")] := by
    have hb : ∀ j, j < 50 → texorPat.isPrefixOf
        ((strOf "\\section\x7bA " ++ chunksStr
          [((false, strOf "\\alpha", strOf "α"), strOf " and "),
           ((true, strOf "\\beta", strOf "β"), strOf " vs "),
           ((false, strOf "\\gamma", strOf "γ"), strOf "\x7d")]).drop j) = true →
        j ∈ wrapOffs (strOf "\\section\x7bA ").length
          [((false, strOf "\\alpha", strOf "α"), strOf " and "),
           ((true, strOf "\\beta", strOf "β"), strOf " vs "),
           ((false, strOf "\\gamma", strOf "γ"), strOf "\x7d")] := by decide
    intro j hj
    by_cases h : j < 50
    · exact hb j h hj
    · exfalso
      have h15 := occ_length15 hj
      rw [List.length_drop] at h15
      have hL : (strOf "\\section\x7bA " ++ chunksStr
          [((false, strOf "\\alpha", strOf "α"), strOf " and "),
           ((true, strOf "\\beta", strOf "β"), strOf " vs "),
           ((false, strOf "\\gamma", strOf "γ"), strOf "\x7d")]).length = 64 := by decide
      omega
  have hoccOut : ∀ j, texorPat.isPrefixOf
      ((strOf "\\section\x7bA " ++ chunksOut
        [((false, strOf "\\alpha", strOf "α"), strOf " and "),
         ((true, strOf "\\beta", strOf "β"), strOf " vs "),
         ((false, strOf "\\gamma", strOf "γ"), strOf "\x7d")]).drop j) = true →
      j ∈ wrapOffs (strOf "\\section\x7bA ").length (markW
        [((false, strOf "\\alpha", strOf "α"), strOf " and "),
         ((true, strOf "\\beta", strOf "β"), strOf " vs "),
         ((false, strOf "\\gamma", strOf "γ"), strOf "\x7d")]) := by
    have hb : ∀ j, j < 90 → texorPat.isPrefixOf
        ((strOf "\\section\x7bA " ++ chunksOut
          [((false, strOf "\\alpha", strOf "α"), strOf " and "),
           ((true, strOf "\\beta", strOf "β"), strOf " vs "),
           ((false, strOf "\\gamma", strOf "γ"), strOf "\x7d")]).drop j) = true →
        j ∈ wrapOffs (strOf "\\section\x7bA ").length (markW
          [((false, strOf "\\alpha", strOf "α"), strOf " and "),
           ((true, strOf "\\beta", strOf "β"), strOf " vs "),
           ((false, strOf "\\gamma", strOf "γ"), strOf "\x7d")]) := by decide
    intro j hj
    by_cases h : j < 90
    · exact hb j h hj
    · exfalso
      have h15 := occ_length15 hj
      rw [List.length_drop] at h15
      have hL : (strOf "\\section\x7bA " ++ chunksOut
          [((false, strOf "\\alpha", strOf "α"), strOf " and "),
           ((true, strOf "\\beta", strOf "β"), strOf " vs "),
           ((false, strOf "\\gamma", strOf "γ"), strOf "\x7d")]).length = 104 := by decide
      omega
  have h := processLine_idempotent_structured
    [((false, strOf "\\alpha", strOf "α"), strOf " and "),
     ((true, strOf "\\beta", strOf "β"), strOf " vs "),
     ((false, strOf "\\gamma", strOf "γ"), strOf "\x7d")]
    (strOf "\\section\x7bA ") defaultMappings []
    (by decide) (by decide) (by decide) hoccIn hoccOut
  exact ⟨h.1, h.2.1⟩


end TexFix
